import Mathlib

/-!
# Workday Dota report: analytics and insight pipeline

A shallow embedding of `src/js/domain/models.js`, `src/js/domain/analytics.js`,
`src/js/domain/insights.js` and the filter of `src/js/state.js`, followed by the
properties established about them.

Conventions of the embedding.

* A JavaScript number is an exact rational (`ℚ`); counts and identifiers are `Nat`,
  epoch times are `Int`.  Binary floating-point rounding is not modelled.
* A field that JavaScript may leave `undefined` is an `Option`; `none` is `undefined`
  (or, for a number, the `NaN` that arithmetic on `undefined` produces).
* Aggregate functions run in `JsResult`: evaluation stops with a `Fault` at the first
  division by zero, at the first arithmetic on a missing number, or at the first
  thrown exception.  A result `Except.ok r` therefore means that the JavaScript
  evaluation performs none of these and returns `r`.
* The clock (`Date.now()`, `new Date()`) and the host time zone are explicit
  parameters.
-/

namespace WorkdayDota

/-! ## JavaScript primitives -/

/-- The ways in which an evaluation leaves the finite numbers or aborts. -/
inductive Fault
  | divisionByZero
  | notANumber
  | exception
  deriving DecidableEq, Repr

/-- Outcome of an evaluation of an aggregate function. -/
abbrev JsResult (α : Type) := Except Fault α

/-- The operator `a / b`; a zero denominator (which JavaScript answers with `NaN` or an
infinity) is reported as a fault. -/
def jsDiv (a b : ℚ) : JsResult ℚ :=
  if b = 0 then Except.error Fault.divisionByZero else Except.ok (a / b)

/-- Reading a number that may be `undefined` for use in arithmetic. -/
def jsNum (x : Option Nat) : JsResult ℚ :=
  match x with
  | some n => Except.ok (n : ℚ)
  | none => Except.error Fault.notANumber

/-- `Math.round`: nearest integer, halves towards positive infinity. -/
def mathRound (x : ℚ) : ℤ := ⌊x + 1 / 2⌋

/-- A value that is either a number or a string (the two shapes the KDA fields take). -/
inductive JsVal
  | num (q : ℚ)
  | str (s : String)
  deriving DecidableEq

/-- `Number.prototype.toFixed(f)` following the steps of the language standard: the sign,
the integer `n` nearest to `|x| * 10 ^ f` (the larger one on a tie), its decimal digits
padded with zeros to at least `f + 1` characters, and a point before the last `f`.  The
exponent form that the standard prescribes from `10 ^ 21` on is left out.  The steps are
applied to the exact rational `x`; JavaScript applies them to the double nearest to `x`,
which gives another last digit when `x * 10 ^ f` lies exactly halfway between two integers
and the double lies below it: `(29 / 20).toFixed(1)` is `"1.4"` there and `"1.5"` here. -/
def toFixed (f : Nat) (x : ℚ) : String :=
  let s := if x < 0 then "-" else ""
  let a := if x < 0 then -x else x
  let n := (mathRound (a * 10 ^ f)).toNat
  let m := Nat.toDigits 10 n
  let m := if m.length ≤ f then List.replicate (f + 1 - m.length) '0' ++ m else m
  if f = 0 then s ++ String.mk m
  else s ++ String.mk (m.take (m.length - f)) ++ "." ++ String.mk (m.drop (m.length - f))

/-- `String.prototype.padStart(n, c)` for a one-character filler. -/
def padStart (n : Nat) (c : Char) (s : String) : String :=
  String.mk (List.replicate (n - s.length) c) ++ s

/-- Value of a run of decimal digits, continuing from `acc`; `none` on any other
character. -/
def parseDigitsFrom (acc : Nat) : List Char → Option Nat
  | [] => some acc
  | c :: cs => if c.isDigit then parseDigitsFrom (10 * acc + (c.toNat - 48)) cs else none

/-- Value of a run of decimal digits. -/
def parseDigits (cs : List Char) : Option Nat := parseDigitsFrom 0 cs

/-- Numeric value of a plain decimal numeral: an optional minus sign, digits, and
optionally a point followed by digits, with at least one digit in all. -/
def parseDecimal (cs : List Char) : Option ℚ :=
  let neg := cs.head? = some '-'
  let body := if neg then cs.tail else cs
  let ip := body.takeWhile (fun c => c != '.')
  let fp := (body.dropWhile (fun c => c != '.')).tail
  if ip = [] ∧ fp = [] then none
  else
    match parseDigits ip, parseDigits fp with
    | some i, some f =>
      let v : ℚ := (i : ℚ) + (f : ℚ) / 10 ^ fp.length
      some (if neg then -v else v)
    | _, _ => none

/-- The conversion of a string to a number, on plain decimal numerals (the strings that
`toFixed` produces); every other string is treated as `NaN`. -/
def stringToNumber (s : String) : Option ℚ := parseDecimal s.data

/-- The numeric value of a `JsVal`, `none` for `NaN`. -/
def JsVal.toNumber : JsVal → Option ℚ
  | JsVal.num q => some q
  | JsVal.str s => stringToNumber s

/-- The comparison `v == q` of a value with a number: the value is converted to a number
first and `NaN` equals nothing. -/
def JsVal.looseEq (v : JsVal) (q : ℚ) : Bool := v.toNumber = some q

/-- `parseFloat` applied to a KDA field; `NaN` is reported as a fault. -/
def parseFloat (v : JsVal) : JsResult ℚ :=
  match v.toNumber with
  | some q => Except.ok q
  | none => Except.error Fault.notANumber

/-- A `Map` in insertion order, as a list of key and value pairs. -/
abbrev JsMap (κ α : Type) := List (κ × α)

/-- `Map.prototype.get`; `none` is `undefined`. -/
def JsMap.get {κ α : Type} [DecidableEq κ] (m : JsMap κ α) (k : κ) : Option α :=
  match m with
  | [] => none
  | (k', v) :: rest => if k' = k then some v else JsMap.get rest k

/-- `Map.prototype.set`: an existing key keeps its position, a new key goes last. -/
def JsMap.set {κ α : Type} [DecidableEq κ] (m : JsMap κ α) (k : κ) (v : α) : JsMap κ α :=
  match m with
  | [] => [(k, v)]
  | (k', v') :: rest => if k' = k then (k, v) :: rest else (k', v') :: JsMap.set rest k v

/-- `Array.from(map.values())`. -/
def JsMap.values {κ α : Type} (m : JsMap κ α) : List α := m.map Prod.snd

/-- `Array.prototype.sort` with a comparator `cmp` returning a number: a stable sort, `a`
staying before `b` when `cmp a b ≤ 0`. -/
def jsSort {α : Type} (cmp : α → α → ℤ) (xs : List α) : List α :=
  List.insertionSort (fun a b => cmp a b ≤ 0) xs

/-! ## `models.js` -/

/-- Game mode labels. -/
def GAME_MODES : Nat → Option String
  | 0 => some "Unknown"
  | 1 => some "All Pick"
  | 2 => some "Captains Mode"
  | 3 => some "Random Draft"
  | 4 => some "Single Draft"
  | 5 => some "All Random"
  | 6 => some "Intro"
  | 7 => some "Diretide"
  | 8 => some "Reverse Captains Mode"
  | 9 => some "Greeviling"
  | 10 => some "Tutorial"
  | 11 => some "Mid Only"
  | 12 => some "Least Played"
  | 13 => some "Limited Heroes"
  | 14 => some "Compendium"
  | 15 => some "Custom"
  | 16 => some "Captains Draft"
  | 17 => some "Balanced Draft"
  | 18 => some "Ability Draft"
  | 19 => some "Event"
  | 20 => some "All Random Deathmatch"
  | 21 => some "1v1 Mid"
  | 22 => some "All Draft"
  | 23 => some "Turbo"
  | 24 => some "Mutation"
  | _ => none

/-- Lobby type labels. -/
def LOBBY_TYPES : Nat → Option String
  | 0 => some "Normal"
  | 1 => some "Practice"
  | 2 => some "Tournament"
  | 4 => some "Co-op Bot"
  | 5 => some "Ranked Solo/Duo"
  | 6 => some "Ranked Team"
  | 7 => some "Ranked"
  | 8 => some "Solo Mid 1v1"
  | 9 => some "Battle Cup"
  | _ => none

/-- One entry of the hero statistics returned by the data source. -/
structure RawHero where
  id : Nat
  localized_name : String
  img : Option String
  icon : Option String
  primary_attr : Option String
  attack_type : Option String
  roles : Option (List String)
  deriving DecidableEq

/-- An entry of the hero directory. -/
structure Hero where
  id : Nat
  name : String
  image : Option String
  icon : Option String
  primaryAttr : Option String
  attackType : Option String
  roles : List String
  deriving DecidableEq

/-- The hero directory. -/
abbrev HeroMap := JsMap Nat Hero

/-- `getHeroImageUrl` of `services/api.js`: `null` for a missing or empty path. -/
def getHeroImageUrl (imagePath : Option String) : Option String :=
  match imagePath with
  | none => none
  | some p => if p = "" then none else some ("https://cdn.dota2.com" ++ p)

/-- Build the hero directory from the hero statistics. -/
def createHeroMap (heroStats : List RawHero) : HeroMap :=
  heroStats.foldl (fun map hero =>
    JsMap.set map hero.id
      { id := hero.id
        name := hero.localized_name
        image := getHeroImageUrl hero.img
        icon := getHeroImageUrl hero.icon
        primaryAttr := hero.primary_attr
        attackType := hero.attack_type
        roles := hero.roles.getD [] }) []

/-- Classification of a match. -/
inductive MatchType
  | ranked
  | normal
  | turbo
  deriving DecidableEq, Repr

/-- Outcome of a match for the player. -/
inductive MatchResult
  | win
  | loss
  | unknown
  deriving DecidableEq, Repr

/-- The `radiant_win` flag of a raw record: missing, `null`, or a boolean. -/
inductive RadiantWin
  | undefined
  | null
  | bool (b : Bool)
  deriving DecidableEq, Repr

/-- Determine the match type from the lobby type and the game mode. -/
def getMatchType (lobbyType gameMode : Option Nat) : MatchType :=
  if gameMode = some 23 then MatchType.turbo
  else if lobbyType = some 5 ∨ lobbyType = some 6 ∨ lobbyType = some 7 then MatchType.ranked
  else MatchType.normal

/-- The comparison `playerSlot < 128`, false for a missing slot. -/
def slotIsRadiant (playerSlot : Option Nat) : Bool :=
  match playerSlot with
  | some s => decide (s < 128)
  | none => false

/-- Determine the match result from the radiant-won flag and the player slot. -/
def getMatchResult (radiantWin : RadiantWin) (playerSlot : Option Nat) : MatchResult :=
  match radiantWin with
  | RadiantWin.undefined => MatchResult.unknown
  | RadiantWin.null => MatchResult.unknown
  | RadiantWin.bool w =>
    let isRadiant := slotIsRadiant playerSlot
    if isRadiant = w then MatchResult.win else MatchResult.loss

/-- Format a duration in seconds as minutes and two-digit seconds; a missing duration
makes both parts `NaN`. -/
def formatDuration (seconds : Option Nat) : String :=
  match seconds with
  | none => "NaN" ++ ":" ++ padStart 2 '0' "NaN"
  | some s =>
    let mins := s / 60
    let secs := s % 60
    Nat.repr mins ++ ":" ++ padStart 2 '0' (Nat.repr secs)

/-- Calculate the KDA ratio: a number when `deaths` is zero, otherwise the two-decimal
string of the quotient. -/
def calculateKdaRatio (kills deaths assists : Nat) : JsVal :=
  if deaths = 0 then JsVal.num ((kills : ℚ) + (assists : ℚ))
  else JsVal.str (toFixed 2 (((kills : ℚ) + (assists : ℚ)) / (deaths : ℚ)))

/-- What the host supplies to the date functions: the offset of local time from UTC in
milliseconds at a given instant, and the short local date text of an instant. -/
structure Host where
  localOffset : Int → Int
  toLocaleDateString : Option Int → String

/-- `new Date(value)`: the time value, invalid (`none`) when missing or out of range. -/
def newDate (value : Option Int) : Option Int :=
  match value with
  | none => none
  | some v => if v.natAbs ≤ 8640000000000000 then some v else none

/-- Relative time text of a date, `now` being the clock reading of `new Date()`. -/
def getRelativeTime (host : Host) (now : Int) (date : Option Int) : String :=
  match date with
  | none => host.toLocaleDateString none
  | some d =>
    let diffMs := now - d
    let diffMins := diffMs / 60000
    let diffHours := diffMs / 3600000
    let diffDays := diffMs / 86400000
    if diffMins < 60 then toString diffMins ++ " minutos atrás"
    else if diffHours < 24 then toString diffHours ++ " horas atrás"
    else if diffDays = 1 then "Ontem"
    else if diffDays < 7 then toString diffDays ++ " dias atrás"
    else host.toLocaleDateString (some d)

/-- A raw match record of the data source; every field may be missing. -/
structure RawMatch where
  match_id : Option Nat
  hero_id : Option Nat
  player_slot : Option Nat
  radiant_win : RadiantWin
  kills : Option Nat
  deaths : Option Nat
  assists : Option Nat
  duration : Option Nat
  lobby_type : Option Nat
  game_mode : Option Nat
  start_time : Option Int
  lane : Option Nat
  lane_role : Option Nat
  party_size : Option Nat
  average_rank : Option Nat
  deriving DecidableEq

/-- The `kda` part of a match. -/
structure Kda where
  kills : Nat
  deaths : Nat
  assists : Nat
  ratio : JsVal
  deriving DecidableEq

/-- The `duration` part of a match. -/
structure Duration where
  seconds : Option Nat
  formatted : String
  deriving DecidableEq

/-- A normalized match.  `timestamp` is `none` for `NaN`; the `localTime` date object is
`newDate timestamp`. -/
structure Match where
  id : Option Nat
  heroId : Option Nat
  heroName : String
  heroImage : Option String
  heroIcon : Option String
  result : MatchResult
  kda : Kda
  duration : Duration
  type : MatchType
  gameMode : String
  lobbyType : String
  mmrChange : Option Int
  timestamp : Option Int
  localTime : Option Int
  relativeTime : String
  playerSlot : Option Nat
  isRadiant : Bool
  lane : Option Nat
  laneRole : Option Nat
  partySize : Option Nat
  averageRank : Option Nat
  raw : RawMatch
  deriving DecidableEq

/-- The placeholder used when the hero is not in the directory. -/
structure HeroView where
  name : String
  image : Option String
  icon : Option String

/-- The lookup `heroMap.get(hero_id) || placeholder`. -/
def lookupHero (heroMap : HeroMap) (heroId : Option Nat) : HeroView :=
  match heroId.bind (fun k => JsMap.get heroMap k) with
  | some h => { name := h.name, image := h.image, icon := h.icon }
  | none => { name := "Unknown", image := none, icon := none }

/-- Normalize a raw match record to the domain model. -/
def normalizeMatch (host : Host) (now : Int) (rawMatch : RawMatch) (heroMap : HeroMap) :
    Match :=
  let hero := lookupHero heroMap rawMatch.hero_id
  let timestamp := rawMatch.start_time.map (fun t => t * 1000)
  let localTime := newDate timestamp
  { id := rawMatch.match_id
    heroId := rawMatch.hero_id
    heroName := hero.name
    heroImage := hero.image
    heroIcon := hero.icon
    result := getMatchResult rawMatch.radiant_win rawMatch.player_slot
    kda :=
      { kills := rawMatch.kills.getD 0
        deaths := rawMatch.deaths.getD 0
        assists := rawMatch.assists.getD 0
        ratio := calculateKdaRatio (rawMatch.kills.getD 0) (rawMatch.deaths.getD 0)
          (rawMatch.assists.getD 0) }
    duration :=
      { seconds := rawMatch.duration
        formatted := formatDuration rawMatch.duration }
    type := getMatchType rawMatch.lobby_type rawMatch.game_mode
    gameMode := ((rawMatch.game_mode.bind GAME_MODES).getD "Unknown")
    lobbyType := ((rawMatch.lobby_type.bind LOBBY_TYPES).getD "Unknown")
    mmrChange := none
    timestamp := timestamp
    localTime := localTime
    relativeTime := getRelativeTime host now localTime
    playerSlot := rawMatch.player_slot
    isRadiant := slotIsRadiant rawMatch.player_slot
    lane := rawMatch.lane
    laneRole := rawMatch.lane_role
    partySize := rawMatch.party_size
    averageRank := rawMatch.average_rank
    raw := rawMatch }

/-! ## Dates -/

/-- The local hour of a date (`Date.prototype.getHours`), `none` for an invalid date. -/
def getHours (host : Host) (date : Option Int) : Option Int :=
  date.map (fun t => ((t + host.localOffset t) / 3600000) % 24)

/-- The local weekday of a date (`Date.prototype.getDay`), 0 being Sunday; `none` for an
invalid date. -/
def getDay (host : Host) (date : Option Int) : Option Int :=
  date.map (fun t => ((t + host.localOffset t) / 86400000 + 4) % 7)

/-- Year, month and day of the month of a day number counted from 1 January 1970, in the
proleptic Gregorian calendar. -/
def civilFromDays (days : Int) : Int × Int × Int :=
  let z := days + 719468
  let era := z / 146097
  let doe := z - era * 146097
  let yoe := (doe - doe / 1460 + doe / 36524 - doe / 146096) / 365
  let doy := doe - (365 * yoe + yoe / 4 - yoe / 100)
  let mp := (5 * doy + 2) / 153
  let d := doy - (153 * mp + 2) / 5 + 1
  let m := if mp < 10 then mp + 3 else mp - 9
  let y := yoe + era * 400 + (if m ≤ 2 then 1 else 0)
  (y, m, d)

/-- Decimal digits of a natural number, padded with zeros on the left to `n` characters. -/
def zeroPad (n : Nat) (k : Nat) : String := padStart n '0' (Nat.repr k)

/-- The date part of `Date.prototype.toISOString` (the text before the `T`): the UTC
calendar date, the year with four digits, or a sign and six digits outside 0 to 9999.
An invalid date makes `toISOString` throw. -/
def isoDateKey (date : Option Int) : JsResult String :=
  match date with
  | none => Except.error Fault.exception
  | some t =>
    let ymd := civilFromDays (t / 86400000)
    let y := ymd.1
    let year :=
      if 0 ≤ y ∧ y ≤ 9999 then zeroPad 4 y.toNat
      else if y < 0 then "-" ++ zeroPad 6 y.natAbs
      else "+" ++ zeroPad 6 y.natAbs
    Except.ok (year ++ "-" ++ zeroPad 2 ymd.2.1.toNat ++ "-" ++ zeroPad 2 ymd.2.2.toNat)

/-- `String.prototype.localeCompare` on date keys: the order of the character codes. -/
def localeCompare (a b : String) : ℤ :=
  if a < b then -1 else if a = b then 0 else 1

/-! ## `state.js`: the workday filter -/

/-- The workday configuration. -/
structure Config where
  workdayStart : Int
  workdayEnd : Int
  workdays : List Int

/-- The default configuration: 09:00 to 18:00, Monday to Friday. -/
def DEFAULT_CONFIG : Config :=
  { workdayStart := 9, workdayEnd := 18, workdays := [1, 2, 3, 4, 5] }

/-- Check whether a timestamp falls within workday hours; `config` is `state.config`. -/
def isWorkdayTime (host : Host) (config : Config) (timestamp : Option Int) : Bool :=
  let date := newDate timestamp
  let hours := getHours host date
  let day := getDay host date
  let isWorkday :=
    match day with
    | some d => decide (d ∈ config.workdays)
    | none => false
  let isWorkHours :=
    match hours with
    | some h => decide (h ≥ config.workdayStart) && decide (h < config.workdayEnd)
    | none => false
  isWorkday && isWorkHours

/-! ## `analytics.js` -/

/-- `Array.prototype.map` with a callback that may fault. -/
def jsMapM {α β : Type} (f : α → JsResult β) : List α → JsResult (List β)
  | [] => Except.ok []
  | x :: xs =>
    match f x with
    | Except.error e => Except.error e
    | Except.ok y =>
      match jsMapM f xs with
      | Except.error e => Except.error e
      | Except.ok ys => Except.ok (y :: ys)

/-- Result of `calculateWinRate`. -/
structure WinRate where
  rate : ℤ
  wins : Nat
  losses : Nat
  total : Nat
  deriving DecidableEq

/-- Calculate the overall win rate. -/
def calculateWinRate (ms : List Match) : JsResult WinRate :=
  let total := ms.length
  if total = 0 then Except.ok { rate := 0, wins := 0, losses := 0, total := 0 }
  else do
    let wins := (ms.filter (fun m => m.result = MatchResult.win)).length
    let losses := (ms.filter (fun m => m.result = MatchResult.loss)).length
    let q ← jsDiv wins total
    pure { rate := mathRound (q * 100), wins := wins, losses := losses, total := total }

/-- Running totals of kills, deaths and assists. -/
structure KdaTotals where
  kills : Nat
  deaths : Nat
  assists : Nat
  deriving DecidableEq

/-- Result of `calculateAverageKda`. -/
structure AverageKda where
  kills : JsVal
  deaths : JsVal
  assists : JsVal
  ratio : JsVal
  deriving DecidableEq

/-- The `reduce` of `calculateAverageKda`. -/
def kdaTotals (ms : List Match) : KdaTotals :=
  ms.foldl (fun acc m =>
    { kills := acc.kills + m.kda.kills
      deaths := acc.deaths + m.kda.deaths
      assists := acc.assists + m.kda.assists }) { kills := 0, deaths := 0, assists := 0 }

/-- The sum of the kills of a collection. -/
def totalKills (ms : List Match) : Nat := (ms.map (fun m => m.kda.kills)).sum

/-- The sum of the deaths of a collection. -/
def totalDeaths (ms : List Match) : Nat := (ms.map (fun m => m.kda.deaths)).sum

/-- The sum of the assists of a collection. -/
def totalAssists (ms : List Match) : Nat := (ms.map (fun m => m.kda.assists)).sum

/-- Calculate the average KDA. -/
def calculateAverageKda (ms : List Match) : JsResult AverageKda :=
  if ms.length = 0 then
    Except.ok { kills := JsVal.num 0, deaths := JsVal.num 0, assists := JsVal.num 0,
                ratio := JsVal.num 0 }
  else do
    let totals := kdaTotals ms
    let avgKills ← jsDiv totals.kills ms.length
    let avgDeaths ← jsDiv totals.deaths ms.length
    let avgAssists ← jsDiv totals.assists ms.length
    pure { kills := JsVal.str (toFixed 1 avgKills)
           deaths := JsVal.str (toFixed 1 avgDeaths)
           assists := JsVal.str (toFixed 1 avgAssists)
           ratio := calculateKdaRatio totals.kills totals.deaths totals.assists }

/-- The reducer `(acc, m) => acc + m.duration.seconds`. -/
def addDuration (acc : ℚ) (m : Match) : JsResult ℚ := do
  let s ← jsNum m.duration.seconds
  pure (acc + s)

/-- The sum of the durations, `matches.reduce((acc, m) => acc + m.duration.seconds, 0)`. -/
def sumDurations (ms : List Match) : JsResult ℚ :=
  ms.foldlM addDuration (0 : ℚ)

/-- Result of `calculateAverageDuration`. -/
structure AverageDuration where
  seconds : ℤ
  formatted : String
  deriving DecidableEq

/-- Calculate the average match duration. -/
def calculateAverageDuration (ms : List Match) : JsResult AverageDuration :=
  if ms.length = 0 then Except.ok { seconds := 0, formatted := "0:00" }
  else do
    let totalSeconds ← sumDurations ms
    let q ← jsDiv totalSeconds ms.length
    let avgSeconds := mathRound q
    let mins := avgSeconds / 60
    let secs := avgSeconds % 60
    pure { seconds := avgSeconds
           formatted := toString mins ++ ":" ++ padStart 2 '0' (toString secs) }

/-- Result of `countMatchesByType`. -/
structure TypeCounts where
  ranked : Nat
  normal : Nat
  turbo : Nat
  deriving DecidableEq

/-- Count the matches of each type. -/
def countMatchesByType (ms : List Match) : TypeCounts :=
  { ranked := (ms.filter (fun m => m.type = MatchType.ranked)).length
    normal := (ms.filter (fun m => m.type = MatchType.normal)).length
    turbo := (ms.filter (fun m => m.type = MatchType.turbo)).length }

/-- Per-hero counters of `getMostPlayedHeroes`. -/
structure HeroStat where
  heroId : Option Nat
  heroName : String
  heroImage : Option String
  games : Nat
  wins : Nat
  deriving DecidableEq

/-- An entry of the result of `getMostPlayedHeroes`. -/
structure HeroEntry where
  heroId : Option Nat
  heroName : String
  heroImage : Option String
  games : Nat
  wins : Nat
  winRate : ℤ
  deriving DecidableEq

/-- One step of the `forEach` of `getMostPlayedHeroes`. -/
def heroStatsStep (heroStats : JsMap (Option Nat) HeroStat) (m : Match) :
    JsMap (Option Nat) HeroStat :=
  let existing := (JsMap.get heroStats m.heroId).getD
    { heroId := m.heroId, heroName := m.heroName, heroImage := m.heroImage,
      games := 0, wins := 0 }
  let existing := { existing with games := existing.games + 1 }
  let existing :=
    if m.result = MatchResult.win then { existing with wins := existing.wins + 1 }
    else existing
  JsMap.set heroStats m.heroId existing

/-- The callback adding `winRate` to a hero entry. -/
def heroWithWinRate (h : HeroStat) : JsResult HeroEntry := do
  let q ← jsDiv h.wins h.games
  pure { heroId := h.heroId, heroName := h.heroName, heroImage := h.heroImage,
         games := h.games, wins := h.wins, winRate := mathRound (q * 100) }

/-- Get the most played heroes. -/
def getMostPlayedHeroes (ms : List Match) (limit : Nat) : JsResult (List HeroEntry) := do
  let heroStats := ms.foldl heroStatsStep []
  let entries ← jsMapM heroWithWinRate (JsMap.values heroStats)
  pure ((jsSort (fun a b => (b.games : ℤ) - (a.games : ℤ)) entries).take limit)

/-- Per-lane counters of `getBestRole`. -/
structure LaneStat where
  name : String
  games : Nat
  wins : Nat
  deriving DecidableEq

/-- Result of `getBestRole`; the sentinel has no `wins`. -/
structure RoleEntry where
  name : String
  games : Nat
  wins : Option Nat
  winRate : ℤ
  deriving DecidableEq

/-- The initial `lanes` object, in the order of `Object.values`. -/
def initialLanes : List (Nat × LaneStat) :=
  [ (1, { name := "Safe Lane", games := 0, wins := 0 }),
    (2, { name := "Mid Lane", games := 0, wins := 0 }),
    (3, { name := "Off Lane", games := 0, wins := 0 }),
    (4, { name := "Jungle", games := 0, wins := 0 }) ]

/-- One step of the `forEach` of `getBestRole`: a match whose lane is a key of `lanes`
is counted there. -/
def lanesStep (lanes : List (Nat × LaneStat)) (m : Match) : List (Nat × LaneStat) :=
  match m.lane with
  | none => lanes
  | some lane =>
    if lane ≠ 0 ∧ (lanes.any (fun p => p.1 = lane)) then
      lanes.map (fun p =>
        if p.1 = lane then
          (p.1, { p.2 with
            games := p.2.games + 1
            wins := if m.result = MatchResult.win then p.2.wins + 1 else p.2.wins })
        else p)
    else lanes

/-- The callback adding `winRate` to a lane. -/
def laneWithWinRate (l : LaneStat) : JsResult RoleEntry := do
  let q ← jsDiv l.wins l.games
  pure { name := l.name, games := l.games, wins := some l.wins, winRate := mathRound (q * 100) }

/-- The comparator of `getBestRole`. -/
def roleCompare (a b : RoleEntry) : ℤ :=
  if b.games < 3 ∧ a.games ≥ 3 then -1
  else if a.games < 3 ∧ b.games ≥ 3 then 1
  else b.winRate - a.winRate

/-- Determine the best lane by win rate. -/
def getBestRole (ms : List Match) : JsResult RoleEntry := do
  let lanes := ms.foldl lanesStep initialLanes
  let withRates ← jsMapM laneWithWinRate
    ((lanes.map Prod.snd).filter (fun l => l.games > 0))
  let sorted := jsSort roleCompare withRates
  pure (sorted.head?.getD { name := "Unknown", winRate := 0, games := 0, wins := none })

/-- The comparison `timestamp >= bound`, false for a `NaN` timestamp. -/
def timestampGe (timestamp : Option Int) (bound : Int) : Bool :=
  match timestamp with
  | some t => decide (t ≥ bound)
  | none => false

/-- The comparison `timestamp < bound`, false for a `NaN` timestamp. -/
def timestampLt (timestamp : Option Int) (bound : Int) : Bool :=
  match timestamp with
  | some t => decide (t < bound)
  | none => false

/-- Matches and win rate of one week; `matchCount` is the field `matches`. -/
structure WeekSummary where
  matchCount : ℤ
  winRate : ℤ
  deriving DecidableEq

/-- Result of `calculateWeeklyStats`. -/
structure WeeklyStats where
  thisWeek : WeekSummary
  lastWeek : WeekSummary
  trend : WeekSummary
  deriving DecidableEq

/-- The matches of the last seven days before the clock reading `now`. -/
def thisWeekMatches (now : Int) (ms : List Match) : List Match :=
  ms.filter (fun m => timestampGe m.timestamp (now - 7 * 24 * 60 * 60 * 1000))

/-- The matches of the seven days before those. -/
def lastWeekMatches (now : Int) (ms : List Match) : List Match :=
  ms.filter (fun m =>
    timestampGe m.timestamp (now - 14 * 24 * 60 * 60 * 1000) &&
      timestampLt m.timestamp (now - 7 * 24 * 60 * 60 * 1000))

/-- Calculate the weekly trends; `now` is the value of `Date.now()`, which the source
reads inside the function, twice on adjacent lines; one reading stands for both. -/
def calculateWeeklyStats (now : Int) (ms : List Match) : JsResult WeeklyStats := do
  let thisWeek := thisWeekMatches now ms
  let lastWeek := lastWeekMatches now ms
  let thisWeekWinRate ← calculateWinRate thisWeek
  let lastWeekWinRate ← calculateWinRate lastWeek
  pure
    { thisWeek := { matchCount := thisWeek.length, winRate := thisWeekWinRate.rate }
      lastWeek := { matchCount := lastWeek.length, winRate := lastWeekWinRate.rate }
      trend :=
        { matchCount := (thisWeek.length : ℤ) - (lastWeek.length : ℤ)
          winRate := thisWeekWinRate.rate - lastWeekWinRate.rate } }

/-- Result of `calculatePlayStyle`. -/
structure PlayStyle where
  fighting : ℤ
  versatility : ℤ
  farming : ℤ
  supporting : ℤ
  pushing : ℤ
  deriving DecidableEq

/-- The size of `new Set(matches.map(m => m.heroId))`. -/
def uniqueHeroCount (ms : List Match) : Nat :=
  ((ms.map (fun m => m.heroId)).dedup).length

/-- Calculate the play style metrics of the radar chart. -/
def calculatePlayStyle (ms : List Match) : JsResult PlayStyle :=
  if ms.length = 0 then
    Except.ok { fighting := 0, versatility := 0, farming := 0, supporting := 0, pushing := 0 }
  else do
    let avgKda ← calculateAverageKda ms
    let avgKills ← parseFloat avgKda.kills
    let fighting := min 100 (mathRound (avgKills * 10))
    let uniqueHeroes := uniqueHeroCount ms
    let heroRatio ← jsDiv uniqueHeroes ms.length
    let versatility := min 100 (mathRound (heroRatio * 100 * 2))
    let rankedRatio ←
      jsDiv (ms.filter (fun m => m.type = MatchType.ranked)).length ms.length
    let farming := min 100 (mathRound (rankedRatio * 100 + 20))
    let avgAssists ← parseFloat avgKda.assists
    let _avgDeaths ← parseFloat avgKda.deaths
    let assistRatio ← jsDiv avgAssists (avgKills + 1)
    let supporting := min 100 (mathRound (assistRatio * 50))
    let avgDuration := (← calculateAverageDuration ms).seconds
    let pushing := min 100 (mathRound ((2400 - (avgDuration : ℚ)) / 12))
    pure { fighting := max 0 fighting
           versatility := max 0 versatility
           farming := max 0 farming
           supporting := max 0 supporting
           pushing := max 0 pushing }

/-- Per-day counters of `getPerformanceOverTime`. -/
structure DayStat where
  wins : Nat
  losses : Nat
  games : Nat
  deriving DecidableEq

/-- An entry of the result of `getPerformanceOverTime`. -/
structure DayEntry where
  date : String
  wins : Nat
  losses : Nat
  games : Nat
  winRate : ℤ
  deriving DecidableEq

/-- One step of the `forEach` of `getPerformanceOverTime`. -/
def byDateStep (byDate : JsMap String DayStat) (m : Match) : JsResult (JsMap String DayStat) := do
  let dateKey ← isoDateKey m.localTime
  let day := (JsMap.get byDate dateKey).getD { wins := 0, losses := 0, games := 0 }
  let day := { day with games := day.games + 1 }
  let day :=
    if m.result = MatchResult.win then { day with wins := day.wins + 1 }
    else if m.result = MatchResult.loss then { day with losses := day.losses + 1 }
    else day
  pure (JsMap.set byDate dateKey day)

/-- The callback adding `winRate` to a day. -/
def dayWithWinRate (entry : String × DayStat) : JsResult DayEntry := do
  let q ← jsDiv entry.2.wins entry.2.games
  pure { date := entry.1, wins := entry.2.wins, losses := entry.2.losses,
         games := entry.2.games, winRate := mathRound (q * 100) }

/-- Get the performance over time for the charts; `now` is the value of `Date.now()`,
which the source reads inside the function. -/
def getPerformanceOverTime (now : Int) (ms : List Match) (days : Int) :
    JsResult (List DayEntry) := do
  let cutoff := now - days * 24 * 60 * 60 * 1000
  let filtered := ms.filter (fun m => timestampGe m.timestamp cutoff)
  let byDate ← filtered.foldlM byDateStep []
  let entries ← jsMapM dayWithWinRate byDate
  pure (jsSort (fun a b => localeCompare a.date b.date) entries)

/-! ## `insights.js` -/

/-- Kind of an insight. -/
inductive InsightType
  | info
  | warning
  | success
  deriving DecidableEq, Repr

/-- A generated insight. -/
structure Insight where
  type : InsightType
  title : String
  message : String
  deriving DecidableEq

/-- Check for many recent deaths. -/
def checkFarmingIssues (ms : List Match) : JsResult (List Insight) := do
  let recent := ms.take 5
  let avgDeaths ← jsDiv ((recent.map (fun m => m.kda.deaths)).sum : Nat) recent.length
  if avgDeaths > 8 then
    pure [{ type := InsightType.warning
            title := "Muitas Mortes Recentes"
            message := "Nas últimas " ++ Nat.repr recent.length ++
              " partidas, sua média de mortes foi " ++ toFixed 1 avgDeaths ++
              ". Tente jogar mais seguro no early game." }]
  else pure []

/-- Per-hero counters of `checkSynergies`. -/
structure SynergyStat where
  wins : Nat
  games : Nat
  name : String
  deriving DecidableEq

/-- A hero of `checkSynergies` with its win rate. -/
structure SynergyEntry where
  wins : Nat
  games : Nat
  name : String
  winRate : ℤ
  deriving DecidableEq

/-- One step of the `forEach` of `checkSynergies`. -/
def synergyStep (heroWinRates : JsMap (Option Nat) SynergyStat) (m : Match) :
    JsMap (Option Nat) SynergyStat :=
  let stats := (JsMap.get heroWinRates m.heroId).getD { wins := 0, games := 0, name := m.heroName }
  let stats := { stats with games := stats.games + 1 }
  let stats := if m.result = MatchResult.win then { stats with wins := stats.wins + 1 } else stats
  JsMap.set heroWinRates m.heroId stats

/-- The callback adding `winRate` to a hero of `checkSynergies`. -/
def synergyWithWinRate (h : SynergyStat) : JsResult SynergyEntry := do
  let q ← jsDiv h.wins h.games
  pure { wins := h.wins, games := h.games, name := h.name, winRate := mathRound (q * 100) }

/-- Check for heroes with a high win rate. -/
def checkSynergies (ms : List Match) : JsResult (List Insight) := do
  let heroWinRates := ms.foldl synergyStep []
  let withRates ← jsMapM synergyWithWinRate
    ((JsMap.values heroWinRates).filter (fun h => h.games ≥ 3))
  let highWinRate := jsSort (fun a b => b.winRate - a.winRate)
    (withRates.filter (fun h => h.winRate ≥ 70))
  match highWinRate with
  | hero :: _ =>
    pure [{ type := InsightType.success
            title := "Sinergia Alta"
            message := "Você tem " ++ toString hero.winRate ++ "% de vitória jogando com " ++
              hero.name ++ " (" ++ Nat.repr hero.games ++ " partidas)." }]
  | [] => pure []

/-- The `for` loop of `checkStreaks`: the number of leading matches whose result is
`streakType` and is not unknown. -/
def streakLength (streakType : MatchResult) : List Match → Nat
  | [] => 0
  | m :: rest =>
    if m.result = streakType ∧ m.result ≠ MatchResult.unknown then
      streakLength streakType rest + 1
    else 0

/-- Check for winning and losing streaks. -/
def checkStreaks (ms : List Match) : JsResult (List Insight) :=
  if ms.length < 3 then Except.ok []
  else
    match ms.head? with
    | none => Except.error Fault.exception
    | some first =>
      let streakType := first.result
      let currentStreak := streakLength streakType ms
      if currentStreak ≥ 3 then
        if streakType = MatchResult.win then
          Except.ok [{ type := InsightType.success
                       title := "Sequência de Vitórias!"
                       message := "Você está em uma sequência de " ++ Nat.repr currentStreak ++
                         " vitórias! Continue assim!" }]
        else if streakType = MatchResult.loss then
          Except.ok [{ type := InsightType.warning
                       title := "Sequência de Derrotas"
                       message := Nat.repr currentStreak ++
                         " derrotas em sequência. Considere fazer uma pausa ou mudar de estratégia." }]
        else Except.ok []
      else Except.ok []

/-- Check the performance of the most played heroes. -/
def checkHeroPerformance (ms : List Match) : JsResult (List Insight) := do
  let heroes ← getMostPlayedHeroes ms 10
  let problematic := heroes.find? (fun h => decide (h.games ≥ 5) && decide (h.winRate < 40))
  let first : List Insight :=
    match problematic with
    | some h =>
      [{ type := InsightType.warning
         title := "Performance de Herói"
         message := "Sua taxa de vitória com " ++ h.heroName ++ " é de apenas " ++
           toString h.winRate ++ "% em " ++ Nat.repr h.games ++
           " partidas. Considere praticar em unranked ou escolher outro herói." }]
    | none => []
  let best := heroes.find? (fun h => decide (h.games ≥ 3) && decide (h.winRate ≥ 60))
  let second : List Insight :=
    match best with
    | some h =>
      [{ type := InsightType.success
         title := "Herói Forte"
         message := h.heroName ++ " é seu herói mais eficiente com " ++ toString h.winRate ++
           "% de vitória em " ++ Nat.repr h.games ++ " partidas." }]
    | none => []
  pure (first ++ second)

/-- The comparison `m.duration.seconds > 40 * 60`, false for a missing duration. -/
def isLateGame (m : Match) : Bool :=
  match m.duration.seconds with
  | some s => decide (s > 40 * 60)
  | none => false

/-- The late-game part of `checkPlayPatterns`. -/
def checkLateGame (ms : List Match) : JsResult (List Insight) := do
  let total ← sumDurations ms
  let avgDuration ← jsDiv total ms.length
  if avgDuration > 45 * 60 then
    let lateGameWins :=
      (ms.filter (fun m => isLateGame m && decide (m.result = MatchResult.win))).length
    let lateGameTotal := (ms.filter isLateGame).length
    if lateGameTotal ≥ 5 then
      let q ← jsDiv lateGameWins lateGameTotal
      let lateWinRate := mathRound (q * 100)
      pure [{ type := InsightType.info
              title := "Partidas Longas"
              message := "Suas partidas costumam passar de 40 minutos. " ++
                "Sua taxa de vitória em late game é " ++ toString lateWinRate ++ "%." }]
    else pure []
  else pure []

/-- The match-type part of `checkPlayPatterns`. -/
def checkRankedShare (ms : List Match) : JsResult (List Insight) := do
  let ranked := (ms.filter (fun m => m.type = MatchType.ranked)).length
  let rankedRatio ← jsDiv ranked ms.length
  if rankedRatio < 3 / 10 ∧ ms.length > 10 then
    pure [{ type := InsightType.info
            title := "Modo de Jogo"
            message := "Apenas " ++ toString (mathRound (rankedRatio * 100)) ++
              "% das suas partidas são ranked. Jogue mais ranked para melhorar seu MMR!" }]
  else pure []

/-- Check the play patterns: long games, then the share of ranked games. -/
def checkPlayPatterns (ms : List Match) : JsResult (List Insight) := do
  let late ← checkLateGame ms
  let share ← checkRankedShare ms
  pure (late ++ share)

/-- The single insight returned when there are fewer than five matches. -/
def insufficientData : Insight :=
  { type := InsightType.info
    title := "Dados Insuficientes"
    message := "Jogue mais partidas para receber insights personalizados." }

/-- Generate all insights for a player. -/
def generateInsights (ms : List Match) : JsResult (List Insight) :=
  if ms.length < 5 then Except.ok [insufficientData]
  else do
    let farming ← checkFarmingIssues ms
    let synergies ← checkSynergies ms
    let streaks ← checkStreaks ms
    let heroPerformance ← checkHeroPerformance ms
    let playPatterns ← checkPlayPatterns ms
    pure ((farming ++ synergies ++ streaks ++ heroPerformance ++ playPatterns).take 5)

/-! ## `state.js`: loading and filtering -/

/-- The filter mode. -/
inductive FilterMode
  | remunerado
  | todas
  deriving DecidableEq, Repr

/-- The part of the global state that the filter and the loader touch; `activeMatches`
is the field `state.matches`. -/
structure State where
  filterMode : FilterMode
  config : Config
  rawMatches : List Match
  heroMap : HeroMap
  activeMatches : List Match

/-- Filter the matches according to the current filter mode. -/
def applyFilter (host : Host) (state : State) : State :=
  if state.filterMode = FilterMode.todas then
    { state with activeMatches := state.rawMatches }
  else
    { state with
      activeMatches := state.rawMatches.filter (fun m => isWorkdayTime host state.config m.timestamp) }

/-- The data steps of `initialize` in `state.js` once the three requests have answered:
build the hero directory, normalize every raw match, apply the filter. -/
def initState (host : Host) (now : Int) (state : State) (heroStats : List RawHero)
    (rawMatches : List RawMatch) : State :=
  let heroMap := createHeroMap heroStats
  let state := { state with heroMap := heroMap }
  let state :=
    { state with rawMatches := rawMatches.map (fun m => normalizeMatch host now m state.heroMap) }
  applyFilter host state

/-! ## Closed forms used in the statements -/

/-- The number that `toFixed(f)` writes for a non-negative `x`: `x` rounded to `f`
decimals, halves upwards. -/
def toFixedValue (f : Nat) (x : ℚ) : ℚ := ((mathRound (x * 10 ^ f)).toNat : ℚ) / 10 ^ f

/-- The entry of `getMostPlayedHeroes` for a hero with at least one game. -/
def heroEntryOf (h : HeroStat) : HeroEntry :=
  { heroId := h.heroId, heroName := h.heroName, heroImage := h.heroImage, games := h.games,
    wins := h.wins, winRate := mathRound ((h.wins : ℚ) / (h.games : ℚ) * 100) }

/-- The entry of `getBestRole` for a lane with at least one game. -/
def roleEntryOf (l : LaneStat) : RoleEntry :=
  { name := l.name, games := l.games, wins := some l.wins,
    winRate := mathRound ((l.wins : ℚ) / (l.games : ℚ) * 100) }

/-- The entry of `checkSynergies` for a hero with at least one game. -/
def synergyEntryOf (h : SynergyStat) : SynergyEntry :=
  { wins := h.wins, games := h.games, name := h.name,
    winRate := mathRound ((h.wins : ℚ) / (h.games : ℚ) * 100) }

/-- The entry of `getPerformanceOverTime` for a day with at least one game. -/
def dayEntryOf (entry : String × DayStat) : DayEntry :=
  { date := entry.1, wins := entry.2.wins, losses := entry.2.losses, games := entry.2.games,
    winRate := mathRound ((entry.2.wins : ℚ) / (entry.2.games : ℚ) * 100) }

/-- The sum of the durations of a collection, a missing duration counting as 0. -/
def totalDuration (ms : List Match) : Nat := (ms.map (fun m => m.duration.seconds.getD 0)).sum

/-! ## Example inputs -/

/-- A host whose local time is UTC and whose short date text is day/month/year. -/
def utcHost : Host :=
  { localOffset := fun _ => 0
    toLocaleDateString := fun date =>
      match date with
      | none => "Invalid Date"
      | some t =>
        let ymd := civilFromDays (t / 86400000)
        zeroPad 2 ymd.2.2.toNat ++ "/" ++ zeroPad 2 ymd.2.1.toNat ++ "/" ++ toString ymd.1 }

/-- The state before loading: workday mode, default configuration, no data. -/
def initialState : State :=
  { filterMode := FilterMode.remunerado
    config := DEFAULT_CONFIG
    rawMatches := []
    heroMap := []
    activeMatches := [] }

/-- A complete raw record: a ranked win on Tuesday 14 November 2023 at 12:00 UTC. -/
def completeRawMatch : RawMatch :=
  { match_id := some 7000000001
    hero_id := some 14
    player_slot := some 1
    radiant_win := RadiantWin.bool true
    kills := some 4
    deaths := some 2
    assists := some 6
    duration := some 2125
    lobby_type := some 7
    game_mode := some 22
    start_time := some 1699963200
    lane := some 2
    lane_role := some 2
    party_size := some 1
    average_rank := some 55 }

/-- The normalized complete record, with UTC as local time and an empty hero directory. -/
def completeMatch : Match := normalizeMatch utcHost 1700000000000 completeRawMatch []

/-- The complete record with its `duration` field missing. -/
def rawWithoutDuration : RawMatch := { completeRawMatch with duration := none }

/-- The complete record with neither a match identifier nor a hero identifier. -/
def rawWithoutIds : RawMatch := { completeRawMatch with match_id := none, hero_id := none }

/-- The normalized complete record with its result replaced. -/
def matchWithResult (r : MatchResult) : Match := { completeMatch with result := r }

/-- Five matches, most recent first, with the results win, win, win, loss, win. -/
def streakSample : List Match :=
  [matchWithResult MatchResult.win, matchWithResult MatchResult.win,
    matchWithResult MatchResult.win, matchWithResult MatchResult.loss,
    matchWithResult MatchResult.win]

/-- The insight of `checkStreaks` for a winning streak of `k` matches. -/
def winStreakInsight (k : Nat) : Insight :=
  { type := InsightType.success
    title := "Sequência de Vitórias!"
    message := "Você está em uma sequência de " ++ Nat.repr k ++ " vitórias! Continue assim!" }

/-- The insight of `checkStreaks` for a losing streak of `k` matches. -/
def lossStreakInsight (k : Nat) : Insight :=
  { type := InsightType.warning
    title := "Sequência de Derrotas"
    message := Nat.repr k ++
      " derrotas em sequência. Considere fazer uma pausa ou mudar de estratégia." }

/-- The length of the longest prefix of a collection whose results all equal the result
of its first match, taken as 0 when that result is unknown (and for no match at all). -/
def leadingStreak (ms : List Match) : Nat :=
  match ms with
  | [] => 0
  | first :: _ =>
    if first.result = MatchResult.unknown then 0
    else (ms.takeWhile (fun m => decide (m.result = first.result))).length

/-- The play style scores as the specification words them: from the exact means of kills,
assists and duration, the share of distinct heroes and the share of ranked matches. -/
def specPlayStyle (ms : List Match) : PlayStyle :=
  let avgKills : ℚ := (totalKills ms : ℚ) / (ms.length : ℚ)
  let avgAssists : ℚ := (totalAssists ms : ℚ) / (ms.length : ℚ)
  let avgDurationSeconds : ℚ := (totalDuration ms : ℚ) / (ms.length : ℚ)
  let uniqueHeroes : ℚ := (uniqueHeroCount ms : ℚ)
  let rankedRatio : ℚ :=
    ((ms.filter (fun m => m.type = MatchType.ranked)).length : ℚ) / (ms.length : ℚ)
  { fighting := max 0 (min 100 (mathRound (avgKills * 10)))
    versatility := max 0 (min 100 (mathRound (uniqueHeroes / (ms.length : ℚ) * 200)))
    farming := max 0 (min 100 (mathRound (rankedRatio * 100 + 20)))
    supporting := max 0 (min 100 (mathRound (avgAssists / (avgKills + 1) * 50)))
    pushing := max 0 (min 100 (mathRound ((2400 - avgDurationSeconds) / 12))) }

/-- The normalized complete record with its kills and assists replaced. -/
def matchWithKda (kills assists : Nat) : Match :=
  { completeMatch with
    kda := { kills := kills, deaths := 2, assists := assists,
             ratio := calculateKdaRatio kills 2 assists } }

/-- The normalized complete record with its duration replaced. -/
def matchWithDuration (seconds : Nat) : Match :=
  { completeMatch with
    duration := { seconds := some seconds, formatted := formatDuration (some seconds) } }

/-- Three matches with 1 kill and 2 assists in all: the means are 1/3 and 2/3. -/
def supportingSample : List Match := [matchWithKda 1 2, matchWithKda 0 0, matchWithKda 0 0]

/-- Five matches whose durations sum to 11972 seconds: the mean is 2394.4. -/
def pushingSample : List Match :=
  [matchWithDuration 2394, matchWithDuration 2394, matchWithDuration 2394,
    matchWithDuration 2395, matchWithDuration 2395]

/-- The local calendar date of a date as `YYYY-MM-DD`, which the specification names as
the grouping key: the calendar date of the instant shifted by the local offset. -/
def localDateKey (host : Host) (date : Option Int) : JsResult String :=
  isoDateKey (date.map (fun t => t + host.localOffset t))

/-- A host whose local time is three hours behind UTC all year (Brasília time). -/
def brasiliaHost : Host :=
  { localOffset := fun _ => -10800000
    toLocaleDateString := fun date =>
      match date with
      | none => "Invalid Date"
      | some t =>
        let ymd := civilFromDays ((t - 10800000) / 86400000)
        zeroPad 2 ymd.2.2.toNat ++ "/" ++ zeroPad 2 ymd.2.1.toNat ++ "/" ++ toString ymd.1 }

/-- The complete record played on 14 November 2023 at 20:00 Brasília time (23:00 UTC). -/
def eveningMatch : Match :=
  normalizeMatch brasiliaHost 1700020000000
    { completeRawMatch with start_time := some 1700002800 } []

/-- The complete record played on 14 November 2023 at 22:00 Brasília time, which is
15 November 01:00 UTC. -/
def lateEveningMatch : Match :=
  normalizeMatch brasiliaHost 1700020000000
    { completeRawMatch with start_time := some 1700010000 } []

/-- The distinct elements of a list in the order of their first occurrence. -/
def firstOccurrences {α : Type} [DecidableEq α] (l : List α) : List α :=
  (l.reverse.dedup).reverse

/-- The position of the first occurrence of `a` in `l` (the length of `l` if there is
none). -/
def firstIndex {α : Type} [DecidableEq α] (l : List α) (a : α) : Nat := l.indexOf a

/-- The hero identifiers of a collection, match by match. -/
def heroIds (ms : List Match) : List (Option Nat) := ms.map (fun m => m.heroId)

/-- The number of matches of a collection played with the hero `k`. -/
def heroGames (ms : List Match) (k : Option Nat) : Nat :=
  (ms.filter (fun m => decide (m.heroId = k))).length

/-- The number of matches of a collection won with the hero `k`. -/
def heroWins (ms : List Match) (k : Option Nat) : Nat :=
  (ms.filter (fun m => decide (m.heroId = k) && decide (m.result = MatchResult.win))).length

/-- The counters that `getMostPlayedHeroes` holds for the hero `k` after the `forEach`:
name and image of the first match played with `k`, and the numbers of games and wins. -/
def heroStatOf (ms : List Match) (k : Option Nat) : HeroStat :=
  match ms.find? (fun m => decide (m.heroId = k)) with
  | some first =>
    { heroId := first.heroId, heroName := first.heroName, heroImage := first.heroImage,
      games := heroGames ms k, wins := heroWins ms k }
  | none => { heroId := k, heroName := "", heroImage := none, games := 0, wins := 0 }


/-- The entries of `getMostPlayedHeroes` before sorting: one per distinct hero, in the
order of the first matches. -/
def heroEntries (ms : List Match) : List HeroEntry :=
  (firstOccurrences (heroIds ms)).map (fun k => heroEntryOf (heroStatOf ms k))

/-- The number of matches of a collection whose lane code is `lane`. -/
def laneGames (ms : List Match) (lane : Nat) : Nat :=
  (ms.filter (fun m => decide (m.lane = some lane))).length

/-- The number of won matches of a collection whose lane code is `lane`. -/
def laneWins (ms : List Match) (lane : Nat) : Nat :=
  (ms.filter
    (fun m => decide (m.lane = some lane) && decide (m.result = MatchResult.win))).length

/-- A lane counter advanced by the matches of a collection. -/
def laneStatOf (ms : List Match) (p : Nat × LaneStat) : Nat × LaneStat :=
  (p.1, { name := p.2.name, games := p.2.games + laneGames ms p.1,
          wins := p.2.wins + laneWins ms p.1 })

/-- The entry of `getBestRole` for the lane with code `lane`. -/
def laneEntry (ms : List Match) (lane : Nat) (name : String) : RoleEntry :=
  { name := name, games := laneGames ms lane, wins := some (laneWins ms lane),
    winRate := mathRound ((laneWins ms lane : ℚ) / (laneGames ms lane : ℚ) * 100) }

/-- The four lanes with their games, wins and rounded win rates, in the order of the
`lanes` object. -/
def laneEntries (ms : List Match) : List RoleEntry :=
  [laneEntry ms 1 "Safe Lane", laneEntry ms 2 "Mid Lane", laneEntry ms 3 "Off Lane",
    laneEntry ms 4 "Jungle"]

/-- The sentinel that `getBestRole` returns when no lane has a game. -/
def unknownRole : RoleEntry := { name := "Unknown", winRate := 0, games := 0, wins := none }

/-- The normalized complete record with its lane and result replaced. -/
def matchWithLane (lane : Nat) (r : MatchResult) : Match :=
  { completeMatch with lane := some lane, result := r }

/-- Two won matches in the safe lane, and three matches in the mid lane with two wins. -/
def roleSample : List Match :=
  [matchWithLane 1 MatchResult.win, matchWithLane 1 MatchResult.win,
    matchWithLane 2 MatchResult.win, matchWithLane 2 MatchResult.win,
    matchWithLane 2 MatchResult.loss]

/-- The warning of `checkFarmingIssues` for `count` recent matches with the mean number of
deaths `avgDeaths`. -/
def farmingInsight (count : Nat) (avgDeaths : ℚ) : Insight :=
  { type := InsightType.warning
    title := "Muitas Mortes Recentes"
    message := "Nas últimas " ++ Nat.repr count ++
      " partidas, sua média de mortes foi " ++ toFixed 1 avgDeaths ++
      ". Tente jogar mais seguro no early game." }

/-- The sum of the deaths of the first five matches of a collection. -/
def recentDeaths (ms : List Match) : Nat := ((ms.take 5).map (fun m => m.kda.deaths)).sum

/-- Reading of a `minutes:seconds` text: the digits before the colon times 60 plus the
digits after it; `none` when either part has another character. -/
def parseDuration (text : String) : Option Nat :=
  let mins := text.data.takeWhile (fun c => c != ':')
  let secs := (text.data.dropWhile (fun c => c != ':')).tail
  match parseDigits mins, parseDigits secs with
  | some m, some s => some (m * 60 + s)
  | _, _ => none

/-- The info insight of `checkPlayPatterns` on long games, for the late-game win rate
`lateWinRate`. -/
def lateGameInsight (lateWinRate : ℤ) : Insight :=
  { type := InsightType.info
    title := "Partidas Longas"
    message := "Suas partidas costumam passar de 40 minutos. " ++
      "Sua taxa de vitória em late game é " ++ toString lateWinRate ++ "%." }

/-- The info insight of `checkPlayPatterns` on the share of ranked games, for the rounded
percentage `percent`. -/
def rankedShareInsight (percent : ℤ) : Insight :=
  { type := InsightType.info
    title := "Modo de Jogo"
    message := "Apenas " ++ toString percent ++
      "% das suas partidas são ranked. Jogue mais ranked para melhorar seu MMR!" }

/-- The number of matches lasting more than 40 minutes. -/
def lateGameTotal (ms : List Match) : Nat := (ms.filter isLateGame).length

/-- The number of won matches lasting more than 40 minutes. -/
def lateGameWins (ms : List Match) : Nat :=
  (ms.filter (fun m => isLateGame m && decide (m.result = MatchResult.win))).length

/-- The counters that `checkSynergies` holds for the hero `k` after the `forEach`: the
numbers of wins and games, and the name of the first match played with `k`. -/
def synergyStatOf (ms : List Match) (k : Option Nat) : SynergyStat :=
  { wins := heroWins ms k, games := heroGames ms k, name := (heroStatOf ms k).heroName }

/-- The rounded win rate of the hero `k`, `Math.round(wins / games * 100)`. -/
def heroRate (ms : List Match) (k : Option Nat) : ℤ :=
  mathRound ((heroWins ms k : ℚ) / (heroGames ms k : ℚ) * 100)

/-- The heroes of `checkSynergies` with their win rates, before any filter: one per
distinct hero, in the order of the first matches. -/
def synergyEntries (ms : List Match) : List SynergyEntry :=
  (firstOccurrences (heroIds ms)).map (fun k => synergyEntryOf (synergyStatOf ms k))

/-- The success insight of `checkSynergies` for the hero `hero`. -/
def synergyInsight (hero : SynergyEntry) : Insight :=
  { type := InsightType.success
    title := "Sinergia Alta"
    message := "Você tem " ++ toString hero.winRate ++ "% de vitória jogando com " ++
      hero.name ++ " (" ++ Nat.repr hero.games ++ " partidas)." }

/-- Twenty-three matches with one hero, of which sixteen are won. -/
def synergySample : List Match :=
  List.replicate 16 (matchWithResult MatchResult.win) ++
    List.replicate 7 (matchWithResult MatchResult.loss)

/-- The warning of `checkHeroPerformance` for the hero entry `h`. -/
def heroWarningInsight (h : HeroEntry) : Insight :=
  { type := InsightType.warning
    title := "Performance de Herói"
    message := "Sua taxa de vitória com " ++ h.heroName ++ " é de apenas " ++
      toString h.winRate ++ "% em " ++ Nat.repr h.games ++
      " partidas. Considere praticar em unranked ou escolher outro herói." }

/-- The "Herói Forte" success insight of `checkHeroPerformance` for the hero entry `h`. -/
def heroStrongInsight (h : HeroEntry) : Insight :=
  { type := InsightType.success
    title := "Herói Forte"
    message := h.heroName ++ " é seu herói mais eficiente com " ++ toString h.winRate ++
      "% de vitória em " ++ Nat.repr h.games ++ " partidas." }

/-- A hero directory with two heroes. -/
def sampleHeroes : HeroMap :=
  createHeroMap
    [{ id := 1, localized_name := "Anti-Mage", img := none, icon := none,
       primary_attr := none, attack_type := none, roles := none },
     { id := 2, localized_name := "Axe", img := none, icon := none,
       primary_attr := none, attack_type := none, roles := none }]

/-- The complete record played with the hero `hero`, won or lost (the player is on the
radiant side). -/
def heroMatch (hero : Nat) (won : Bool) : Match :=
  normalizeMatch utcHost 1700000000000
    { completeRawMatch with hero_id := some hero, radiant_win := RadiantWin.bool won }
    sampleHeroes

/-- Eight matches: five with Anti-Mage, of which three are won, then three with Axe, all
won. -/
def strongHeroSample : List Match :=
  [heroMatch 1 true, heroMatch 1 true, heroMatch 1 true, heroMatch 1 false, heroMatch 1 false,
    heroMatch 2 true, heroMatch 2 true, heroMatch 2 true]

/-- The complete record as an unranked game of 50 minutes with 9 deaths, played with the
hero `hero`, won or lost. -/
def longRecord (hero : Nat) (won : Bool) : RawMatch :=
  { completeRawMatch with
    hero_id := some hero, radiant_win := RadiantWin.bool won, deaths := some 9,
    duration := some 3000, lobby_type := some 0 }

/-- The record `longRecord hero won`, normalized. -/
def longMatch (hero : Nat) (won : Bool) : Match :=
  normalizeMatch utcHost 1700000000000 (longRecord hero won) sampleHeroes

/-- Eleven long unranked matches with 9 deaths each, most recent first: six wins with
Anti-Mage, then five losses with Axe. -/
def sevenSample : List Match :=
  List.replicate 6 (longMatch 1 true) ++ List.replicate 5 (longMatch 2 false)

/-! ## Properties: rounding -/

theorem mathRound_natCast_div (a b : Nat) (k : Nat) :
    mathRound ((a : ℚ) / (b : ℚ) * (k : ℚ)) = if b = 0 then 0 else ((2 * k * a + b : ℕ) : ℤ) / ((2 * b : ℕ) : ℤ) := by
  unfold mathRound
  split
  · next hb =>
    subst hb
    norm_num [Int.floor_eq_iff]
  · next hb =>
    have hb' : (b : ℚ) ≠ 0 := by exact_mod_cast hb
    have : (a : ℚ) / (b : ℚ) * (k : ℚ) + 1 / 2 = ((2 * k * a + b : ℕ) : ℚ) / ((2 * b : ℕ) : ℚ) := by
      push_cast
      field_simp
      ring
    rw [this, Rat.floor_natCast_div_natCast]

theorem mathRound_percent_bounds (a b : Nat) (h : a ≤ b) :
    0 ≤ mathRound ((a : ℚ) / (b : ℚ) * 100) ∧ mathRound ((a : ℚ) / (b : ℚ) * 100) ≤ 100 := by
  have := mathRound_natCast_div a b 100
  simp only [Nat.cast_ofNat] at this
  rw [this]
  split
  · simp
  · next hb =>
    have hb' : 0 < b := Nat.pos_of_ne_zero hb
    constructor
    · positivity
    · have h2 : ((2 * 100 * a + b : ℕ) : ℤ) / ((2 * b : ℕ) : ℤ) = ((2 * 100 * a + b) / (2 * b) : ℕ) := by
        norm_cast
      rw [h2]
      have : (2 * 100 * a + b) / (2 * b) ≤ 100 := by
        have : (2 * 100 * a + b) / (2 * b) < 101 := by
          rw [Nat.div_lt_iff_lt_mul (by omega)]
          nlinarith
        omega
      exact_mod_cast this

/-! ## Properties: win rate -/

theorem result_count_partition (ms : List Match) :
    (ms.filter (fun m => m.result = MatchResult.win)).length +
      (ms.filter (fun m => m.result = MatchResult.loss)).length +
      (ms.filter (fun m => m.result = MatchResult.unknown)).length = ms.length := by
  induction ms with
  | nil => simp
  | cons m rest ih =>
    cases hr : m.result <;> simp [List.filter_cons, hr] <;> omega

theorem calculateWinRate_ok (ms : List Match) :
    calculateWinRate ms = Except.ok
      { rate := if ms.length = 0 then 0
          else mathRound (((ms.filter (fun m => m.result = MatchResult.win)).length : ℚ) /
            (ms.length : ℚ) * 100)
        wins := (ms.filter (fun m => m.result = MatchResult.win)).length
        losses := (ms.filter (fun m => m.result = MatchResult.loss)).length
        total := ms.length } := by
  unfold calculateWinRate
  by_cases h : ms.length = 0
  · have : ms = [] := List.length_eq_zero.mp h
    subst this
    simp
  · have hq : ((ms.length : ℚ)) ≠ 0 := by exact_mod_cast h
    simp [h, jsDiv, hq, bind, Except.bind, pure, Except.pure]

/-- C1: every call of `calculateWinRate` returns a record with `wins + losses ≤ total`,
and equality holds exactly when no match of the collection has an unknown result. -/
theorem calculateWinRate_wins_losses_le_total (ms : List Match) :
    ∃ r, calculateWinRate ms = Except.ok r ∧ r.wins + r.losses ≤ r.total ∧
      (r.wins + r.losses = r.total ↔ ∀ m ∈ ms, m.result ≠ MatchResult.unknown) := by
  refine ⟨_, calculateWinRate_ok ms, ?_, ?_⟩
  · have := result_count_partition ms
    simp only
    omega
  · have := result_count_partition ms
    simp only
    constructor
    · intro h m hm hu
      have h0 : (ms.filter (fun m => m.result = MatchResult.unknown)).length = 0 := by omega
      have h1 := List.length_eq_zero.mp h0
      have : m ∈ ms.filter (fun m => m.result = MatchResult.unknown) := by
        simp [List.mem_filter, hm, hu]
      rw [h1] at this
      simp at this
    · intro h
      have h0 : ms.filter (fun m => m.result = MatchResult.unknown) = [] := by
        rw [List.filter_eq_nil_iff]
        intro m hm
        simpa using h m hm
      rw [h0] at this
      simpa using this

/-- C2: `calculateWinRate` returns `total` = the number of matches, `wins` and `losses` =
the numbers of won and lost matches (a match of unknown result counts in `total` only),
`rate` = 0 for the empty collection and otherwise `Math.round(wins / total * 100)`, which
is the integer quotient `(200 * wins + total) / (2 * total)`; the rate is an integer
between 0 and 100. -/
theorem calculateWinRate_spec (ms : List Match) :
    ∃ r, calculateWinRate ms = Except.ok r ∧
      r.total = ms.length ∧
      r.wins = (ms.filter (fun m => m.result = MatchResult.win)).length ∧
      r.losses = (ms.filter (fun m => m.result = MatchResult.loss)).length ∧
      r.rate = (if r.total = 0 then 0 else mathRound ((r.wins : ℚ) / (r.total : ℚ) * 100)) ∧
      r.rate = (if r.total = 0 then 0
        else (200 * (r.wins : ℤ) + (r.total : ℤ)) / (2 * (r.total : ℤ))) ∧
      0 ≤ r.rate ∧ r.rate ≤ 100 := by
  refine ⟨_, calculateWinRate_ok ms, rfl, rfl, rfl, rfl, ?_, ?_⟩
  · simp only
    split
    · rfl
    · next hne =>
      have := mathRound_natCast_div
        (ms.filter (fun m => m.result = MatchResult.win)).length ms.length 100
      simp only [Nat.cast_ofNat, hne, if_false] at this
      rw [this]
      push_cast
      ring_nf
  · simp only
    split
    · simp
    · exact mathRound_percent_bounds _ _ (List.length_filter_le _ _)

/-! ## Properties: decimal numerals -/

theorem digitChar_isDigit (d : Nat) (h : d < 10) :
    (Nat.digitChar d).isDigit = true ∧ (Nat.digitChar d).toNat - 48 = d := by
  interval_cases d <;> decide

theorem isDigit_ne_point (c : Char) (h : c.isDigit = true) : (c != '.') = true := by
  have : c ≠ '.' := by
    rintro rfl
    exact absurd h (by decide)
  simpa using this

theorem isDigit_ne_minus (c : Char) (h : c.isDigit = true) : c ≠ '-' := by
  rintro rfl
  exact absurd h (by decide)

theorem isDigit_value_le (c : Char) (h : c.isDigit = true) : c.toNat - 48 ≤ 9 := by
  simp only [Char.isDigit, Bool.and_eq_true, decide_eq_true_eq] at h
  have h2 := h.2
  have : c.val.toNat ≤ 57 := h2
  simp only [Char.toNat]
  omega

theorem parseDigitsFrom_append (acc : Nat) (l1 l2 : List Char) :
    parseDigitsFrom acc (l1 ++ l2) = (parseDigitsFrom acc l1).bind (fun v => parseDigitsFrom v l2) := by
  induction l1 generalizing acc with
  | nil => simp [parseDigitsFrom]
  | cons c cs ih =>
    simp only [List.cons_append, parseDigitsFrom]
    split
    · exact ih _
    · rfl

theorem parseDigitsFrom_digits (acc : Nat) (l : List Char) (h : ∀ c ∈ l, c.isDigit = true) :
    ∃ v, v < 10 ^ l.length ∧ parseDigitsFrom 0 l = some v ∧
      parseDigitsFrom acc l = some (acc * 10 ^ l.length + v) := by
  induction l using List.reverseRecOn generalizing acc with
  | nil => exact ⟨0, by simp, by simp [parseDigitsFrom], by simp [parseDigitsFrom]⟩
  | append_singleton cs c ih =>
    have hcs : ∀ c ∈ cs, c.isDigit = true := fun x hx => h x (by simp [hx])
    have hc : c.isDigit = true := h c (by simp)
    obtain ⟨v, hv, h0, hacc⟩ := ih acc hcs
    have hle := isDigit_value_le c hc
    refine ⟨10 * v + (c.toNat - 48), ?_, ?_, ?_⟩
    · simp only [List.length_append, List.length_singleton, pow_succ]
      omega
    · rw [parseDigitsFrom_append, h0]
      simp [parseDigitsFrom, hc]
    · rw [parseDigitsFrom_append, hacc]
      simp only [Option.some_bind, parseDigitsFrom, hc, if_true, List.length_append,
        List.length_singleton, pow_succ, Option.some.injEq]
      ring

theorem toDigitsCore_digits (fuel n : Nat) (acc : List Char) (hn : n < fuel)
    (hacc : ∀ c ∈ acc, c.isDigit = true) :
    (∀ c ∈ Nat.toDigitsCore 10 fuel n acc, c.isDigit = true) ∧
      parseDigitsFrom 0 (Nat.toDigitsCore 10 fuel n acc) = parseDigitsFrom n acc := by
  induction fuel generalizing n acc with
  | zero => omega
  | succ fuel ih =>
    have hd := digitChar_isDigit (n % 10) (Nat.mod_lt _ (by decide))
    simp only [Nat.toDigitsCore]
    split
    · next h0 =>
      constructor
      · intro c hc
        rcases List.mem_cons.mp hc with rfl | hc
        · exact hd.1
        · exact hacc c hc
      · have : n % 10 = n := by omega
        simp only [parseDigitsFrom, hd.1, hd.2, if_true, Nat.mul_zero, Nat.zero_add]
        rw [this]
    · next h0 =>
      have hlt : n / 10 < fuel := by omega
      have hacc2 : ∀ c ∈ Nat.digitChar (n % 10) :: acc, c.isDigit = true := by
        intro c hc
        rcases List.mem_cons.mp hc with rfl | hc
        · exact hd.1
        · exact hacc c hc
      obtain ⟨h1, h2⟩ := ih (n / 10) _ hlt hacc2
      refine ⟨h1, ?_⟩
      rw [h2]
      simp only [parseDigitsFrom, hd.1, if_true, hd.2]
      congr 1
      omega

theorem toDigits_digits (n : Nat) :
    (∀ c ∈ Nat.toDigits 10 n, c.isDigit = true) ∧ parseDigits (Nat.toDigits 10 n) = some n := by
  have := toDigitsCore_digits (n + 1) n [] (by omega) (by simp)
  simpa [Nat.toDigits, parseDigits, parseDigitsFrom] using this

theorem parseDigitsFrom_zeros (k : Nat) (acc : Nat) :
    parseDigitsFrom acc (List.replicate k '0') = some (acc * 10 ^ k) := by
  induction k generalizing acc with
  | zero => simp [parseDigitsFrom]
  | succ k ih =>
    have h0 : ('0' : Char).isDigit = true := by decide
    have h1 : ('0' : Char).toNat - 48 = 0 := by decide
    simp only [List.replicate_succ, parseDigitsFrom, h0, if_true, h1, ih, pow_succ]
    congr 1
    ring

theorem takeWhile_digits_point (a b : List Char) (h : ∀ c ∈ a, c.isDigit = true) :
    (a ++ '.' :: b).takeWhile (fun c => c != '.') = a ∧
      (a ++ '.' :: b).dropWhile (fun c => c != '.') = '.' :: b := by
  induction a with
  | nil => simp [List.takeWhile, List.dropWhile]
  | cons c cs ih =>
    have hc := isDigit_ne_point c (h c (by simp))
    have ih2 := ih (fun x hx => h x (by simp [hx]))
    simp [List.takeWhile, List.dropWhile, hc, ih2.1, ih2.2]

theorem head_digits_ne_minus (a r : List Char) (hne : a ≠ [])
    (h : ∀ c ∈ a, c.isDigit = true) : (a ++ r).head? ≠ some '-' := by
  cases a with
  | nil => exact absurd rfl hne
  | cons c cs =>
    simp only [List.cons_append, List.head?_cons, ne_eq, Option.some.injEq]
    exact isDigit_ne_minus c (h c (by simp))

/-- The digits that `toFixed` splits around the point. -/
theorem toFixed_digits (f n : Nat) :
    ∃ m : List Char,
      m = (if (Nat.toDigits 10 n).length ≤ f then
        List.replicate (f + 1 - (Nat.toDigits 10 n).length) '0' ++ Nat.toDigits 10 n
        else Nat.toDigits 10 n) ∧
      (∀ c ∈ m, c.isDigit = true) ∧ parseDigits m = some n ∧ f + 1 ≤ m.length := by
  obtain ⟨hd, hv⟩ := toDigits_digits n
  refine ⟨_, rfl, ?_, ?_, ?_⟩
  · intro c hc
    split at hc
    · rcases List.mem_append.mp hc with h | h
      · rw [(List.mem_replicate.mp h).2]
        decide
      · exact hd c h
    · exact hd c hc
  · split
    · unfold parseDigits at hv ⊢
      rw [parseDigitsFrom_append, parseDigitsFrom_zeros]
      simpa using hv
    · exact hv
  · split
    · simp only [List.length_append, List.length_replicate]
      omega
    · omega

/-- The numeric value of the string that `toFixed` produces for a non-negative number and
at least one decimal: the rounded scaled integer divided by the power of ten. -/
theorem stringToNumber_toFixed (f : Nat) (x : ℚ) (hf : f ≠ 0) (hx : 0 ≤ x) :
    stringToNumber (toFixed f x) = some (((mathRound (x * 10 ^ f)).toNat : ℚ) / 10 ^ f) := by
  obtain ⟨m, hm, hdig, hval, hlen⟩ := toFixed_digits f (mathRound (x * 10 ^ f)).toNat
  have hxn : ¬ x < 0 := not_lt.mpr hx
  have hdata : (toFixed f x).data = m.take (m.length - f) ++ '.' :: m.drop (m.length - f) := by
    simp only [toFixed, hxn, if_false, hf, ← hm]
    simp [String.data_append]
  set a := m.take (m.length - f) with ha
  set b := m.drop (m.length - f) with hb
  have hab : a ++ b = m := List.take_append_drop _ _
  have hblen : b.length = f := by
    simp only [hb, List.length_drop]
    omega
  have halen : a.length = m.length - f := by
    simp only [ha, List.length_take]
    omega
  have hane : a ≠ [] := by
    intro h
    rw [h] at halen
    simp at halen
    omega
  have hda : ∀ c ∈ a, c.isDigit = true := fun c hc => hdig c (List.mem_of_mem_take hc)
  have hdb : ∀ c ∈ b, c.isDigit = true := fun c hc => hdig c (List.mem_of_mem_drop hc)
  obtain ⟨va, _, hva, _⟩ := parseDigitsFrom_digits 0 a hda
  obtain ⟨vb, hvb, hvb0, hvb1⟩ := parseDigitsFrom_digits va b hdb
  have hn : (mathRound (x * 10 ^ f)).toNat = va * 10 ^ f + vb := by
    have h1 : parseDigits (a ++ b) = some (mathRound (x * 10 ^ f)).toNat := by rw [hab]; exact hval
    unfold parseDigits at h1
    rw [parseDigitsFrom_append, hva] at h1
    simp only [Option.some_bind] at h1
    rw [hvb1, hblen] at h1
    exact (Option.some.inj h1).symm
  obtain ⟨htw, hdw⟩ := takeWhile_digits_point a b hda
  have hhead : (a ++ '.' :: b).head? ≠ some '-' := head_digits_ne_minus a _ hane hda
  unfold stringToNumber parseDecimal
  rw [hdata]
  simp only [hhead, decide_False, Bool.false_eq_true, if_false, htw, hdw, List.tail_cons, hane,
    false_and, parseDigits, hva, hvb0, hblen, hn]
  congr 1
  have hpow : (10 : ℚ) ^ f ≠ 0 := by positivity
  push_cast
  field_simp

/-- Rounding a non-negative number to `f` decimals moves it by at most half a unit of the
last place. -/
theorem mathRound_scaled_close (f : Nat) (x : ℚ) (hx : 0 ≤ x) :
    |((mathRound (x * 10 ^ f)).toNat : ℚ) / 10 ^ f - x| ≤ 1 / (2 * 10 ^ f) := by
  have hpow : (0 : ℚ) < 10 ^ f := by positivity
  have hnn : 0 ≤ mathRound (x * 10 ^ f) := by
    unfold mathRound
    apply Int.floor_nonneg.mpr
    positivity
  have hcast : (((mathRound (x * 10 ^ f)).toNat : ℤ) : ℚ) = (mathRound (x * 10 ^ f) : ℚ) := by
    rw [Int.toNat_of_nonneg hnn]
  have hcast2 : ((mathRound (x * 10 ^ f)).toNat : ℚ) = (mathRound (x * 10 ^ f) : ℚ) := by
    rw [← hcast]; norm_cast
  rw [hcast2]
  have h1 : (mathRound (x * 10 ^ f) : ℚ) ≤ x * 10 ^ f + 1 / 2 := Int.floor_le _
  have h2 : x * 10 ^ f + 1 / 2 < (mathRound (x * 10 ^ f) : ℚ) + 1 := Int.lt_floor_add_one _
  have hP : (10 : ℚ) ^ f ≠ 0 := ne_of_gt hpow
  have e1 : (mathRound (x * 10 ^ f) : ℚ) / 10 ^ f - x
      = ((mathRound (x * 10 ^ f) : ℚ) - x * 10 ^ f) / 10 ^ f := by
    field_simp
    ring
  have e2 : (1 : ℚ) / (2 * 10 ^ f) = (1 / 2) / 10 ^ f := by
    field_simp
  have e3 : -((1 : ℚ) / 2 / 10 ^ f) = (-(1 / 2)) / 10 ^ f := by
    ring
  rw [abs_le, e1, e2, e3, div_le_div_iff_of_pos_right hpow, div_le_div_iff_of_pos_right hpow]
  constructor <;> linarith


/-- C3: with no deaths `calculateKdaRatio` is the number `kills + assists`; with deaths it
is the two-decimal text of `(kills + assists) / deaths`, whose numeric value is that
quotient rounded to two decimals (within 1/200 of it); `calculateKdaRatio(5,0,3) == 8` and
`calculateKdaRatio(6,3,9) == 5.00` hold as comparisons of numbers. -/
theorem calculateKdaRatio_spec (kills deaths assists : Nat) :
    calculateKdaRatio kills 0 assists = JsVal.num ((kills : ℚ) + (assists : ℚ)) ∧
    (0 < deaths →
      calculateKdaRatio kills deaths assists =
        JsVal.str (toFixed 2 (((kills : ℚ) + (assists : ℚ)) / (deaths : ℚ))) ∧
      ∃ v : ℚ, (calculateKdaRatio kills deaths assists).toNumber = some v ∧
        v * 100 = mathRound (((kills : ℚ) + (assists : ℚ)) / (deaths : ℚ) * 100) ∧
        |v - ((kills : ℚ) + (assists : ℚ)) / (deaths : ℚ)| ≤ 1 / 200) ∧
    (calculateKdaRatio 5 0 3).looseEq 8 = true ∧
    calculateKdaRatio 6 3 9 = JsVal.str "5.00" ∧
    (calculateKdaRatio 6 3 9).looseEq 5 = true := by
  refine ⟨by simp [calculateKdaRatio], ?_, ?_, ?_, ?_⟩
  · intro hd
    have hne : deaths ≠ 0 := by omega
    have hx : (0 : ℚ) ≤ ((kills : ℚ) + (assists : ℚ)) / (deaths : ℚ) := by positivity
    refine ⟨by simp [calculateKdaRatio, hne],
      ((mathRound (((kills : ℚ) + (assists : ℚ)) / (deaths : ℚ) * 10 ^ 2)).toNat : ℚ) / 10 ^ 2,
      ?_, ?_, ?_⟩
    · simp only [calculateKdaRatio, hne, if_false, JsVal.toNumber]
      exact stringToNumber_toFixed 2 _ (by decide) hx
    · have hnn : 0 ≤ mathRound (((kills : ℚ) + (assists : ℚ)) / (deaths : ℚ) * 10 ^ 2) := by
        unfold mathRound
        apply Int.floor_nonneg.mpr
        positivity
      have hcast : ((mathRound (((kills : ℚ) + (assists : ℚ)) / (deaths : ℚ) * 10 ^ 2)).toNat : ℚ)
          = (mathRound (((kills : ℚ) + (assists : ℚ)) / (deaths : ℚ) * 10 ^ 2) : ℚ) := by
        have := Int.toNat_of_nonneg hnn
        exact_mod_cast congrArg (fun z : ℤ => (z : ℚ)) this
      rw [hcast]
      norm_num
    · have := mathRound_scaled_close 2 _ hx
      norm_num at this ⊢
      exact this
  · norm_num [calculateKdaRatio, JsVal.looseEq, JsVal.toNumber]
  · norm_num [calculateKdaRatio, toFixed, mathRound]
    decide
  · have h := stringToNumber_toFixed 2 ((((6 : ℕ) : ℚ) + ((9 : ℕ) : ℚ)) / ((3 : ℕ) : ℚ))
      (by decide) (by norm_num)
    norm_num [mathRound] at h
    norm_num [calculateKdaRatio, JsVal.looseEq, JsVal.toNumber]
    rw [h]
    show some (((500 : ℕ) : ℚ) / 100) = some 5
    norm_num

/-! ## Properties: average KDA -/

theorem kdaTotals_foldl (ms : List Match) (acc : KdaTotals) :
    ms.foldl (fun acc m =>
      ({ kills := acc.kills + m.kda.kills
         deaths := acc.deaths + m.kda.deaths
         assists := acc.assists + m.kda.assists } : KdaTotals)) acc =
      { kills := acc.kills + (ms.map (fun m => m.kda.kills)).sum
        deaths := acc.deaths + (ms.map (fun m => m.kda.deaths)).sum
        assists := acc.assists + (ms.map (fun m => m.kda.assists)).sum } := by
  induction ms generalizing acc with
  | nil => simp
  | cons m rest ih =>
    simp only [List.foldl_cons, ih, List.map_cons, List.sum_cons]
    simp [Nat.add_assoc]

theorem kdaTotals_eq (ms : List Match) :
    kdaTotals ms =
      { kills := totalKills ms, deaths := totalDeaths ms, assists := totalAssists ms } := by
  unfold kdaTotals totalKills totalDeaths totalAssists
  rw [kdaTotals_foldl]
  simp

theorem calculateAverageKda_ok (ms : List Match) (h : ms ≠ []) :
    calculateAverageKda ms = Except.ok
      { kills := JsVal.str (toFixed 1 ((totalKills ms : ℚ) / (ms.length : ℚ)))
        deaths := JsVal.str (toFixed 1 ((totalDeaths ms : ℚ) / (ms.length : ℚ)))
        assists := JsVal.str (toFixed 1 ((totalAssists ms : ℚ) / (ms.length : ℚ)))
        ratio := calculateKdaRatio (totalKills ms) (totalDeaths ms) (totalAssists ms) } := by
  have hlen : ms.length ≠ 0 := fun h0 => h (List.length_eq_zero.mp h0)
  have hq : (ms.length : ℚ) ≠ 0 := by exact_mod_cast hlen
  simp [calculateAverageKda, hlen, jsDiv, hq, bind, Except.bind, pure, Except.pure,
    kdaTotals_eq]

/-- C4: `calculateAverageKda([])` is all zeros; for a non-empty collection `m :: rest` the
kills, deaths and assists fields are the one-decimal texts of the per-field means and the
ratio is `calculateKdaRatio` of the three sums (not a mean of per-match ratios), that is
`kills + assists` of the sums when the summed deaths are 0 and the two-decimal text of the
quotient of the sums otherwise. -/
theorem calculateAverageKda_spec (m : Match) (rest : List Match) :
    calculateAverageKda [] = Except.ok
      { kills := JsVal.num 0, deaths := JsVal.num 0, assists := JsVal.num 0,
        ratio := JsVal.num 0 } ∧
    ∃ r, calculateAverageKda (m :: rest) = Except.ok r ∧
      r.kills = JsVal.str (toFixed 1
        ((totalKills (m :: rest) : ℚ) / ((m :: rest).length : ℚ))) ∧
      r.deaths = JsVal.str (toFixed 1
        ((totalDeaths (m :: rest) : ℚ) / ((m :: rest).length : ℚ))) ∧
      r.assists = JsVal.str (toFixed 1
        ((totalAssists (m :: rest) : ℚ) / ((m :: rest).length : ℚ))) ∧
      r.ratio = calculateKdaRatio (totalKills (m :: rest)) (totalDeaths (m :: rest))
        (totalAssists (m :: rest)) ∧
      r.ratio =
        (if totalDeaths (m :: rest) = 0 then
          JsVal.num ((totalKills (m :: rest) : ℚ) + (totalAssists (m :: rest) : ℚ))
        else JsVal.str (toFixed 2
          (((totalKills (m :: rest) : ℚ) + (totalAssists (m :: rest) : ℚ)) /
            (totalDeaths (m :: rest) : ℚ)))) :=
  ⟨by simp [calculateAverageKda], _, calculateAverageKda_ok (m :: rest) (by simp),
    rfl, rfl, rfl, rfl, rfl⟩

/-! ## Properties: classification and outcome -/

/-- C5: `getMatchType` is turbo exactly when the game mode is 23, ranked exactly when the
game mode is not 23 and the lobby type is 5, 6 or 7, and normal otherwise; game mode 23
gives turbo for every lobby type, the ranked ones included. -/
theorem getMatchType_spec (lobbyType gameMode : Option Nat) :
    (getMatchType lobbyType gameMode = MatchType.turbo ↔ gameMode = some 23) ∧
    (getMatchType lobbyType gameMode = MatchType.ranked ↔
      gameMode ≠ some 23 ∧ (lobbyType = some 5 ∨ lobbyType = some 6 ∨ lobbyType = some 7)) ∧
    (getMatchType lobbyType gameMode = MatchType.normal ↔
      gameMode ≠ some 23 ∧ ¬ (lobbyType = some 5 ∨ lobbyType = some 6 ∨ lobbyType = some 7)) ∧
    getMatchType lobbyType (some 23) = MatchType.turbo ∧
    getMatchType (some 5) (some 23) = MatchType.turbo ∧
    getMatchType (some 6) (some 23) = MatchType.turbo ∧
    getMatchType (some 7) (some 23) = MatchType.turbo := by
  unfold getMatchType
  by_cases hg : gameMode = some 23
  · simp [hg]
  · by_cases hl : lobbyType = some 5 ∨ lobbyType = some 6 ∨ lobbyType = some 7
    · simp [hg, hl]
    · simp [hg, hl]

/-- C6: `getMatchResult` is unknown exactly when the radiant-won flag is missing or null;
for a boolean flag `w` and a player slot `s` it is win exactly when `s < 128` agrees with
`w`, and loss otherwise. -/
theorem getMatchResult_spec (radiantWin : RadiantWin) (w : Bool) (s : Nat) :
    (getMatchResult radiantWin (some s) = MatchResult.unknown ↔
      radiantWin = RadiantWin.undefined ∨ radiantWin = RadiantWin.null) ∧
    (getMatchResult (RadiantWin.bool w) (some s) = MatchResult.win ↔ (decide (s < 128) = w)) ∧
    (getMatchResult (RadiantWin.bool w) (some s) = MatchResult.loss ↔ ¬ (decide (s < 128) = w)) := by
  refine ⟨?_, ?_, ?_⟩
  · cases radiantWin with
    | undefined => simp [getMatchResult]
    | null => simp [getMatchResult]
    | bool b =>
      simp only [getMatchResult, slotIsRadiant]
      split <;> simp
  · simp only [getMatchResult, slotIsRadiant]
    split <;> simp_all
  · simp only [getMatchResult, slotIsRadiant]
    split <;> simp_all

/-! ## Properties: normalization -/

/-- C7 (failing input): normalization defaults missing kills, deaths and assists to 0
and a missing hero to the placeholder, but not a missing duration: the record
`rawWithoutDuration`, and every record without `duration`, is normalized to a match whose
duration is undefined with the text `NaN:NaN`, and the average duration of a collection
holding it is not a number.  A missing start time likewise gives a `NaN` timestamp. -/
theorem normalizeMatch_missing_duration (host : Host) (now : Int) (heroMap : HeroMap)
    (raw : RawMatch) :
    (normalizeMatch host now rawWithoutDuration heroMap).duration =
      { seconds := none, formatted := "NaN:NaN" } ∧
    (normalizeMatch host now rawWithoutDuration heroMap).duration.seconds ≠ some 0 ∧
    calculateAverageDuration [normalizeMatch host now rawWithoutDuration heroMap] =
      Except.error Fault.notANumber ∧
    (normalizeMatch host now { raw with duration := none } heroMap).duration =
      { seconds := none, formatted := "NaN:NaN" } ∧
    (normalizeMatch host now { raw with start_time := none } heroMap).timestamp = none ∧
    (normalizeMatch host now { raw with kills := none, deaths := none, assists := none }
      heroMap).kda = { kills := 0, deaths := 0, assists := 0, ratio := JsVal.num 0 } ∧
    (normalizeMatch host now { raw with hero_id := none } heroMap).heroName = "Unknown" ∧
    (normalizeMatch host now { raw with hero_id := none } heroMap).heroImage = none ∧
    (normalizeMatch host now raw []).heroName = "Unknown" ∧
    (normalizeMatch host now raw []).heroImage = none := by
  have hf : formatDuration none = "NaN:NaN" := by decide
  have hd : ∀ r : RawMatch, r.duration = none →
      (normalizeMatch host now r heroMap).duration =
        { seconds := none, formatted := "NaN:NaN" } := by
    intro r hr
    simp only [normalizeMatch, hr, hf]
  have hl : ∀ k : Option Nat, (lookupHero [] k).name = "Unknown" ∧
      (lookupHero [] k).image = none := by
    intro k
    cases k <;> simp [lookupHero, JsMap.get]
  refine ⟨hd _ rfl, by simp [normalizeMatch, rawWithoutDuration], ?_, hd _ rfl, rfl, ?_, rfl,
    rfl, (hl _).1, (hl _).2⟩
  · simp [calculateAverageDuration, sumDurations, addDuration, normalizeMatch,
      rawWithoutDuration, jsNum,
      bind, Except.bind]
  · simp [normalizeMatch, calculateKdaRatio]

/-- C8 (counterexample): the record without match and hero identifiers is not rejected:
loading it in the initial state yields one match, with undefined identifiers and the
placeholder hero name, which passes the workday filter and is counted by
`calculateWinRate`. -/
theorem initState_accepts_record_without_ids :
    (initState utcHost 1700000000000 initialState [] [rawWithoutIds]).rawMatches.map
        (fun m => (m.id, m.heroId, m.heroName)) = [(none, none, "Unknown")] ∧
    (initState utcHost 1700000000000 initialState [] [rawWithoutIds]).activeMatches.length = 1 ∧
    calculateWinRate
        (initState utcHost 1700000000000 initialState [] [rawWithoutIds]).activeMatches =
      Except.ok { rate := 100, wins := 1, losses := 0, total := 1 } := by
  have hw : isWorkdayTime utcHost DEFAULT_CONFIG (some 1699963200000) = true := by decide
  have hact : (initState utcHost 1700000000000 initialState [] [rawWithoutIds]).activeMatches =
      [normalizeMatch utcHost 1700000000000 rawWithoutIds []] := by
    simp only [initState, applyFilter, initialState, createHeroMap, List.foldl_nil, List.map_cons,
      List.map_nil]
    simp only [List.filter_cons, List.filter_nil]
    have : (normalizeMatch utcHost 1700000000000 rawWithoutIds []).timestamp =
        some 1699963200000 := by decide
    rw [this, hw]
    simp
  refine ⟨by decide, by rw [hact]; rfl, ?_⟩
  rw [hact, calculateWinRate_ok]
  have hres : (normalizeMatch utcHost 1700000000000 rawWithoutIds []).result =
      MatchResult.win := by decide
  simp [hres]
  norm_num [mathRound]

/-- C8 (amended): normalization validates nothing.  Every raw record, whatever fields it
lacks, is turned into a match carrying the record's identifiers unchanged (undefined when
missing; a missing hero identifier gives the placeholder name), and loading keeps exactly
one match per raw record; all of them are active in mode `todas`, and those inside the
workday window in mode `remunerado`. -/
theorem initState_normalizes_every_record (host : Host) (now : Int) (state : State)
    (heroStats : List RawHero) (rawMatches : List RawMatch) (raw : RawMatch)
    (heroMap : HeroMap) :
    (normalizeMatch host now raw heroMap).id = raw.match_id ∧
    (normalizeMatch host now raw heroMap).heroId = raw.hero_id ∧
    (normalizeMatch host now { raw with match_id := none, hero_id := none } heroMap).id = none ∧
    (normalizeMatch host now { raw with match_id := none, hero_id := none } heroMap).heroName
      = "Unknown" ∧
    (initState host now state heroStats rawMatches).rawMatches =
      rawMatches.map (fun r => normalizeMatch host now r (createHeroMap heroStats)) ∧
    (initState host now state heroStats rawMatches).rawMatches.length = rawMatches.length ∧
    (initState host now { state with filterMode := FilterMode.todas } heroStats
        rawMatches).activeMatches =
      rawMatches.map (fun r => normalizeMatch host now r (createHeroMap heroStats)) ∧
    (initState host now { state with filterMode := FilterMode.remunerado } heroStats
        rawMatches).activeMatches =
      (rawMatches.map (fun r => normalizeMatch host now r (createHeroMap heroStats))).filter
        (fun m => isWorkdayTime host state.config m.timestamp) := by
  refine ⟨rfl, rfl, rfl, rfl, ?_, ?_, ?_, ?_⟩
  · simp only [initState, applyFilter]
    split <;> rfl
  · simp only [initState, applyFilter]
    split <;> simp
  · simp [initState, applyFilter]
  · simp [initState, applyFilter]

/-! ## Properties: the workday filter -/

theorem getDay_range (host : Host) (date : Option Int) (d : Int)
    (h : getDay host date = some d) : 0 ≤ d ∧ d ≤ 6 := by
  cases date with
  | none => simp [getDay] at h
  | some t =>
    simp only [getDay, Option.map_some', Option.some.injEq] at h
    have h1 := Int.emod_nonneg ((t + host.localOffset t) / 86400000 + 4)
      (show (7 : Int) ≠ 0 by decide)
    have h2 := Int.emod_lt_of_pos ((t + host.localOffset t) / 86400000 + 4)
      (show (0 : Int) < 7 by decide)
    omega

theorem getHours_range (host : Host) (date : Option Int) (hr : Int)
    (h : getHours host date = some hr) : 0 ≤ hr ∧ hr ≤ 23 := by
  cases date with
  | none => simp [getHours] at h
  | some t =>
    simp only [getHours, Option.map_some', Option.some.injEq] at h
    have h1 := Int.emod_nonneg ((t + host.localOffset t) / 3600000)
      (show (24 : Int) ≠ 0 by decide)
    have h2 := Int.emod_lt_of_pos ((t + host.localOffset t) / 3600000)
      (show (0 : Int) < 24 by decide)
    omega

/-- C10: for every timestamp (a `NaN` or out-of-range one included, which has neither a
weekday nor an hour) and every policy, `isWorkdayTime` is true exactly when the date has a
local weekday `d` (0 = Sunday to 6 = Saturday) that is one of `workdays` and a local hour
`h` (0 to 23) with `workdayStart ≤ h < workdayEnd`.  With UTC as local time and the
default policy, Tuesday 14 November 2023 is workday time at 12:00 and at 09:00 (start
inclusive) but not at 18:00 (end exclusive), and Sunday 12 November at 12:00 is not. -/
theorem isWorkdayTime_iff (host : Host) (config : Config) (timestamp : Option Int) :
    (isWorkdayTime host config timestamp = true ↔
      ∃ d h : Int, getDay host (newDate timestamp) = some d ∧
        getHours host (newDate timestamp) = some h ∧
        0 ≤ d ∧ d ≤ 6 ∧ 0 ≤ h ∧ h ≤ 23 ∧
        d ∈ config.workdays ∧ config.workdayStart ≤ h ∧ h < config.workdayEnd) ∧
    isWorkdayTime utcHost DEFAULT_CONFIG (some 1699963200000) = true ∧
    isWorkdayTime utcHost DEFAULT_CONFIG (some 1699952400000) = true ∧
    isWorkdayTime utcHost DEFAULT_CONFIG (some 1699984800000) = false ∧
    isWorkdayTime utcHost DEFAULT_CONFIG (some 1699790400000) = false := by
  refine ⟨?_, by decide, by decide, by decide, by decide⟩
  constructor
  · intro hw
    cases hd : newDate timestamp with
    | none => simp [isWorkdayTime, hd, getHours, getDay] at hw
    | some t =>
      simp only [isWorkdayTime, hd, getHours, getDay, Option.map_some', Bool.and_eq_true,
        decide_eq_true_eq] at hw
      obtain ⟨hday, hstart, hend⟩ := hw
      have rd := getDay_range host (some t) (((t + host.localOffset t) / 86400000 + 4) % 7)
        (by simp [getDay])
      have rh := getHours_range host (some t) (((t + host.localOffset t) / 3600000) % 24)
        (by simp [getHours])
      exact ⟨_, _, rfl, rfl, rd.1, rd.2, rh.1, rh.2, hday, hstart, hend⟩
  · rintro ⟨d, h, hd, hh, _, _, _, _, hday, hstart, hend⟩
    simp only [isWorkdayTime, hd, hh, Bool.and_eq_true, decide_eq_true_eq]
    exact ⟨hday, hstart, hend⟩

/-! ## Properties: evaluation without faults -/

theorem jsDiv_ok (a b : ℚ) (h : b ≠ 0) : jsDiv a b = Except.ok (a / b) := by
  simp [jsDiv, h]

theorem jsMapM_ok {α β : Type} (f : α → JsResult β) (g : α → β) (l : List α)
    (h : ∀ x ∈ l, f x = Except.ok (g x)) : jsMapM f l = Except.ok (l.map g) := by
  induction l with
  | nil => rfl
  | cons x xs ih =>
    have hx := h x (by simp)
    have hxs := ih (fun y hy => h y (by simp [hy]))
    simp [jsMapM, hx, hxs]

theorem sumDurations_foldlM (ms : List Match) (acc : ℚ)
    (h : ∀ m ∈ ms, m.duration.seconds ≠ none) :
    ms.foldlM addDuration acc =
      (Except.ok (acc + (totalDuration ms : ℕ)) : JsResult ℚ) := by
  induction ms generalizing acc with
  | nil => simp [pure, Except.pure, totalDuration]
  | cons m rest ih =>
    have hm := h m (by simp)
    obtain ⟨s, hs⟩ := Option.ne_none_iff_exists'.mp hm
    have hstep : addDuration acc m = Except.ok (acc + (s : ℚ)) := by
      simp [addDuration, jsNum, hs, bind, Except.bind, pure, Except.pure]
    rw [List.foldlM_cons, hstep]
    simp only [bind, Except.bind]
    rw [ih (acc + (s : ℚ)) (fun y hy => h y (by simp [hy]))]
    simp only [totalDuration, List.map_cons, List.sum_cons, hs, Option.getD_some]
    push_cast
    rw [add_assoc]

/-- The sum of the durations is their sum as natural numbers when none is missing. -/
theorem sumDurations_ok (ms : List Match) (h : ∀ m ∈ ms, m.duration.seconds ≠ none) :
    sumDurations ms =
      Except.ok ((totalDuration ms : ℕ) : ℚ) := by
  unfold sumDurations
  rw [sumDurations_foldlM ms 0 h]
  simp

theorem calculateAverageDuration_ok (ms : List Match)
    (h : ∀ m ∈ ms, m.duration.seconds ≠ none) :
    ∃ r, calculateAverageDuration ms = Except.ok r ∧
      r.seconds = (if ms.length = 0 then 0 else
        mathRound (((totalDuration ms : ℕ) : ℚ) /
          (ms.length : ℚ))) := by
  unfold calculateAverageDuration
  by_cases hlen : ms.length = 0
  · simp [hlen]
  · have hq : (ms.length : ℚ) ≠ 0 := by exact_mod_cast hlen
    simp [hlen, sumDurations_ok ms h, jsDiv_ok _ _ hq, bind, Except.bind, pure, Except.pure]


theorem JsMap.mem_set {κ α : Type} [DecidableEq κ] (m : JsMap κ α) (k : κ) (v : α)
    (p : κ × α) (hp : p ∈ JsMap.set m k v) : p ∈ m ∨ p = (k, v) := by
  induction m with
  | nil =>
    simp only [JsMap.set, List.mem_singleton] at hp
    exact Or.inr hp
  | cons q rest ih =>
    obtain ⟨k', v'⟩ := q
    simp only [JsMap.set] at hp
    split at hp
    · rcases List.mem_cons.mp hp with h | h
      · exact Or.inr h
      · exact Or.inl (List.mem_cons_of_mem _ h)
    · rcases List.mem_cons.mp hp with h | h
      · exact Or.inl (by rw [h]; exact List.mem_cons_self _ _)
      · rcases ih h with h2 | h2
        · exact Or.inl (List.mem_cons_of_mem _ h2)
        · exact Or.inr h2

theorem heroStatsStep_games_pos (heroStats : JsMap (Option Nat) HeroStat) (m : Match)
    (h : ∀ p ∈ heroStats, 0 < p.2.games) : ∀ p ∈ heroStatsStep heroStats m, 0 < p.2.games := by
  intro p hp
  rcases JsMap.mem_set _ _ _ _ hp with h1 | h1
  · exact h p h1
  · rw [h1]
    simp only
    split <;> simp

theorem heroStats_games_pos (ms : List Match) (heroStats : JsMap (Option Nat) HeroStat)
    (h : ∀ p ∈ heroStats, 0 < p.2.games) :
    ∀ p ∈ ms.foldl heroStatsStep heroStats, 0 < p.2.games := by
  induction ms generalizing heroStats with
  | nil => simpa using h
  | cons m rest ih =>
    rw [List.foldl_cons]
    exact ih _ (heroStatsStep_games_pos heroStats m h)

theorem heroWithWinRate_ok (h : HeroStat) (hg : 0 < h.games) :
    heroWithWinRate h = Except.ok (heroEntryOf h) := by
  have hq : (h.games : ℚ) ≠ 0 := by exact_mod_cast (Nat.pos_iff_ne_zero.mp hg)
  simp [heroWithWinRate, heroEntryOf, jsDiv_ok _ _ hq, bind, Except.bind, pure, Except.pure]

/-- `getMostPlayedHeroes` always returns: the grouped heroes with their win rates, sorted
by games and cut to the limit. -/
theorem getMostPlayedHeroes_ok (ms : List Match) (limit : Nat) :
    getMostPlayedHeroes ms limit = Except.ok
      ((jsSort (fun a b => (b.games : ℤ) - (a.games : ℤ))
        ((JsMap.values (ms.foldl heroStatsStep [])).map heroEntryOf)).take limit) := by
  have hpos := heroStats_games_pos ms [] (by simp)
  have hm := jsMapM_ok heroWithWinRate heroEntryOf (JsMap.values (ms.foldl heroStatsStep []))
    (by
      intro x hx
      obtain ⟨p, hp, rfl⟩ := List.mem_map.mp hx
      exact heroWithWinRate_ok _ (hpos p hp))
  simp [getMostPlayedHeroes, hm, bind, Except.bind, pure, Except.pure]

theorem laneWithWinRate_ok (l : LaneStat) (hg : 0 < l.games) :
    laneWithWinRate l = Except.ok (roleEntryOf l) := by
  have hq : (l.games : ℚ) ≠ 0 := by exact_mod_cast (Nat.pos_iff_ne_zero.mp hg)
  simp [laneWithWinRate, roleEntryOf, jsDiv_ok _ _ hq, bind, Except.bind, pure, Except.pure]

/-- `getBestRole` always returns: the first lane after sorting those with games, or the
sentinel. -/
theorem getBestRole_ok (ms : List Match) :
    getBestRole ms = Except.ok
      ((jsSort roleCompare
        ((((ms.foldl lanesStep initialLanes).map Prod.snd).filter
          (fun l => l.games > 0)).map roleEntryOf)).head?.getD
        { name := "Unknown", winRate := 0, games := 0, wins := none }) := by
  have hm := jsMapM_ok laneWithWinRate roleEntryOf
    (((ms.foldl lanesStep initialLanes).map Prod.snd).filter (fun l => l.games > 0))
    (by
      intro x hx
      have := (List.mem_filter.mp hx).2
      exact laneWithWinRate_ok _ (by simpa using this))
  simp [getBestRole, hm, bind, Except.bind, pure, Except.pure]

theorem parseFloat_toFixed (f : Nat) (x : ℚ) (hf : f ≠ 0) (hx : 0 ≤ x) :
    parseFloat (JsVal.str (toFixed f x)) = Except.ok (toFixedValue f x) := by
  simp [parseFloat, JsVal.toNumber, stringToNumber_toFixed f x hf hx, toFixedValue]

theorem toFixedValue_nonneg (f : Nat) (x : ℚ) : 0 ≤ toFixedValue f x := by
  unfold toFixedValue
  positivity

theorem calculateAverageDuration_eq (ms : List Match) (hne : ms ≠ [])
    (h : ∀ m ∈ ms, m.duration.seconds ≠ none) :
    calculateAverageDuration ms = Except.ok
      { seconds := mathRound ((totalDuration ms : ℚ) / (ms.length : ℚ))
        formatted := toString (mathRound ((totalDuration ms : ℚ) / (ms.length : ℚ)) / 60) ++ ":" ++
          padStart 2 '0' (toString (mathRound ((totalDuration ms : ℚ) / (ms.length : ℚ)) % 60)) } := by
  have hlen : ms.length ≠ 0 := fun h0 => hne (List.length_eq_zero.mp h0)
  have hq : (ms.length : ℚ) ≠ 0 := by exact_mod_cast hlen
  simp [calculateAverageDuration, hlen, sumDurations_ok ms h, jsDiv_ok _ _ hq, bind, Except.bind,
    pure, Except.pure]

/-- `calculatePlayStyle` on a non-empty collection whose durations are all present: the
five clamped scores, computed from the one-decimal averages of kills and assists and from
the rounded average duration. -/
theorem calculatePlayStyle_ok (ms : List Match) (hne : ms ≠ [])
    (h : ∀ m ∈ ms, m.duration.seconds ≠ none) :
    calculatePlayStyle ms = Except.ok
      { fighting := max 0 (min 100
          (mathRound (toFixedValue 1 ((totalKills ms : ℚ) / (ms.length : ℚ)) * 10)))
        versatility := max 0 (min 100
          (mathRound ((uniqueHeroCount ms : ℚ) / (ms.length : ℚ) * 100 * 2)))
        farming := max 0 (min 100
          (mathRound (((ms.filter (fun m => m.type = MatchType.ranked)).length : ℚ) /
            (ms.length : ℚ) * 100 + 20)))
        supporting := max 0 (min 100
          (mathRound (toFixedValue 1 ((totalAssists ms : ℚ) / (ms.length : ℚ)) /
            (toFixedValue 1 ((totalKills ms : ℚ) / (ms.length : ℚ)) + 1) * 50)))
        pushing := max 0 (min 100
          (mathRound ((2400 - ((mathRound ((totalDuration ms : ℚ) / (ms.length : ℚ)) : ℤ) : ℚ)) /
            12))) } := by
  have hlen : ms.length ≠ 0 := fun h0 => hne (List.length_eq_zero.mp h0)
  have hq : (ms.length : ℚ) ≠ 0 := by exact_mod_cast hlen
  have hk : (0 : ℚ) ≤ (totalKills ms : ℚ) / (ms.length : ℚ) := by positivity
  have hd : (0 : ℚ) ≤ (totalDeaths ms : ℚ) / (ms.length : ℚ) := by positivity
  have ha : (0 : ℚ) ≤ (totalAssists ms : ℚ) / (ms.length : ℚ) := by positivity
  have hk1 : toFixedValue 1 ((totalKills ms : ℚ) / (ms.length : ℚ)) + 1 ≠ 0 := by
    have := toFixedValue_nonneg 1 ((totalKills ms : ℚ) / (ms.length : ℚ))
    linarith
  simp only [calculatePlayStyle, hlen, if_false, calculateAverageKda_ok ms hne, bind, Except.bind,
    parseFloat_toFixed 1 _ (by decide) hk, parseFloat_toFixed 1 _ (by decide) hd,
    parseFloat_toFixed 1 _ (by decide) ha, jsDiv_ok _ _ hq, jsDiv_ok _ _ hk1,
    calculateAverageDuration_eq ms hne h, pure, Except.pure]

theorem byDateStep_cases (byDate : JsMap String DayStat) (m : Match)
    (h : ∀ p ∈ byDate, 0 < p.2.games) :
    (m.localTime = none ∧ byDateStep byDate m = Except.error Fault.exception) ∨
      ∃ r, byDateStep byDate m = Except.ok r ∧ ∀ p ∈ r, 0 < p.2.games := by
  cases hlt : m.localTime with
  | none =>
    left
    simp [byDateStep, hlt, isoDateKey, bind, Except.bind]
  | some t =>
    right
    simp only [byDateStep, hlt, isoDateKey, bind, Except.bind, pure, Except.pure]
    refine ⟨_, rfl, ?_⟩
    intro p hp
    rcases JsMap.mem_set _ _ _ _ hp with h1 | h1
    · exact h p h1
    · rw [h1]
      simp only
      split
      · simp
      · split <;> simp

theorem byDate_foldlM (ms : List Match) (byDate : JsMap String DayStat)
    (h : ∀ p ∈ byDate, 0 < p.2.games) :
    ((∃ m ∈ ms, m.localTime = none) ∧
      ms.foldlM byDateStep byDate = Except.error Fault.exception) ∨
      ∃ r, ms.foldlM byDateStep byDate = Except.ok r ∧ ∀ p ∈ r, 0 < p.2.games := by
  induction ms generalizing byDate with
  | nil => exact Or.inr ⟨byDate, rfl, h⟩
  | cons m rest ih =>
    rw [List.foldlM_cons]
    rcases byDateStep_cases byDate m h with ⟨hm, he⟩ | ⟨r, hr, hpos⟩
    · left
      exact ⟨⟨m, by simp, hm⟩, by rw [he]; rfl⟩
    · rw [hr]
      simp only [bind, Except.bind]
      rcases ih r hpos with ⟨⟨x, hx, hxn⟩, he⟩ | hok
      · exact Or.inl ⟨⟨x, List.mem_cons_of_mem _ hx, hxn⟩, he⟩
      · exact Or.inr hok

theorem dayWithWinRate_ok (entry : String × DayStat) (hg : 0 < entry.2.games) :
    dayWithWinRate entry = Except.ok (dayEntryOf entry) := by
  have hq : (entry.2.games : ℚ) ≠ 0 := by exact_mod_cast (Nat.pos_iff_ne_zero.mp hg)
  simp [dayWithWinRate, dayEntryOf, jsDiv_ok _ _ hq, bind, Except.bind, pure, Except.pure]

/-- `getPerformanceOverTime` either returns, or throws because a match inside the period
has an invalid date; it never divides by zero. -/
theorem getPerformanceOverTime_cases (now : Int) (ms : List Match) (days : Int) :
    ((∃ m ∈ ms, m.localTime = none) ∧
      getPerformanceOverTime now ms days = Except.error Fault.exception) ∨
      ∃ r, getPerformanceOverTime now ms days = Except.ok r := by
  unfold getPerformanceOverTime
  rcases byDate_foldlM
    (ms.filter (fun m => timestampGe m.timestamp (now - days * 24 * 60 * 60 * 1000))) []
    (by simp) with ⟨⟨x, hx, hxn⟩, he⟩ | ⟨r, hr, hpos⟩
  · left
    refine ⟨⟨x, (List.mem_filter.mp hx).1, hxn⟩, ?_⟩
    simp only [bind, Except.bind, he]
  · right
    have hm := jsMapM_ok dayWithWinRate dayEntryOf r
      (fun p hp => dayWithWinRate_ok p (hpos p hp))
    simp only [bind, Except.bind, hr, hm, pure, Except.pure]
    exact ⟨_, rfl⟩

/-! ### The insight rules -/

theorem checkFarmingIssues_ok (ms : List Match) (hne : ms ≠ []) :
    ∃ r, checkFarmingIssues ms = Except.ok r := by
  have hlen : (ms.take 5).length ≠ 0 := by
    cases ms with
    | nil => exact absurd rfl hne
    | cons m rest => simp
  have hq : ((ms.take 5).length : ℚ) ≠ 0 := by exact_mod_cast hlen
  simp only [checkFarmingIssues, jsDiv_ok _ _ hq, bind, Except.bind, pure, Except.pure]
  split <;> exact ⟨_, rfl⟩

theorem synergyWithWinRate_ok (h : SynergyStat) (hg : 0 < h.games) :
    synergyWithWinRate h = Except.ok (synergyEntryOf h) := by
  have hq : (h.games : ℚ) ≠ 0 := by exact_mod_cast (Nat.pos_iff_ne_zero.mp hg)
  simp [synergyWithWinRate, synergyEntryOf, jsDiv_ok _ _ hq, bind, Except.bind, pure,
    Except.pure]

theorem checkSynergies_ok (ms : List Match) : ∃ r, checkSynergies ms = Except.ok r := by
  have hm := jsMapM_ok synergyWithWinRate synergyEntryOf
    ((JsMap.values (ms.foldl synergyStep [])).filter (fun h => h.games ≥ 3))
    (by
      intro x hx
      have := (List.mem_filter.mp hx).2
      have h3 : 3 ≤ x.games := by simpa using this
      exact synergyWithWinRate_ok _ (by omega))
  simp only [checkSynergies, hm, bind, Except.bind, pure, Except.pure]
  split <;> exact ⟨_, rfl⟩

theorem checkStreaks_ok (ms : List Match) : ∃ r, checkStreaks ms = Except.ok r := by
  unfold checkStreaks
  split
  · exact ⟨_, rfl⟩
  · next hlen =>
    cases ms with
    | nil => simp at hlen
    | cons m rest =>
      simp only [List.head?_cons]
      split
      · split
        · exact ⟨_, rfl⟩
        · split <;> exact ⟨_, rfl⟩
      · exact ⟨_, rfl⟩

theorem checkHeroPerformance_ok (ms : List Match) :
    ∃ r, checkHeroPerformance ms = Except.ok r := by
  simp only [checkHeroPerformance, getMostPlayedHeroes_ok, bind, Except.bind, pure, Except.pure]
  exact ⟨_, rfl⟩

theorem checkLateGame_ok (ms : List Match) (hne : ms ≠ [])
    (h : ∀ m ∈ ms, m.duration.seconds ≠ none) : ∃ r, checkLateGame ms = Except.ok r := by
  have hlen : ms.length ≠ 0 := fun h0 => hne (List.length_eq_zero.mp h0)
  have hq : (ms.length : ℚ) ≠ 0 := by exact_mod_cast hlen
  simp only [checkLateGame, sumDurations_ok ms h, jsDiv_ok _ _ hq, bind, Except.bind, pure,
    Except.pure]
  split
  · split
    · next h5 =>
      have hq5 : (((ms.filter isLateGame).length : ℕ) : ℚ) ≠ 0 := by
        have : (ms.filter isLateGame).length ≠ 0 := by omega
        exact_mod_cast this
      simp only [jsDiv_ok _ _ hq5]
      exact ⟨_, rfl⟩
    · exact ⟨_, rfl⟩
  · exact ⟨_, rfl⟩

theorem checkRankedShare_ok (ms : List Match) (hne : ms ≠ []) :
    ∃ r, checkRankedShare ms = Except.ok r := by
  have hlen : ms.length ≠ 0 := fun h0 => hne (List.length_eq_zero.mp h0)
  have hq : (ms.length : ℚ) ≠ 0 := by exact_mod_cast hlen
  simp only [checkRankedShare, jsDiv_ok _ _ hq, bind, Except.bind, pure, Except.pure]
  split <;> exact ⟨_, rfl⟩

theorem checkPlayPatterns_ok (ms : List Match) (hne : ms ≠ [])
    (h : ∀ m ∈ ms, m.duration.seconds ≠ none) : ∃ r, checkPlayPatterns ms = Except.ok r := by
  obtain ⟨a, ha⟩ := checkLateGame_ok ms hne h
  obtain ⟨b, hb⟩ := checkRankedShare_ok ms hne
  simp only [checkPlayPatterns, ha, hb, bind, Except.bind, pure, Except.pure]
  exact ⟨_, rfl⟩

theorem generateInsights_ok (ms : List Match) (h : ∀ m ∈ ms, m.duration.seconds ≠ none) :
    ∃ r, generateInsights ms = Except.ok r := by
  unfold generateInsights
  split
  · exact ⟨_, rfl⟩
  · next hlen =>
    have hne : ms ≠ [] := by
      rintro rfl
      simp at hlen
    obtain ⟨a, ha⟩ := checkFarmingIssues_ok ms hne
    obtain ⟨b, hb⟩ := checkSynergies_ok ms
    obtain ⟨c, hc⟩ := checkStreaks_ok ms
    obtain ⟨d, hd⟩ := checkHeroPerformance_ok ms
    obtain ⟨e, he⟩ := checkPlayPatterns_ok ms hne h
    simp only [ha, hb, hc, hd, he, bind, Except.bind, pure, Except.pure]
    exact ⟨_, rfl⟩


/-- Called on the empty collection directly, outside `generateInsights`, the first rule
divides zero by zero. -/
theorem checkFarmingIssues_nil : checkFarmingIssues [] = Except.error Fault.divisionByZero := by
  simp [checkFarmingIssues, jsDiv, bind, Except.bind]

/-- C9: on every collection of matches whose durations are all present (kills, deaths and
assists are natural numbers in every match), `calculateWinRate`, `calculateAverageKda`,
`calculateAverageDuration`, `getMostPlayedHeroes`, `getBestRole`, `calculatePlayStyle` and
`generateInsights` (which runs the five rule functions) return a result: no division has a
zero denominator and no `NaN` arises.  `getPerformanceOverTime` returns a result too,
unless a match has an invalid date, in which case `toISOString` throws; it never divides
by zero either. -/
theorem aggregates_never_divide_by_zero (now days : Int) (limit : Nat) (ms : List Match)
    (h : ∀ m ∈ ms, m.duration.seconds ≠ none) :
    (∃ r, calculateWinRate ms = Except.ok r) ∧
    (∃ r, calculateAverageKda ms = Except.ok r) ∧
    (∃ r, calculateAverageDuration ms = Except.ok r) ∧
    (∃ r, getMostPlayedHeroes ms limit = Except.ok r) ∧
    (∃ r, getBestRole ms = Except.ok r) ∧
    (∃ r, calculatePlayStyle ms = Except.ok r) ∧
    (∃ r, generateInsights ms = Except.ok r) ∧
    getPerformanceOverTime now ms days ≠ Except.error Fault.divisionByZero ∧
    getPerformanceOverTime now ms days ≠ Except.error Fault.notANumber ∧
    ((∀ m ∈ ms, m.localTime ≠ none) → ∃ r, getPerformanceOverTime now ms days = Except.ok r) := by
  have hperf := getPerformanceOverTime_cases now ms days
  refine ⟨⟨_, calculateWinRate_ok ms⟩, ?_, ?_, ⟨_, getMostPlayedHeroes_ok ms limit⟩,
    ⟨_, getBestRole_ok ms⟩, ?_, generateInsights_ok ms h, ?_, ?_, ?_⟩
  · cases ms with
    | nil => exact ⟨_, rfl⟩
    | cons m rest => exact ⟨_, calculateAverageKda_ok (m :: rest) (by simp)⟩
  · obtain ⟨r, hr, _⟩ := calculateAverageDuration_ok ms h
    exact ⟨r, hr⟩
  · cases ms with
    | nil => exact ⟨_, rfl⟩
    | cons m rest => exact ⟨_, calculatePlayStyle_ok (m :: rest) (by simp) h⟩
  · rcases hperf with ⟨_, he⟩ | ⟨r, hr⟩
    · rw [he]; simp
    · rw [hr]; simp
  · rcases hperf with ⟨_, he⟩ | ⟨r, hr⟩
    · rw [he]; simp
    · rw [hr]; simp
  · intro hvalid
    rcases hperf with ⟨⟨m, hm, hn⟩, _⟩ | hok
    · exact absurd hn (hvalid m hm)
    · exact hok

/-- C9 (witness): the statement for the one-match collection `[completeMatch]` and for
the empty collection, at the clock reading 1700000000000, a period of 30 days and a limit
of 5 heroes. -/
theorem aggregates_never_divide_by_zero_witness :
    (∀ m ∈ [completeMatch], m.duration.seconds ≠ none) ∧
    ((∃ r, calculateWinRate [completeMatch] = Except.ok r) ∧
    (∃ r, calculateAverageKda [completeMatch] = Except.ok r) ∧
    (∃ r, calculateAverageDuration [completeMatch] = Except.ok r) ∧
    (∃ r, getMostPlayedHeroes [completeMatch] 5 = Except.ok r) ∧
    (∃ r, getBestRole [completeMatch] = Except.ok r) ∧
    (∃ r, calculatePlayStyle [completeMatch] = Except.ok r) ∧
    (∃ r, generateInsights [completeMatch] = Except.ok r) ∧
    getPerformanceOverTime 1700000000000 [completeMatch] 30 ≠
      Except.error Fault.divisionByZero ∧
    getPerformanceOverTime 1700000000000 [completeMatch] 30 ≠ Except.error Fault.notANumber ∧
    ((∀ m ∈ [completeMatch], m.localTime ≠ none) →
      ∃ r, getPerformanceOverTime 1700000000000 [completeMatch] 30 = Except.ok r)) ∧
    (∃ r, calculatePlayStyle [] = Except.ok r) :=
  ⟨by simp [completeMatch, normalizeMatch, completeRawMatch],
    aggregates_never_divide_by_zero 1700000000000 30 5 [completeMatch]
      (by simp [completeMatch, normalizeMatch, completeRawMatch]),
    (aggregates_never_divide_by_zero 0 0 0 [] (by simp)).2.2.2.2.2.1⟩

/-! ## Properties: filtering -/

/-- C11: in workday mode the active set is `rawMatches.filter(m => isWorkdayTime(m.timestamp))`,
a sublist of the raw matches (order and multiplicity kept); filtering the active set again
with the same policy changes nothing; in mode `todas` the active set is the list of raw
matches itself. -/
theorem applyFilter_idempotent (host : Host) (state : State) :
    (applyFilter host { state with filterMode := FilterMode.remunerado }).activeMatches =
      state.rawMatches.filter (fun m => isWorkdayTime host state.config m.timestamp) ∧
    (applyFilter host
      { state with
        filterMode := FilterMode.remunerado
        rawMatches :=
          (applyFilter host { state with filterMode := FilterMode.remunerado }).activeMatches
      }).activeMatches =
      (applyFilter host { state with filterMode := FilterMode.remunerado }).activeMatches ∧
    List.Sublist (applyFilter host { state with filterMode := FilterMode.remunerado }).activeMatches
      state.rawMatches ∧
    (applyFilter host { state with filterMode := FilterMode.todas }).activeMatches =
      state.rawMatches := by
  refine ⟨by simp [applyFilter], ?_, ?_, by simp [applyFilter]⟩
  · simp only [applyFilter, reduceCtorEq, if_false, List.filter_filter, Bool.and_self]
  · simp only [applyFilter, reduceCtorEq, if_false]
    exact List.filter_sublist _

/-! ## Properties: weekly statistics -/

theorem mem_thisWeekMatches (now : Int) (ms : List Match) (m : Match) :
    m ∈ thisWeekMatches now ms ↔
      m ∈ ms ∧ ∃ t, m.timestamp = some t ∧ now - 604800000 ≤ t := by
  simp only [thisWeekMatches, List.mem_filter, timestampGe]
  constructor
  · rintro ⟨hm, ht⟩
    cases hts : m.timestamp with
    | none => simp [hts] at ht
    | some t =>
      simp only [hts, decide_eq_true_eq] at ht
      exact ⟨hm, t, rfl, by omega⟩
  · rintro ⟨hm, t, hts, ht⟩
    refine ⟨hm, ?_⟩
    simp only [hts, decide_eq_true_eq]
    omega

theorem mem_lastWeekMatches (now : Int) (ms : List Match) (m : Match) :
    m ∈ lastWeekMatches now ms ↔
      m ∈ ms ∧ ∃ t, m.timestamp = some t ∧ now - 1209600000 ≤ t ∧ t < now - 604800000 := by
  simp only [lastWeekMatches, List.mem_filter, timestampGe, timestampLt, Bool.and_eq_true]
  constructor
  · rintro ⟨hm, ht⟩
    cases hts : m.timestamp with
    | none => simp [hts] at ht
    | some t =>
      simp only [hts, decide_eq_true_eq] at ht
      exact ⟨hm, t, rfl, by omega, by omega⟩
  · rintro ⟨hm, t, hts, ht1, ht2⟩
    refine ⟨hm, ?_⟩
    simp only [hts, decide_eq_true_eq]
    constructor <;> omega

/-- The record that `calculateWeeklyStats` returns, in terms of the two weekly sets. -/
theorem calculateWeeklyStats_ok (now : Int) (ms : List Match) (tw lw : WinRate)
    (htw : calculateWinRate (thisWeekMatches now ms) = Except.ok tw)
    (hlw : calculateWinRate (lastWeekMatches now ms) = Except.ok lw) :
    calculateWeeklyStats now ms = Except.ok
      { thisWeek := { matchCount := (thisWeekMatches now ms).length, winRate := tw.rate }
        lastWeek := { matchCount := (lastWeekMatches now ms).length, winRate := lw.rate }
        trend :=
          { matchCount := ((thisWeekMatches now ms).length : ℤ) -
              ((lastWeekMatches now ms).length : ℤ)
            winRate := tw.rate - lw.rate } } := by
  simp only [calculateWeeklyStats, htw, hlw, bind, Except.bind, pure, Except.pure]

/-- C14: with `now` the clock reading, `calculateWeeklyStats` takes as this week the
matches with `timestamp ≥ now - 7 days` and as last week those with
`now - 14 days ≤ timestamp < now - 7 days` (a `NaN` timestamp is in neither), reports their
counts and their `calculateWinRate` rates, and the trend fields are the differences this
week minus last week; no match is in both weeks. -/
theorem calculateWeeklyStats_spec (now : Int) (ms : List Match) :
    ∃ r tw lw, calculateWeeklyStats now ms = Except.ok r ∧
      calculateWinRate (thisWeekMatches now ms) = Except.ok tw ∧
      calculateWinRate (lastWeekMatches now ms) = Except.ok lw ∧
      r.thisWeek = { matchCount := (thisWeekMatches now ms).length, winRate := tw.rate } ∧
      r.lastWeek = { matchCount := (lastWeekMatches now ms).length, winRate := lw.rate } ∧
      r.trend.matchCount = r.thisWeek.matchCount - r.lastWeek.matchCount ∧
      r.trend.winRate = r.thisWeek.winRate - r.lastWeek.winRate ∧
      (∀ m, m ∈ thisWeekMatches now ms ↔
        m ∈ ms ∧ ∃ t, m.timestamp = some t ∧ now - 604800000 ≤ t) ∧
      (∀ m, m ∈ lastWeekMatches now ms ↔
        m ∈ ms ∧ ∃ t, m.timestamp = some t ∧ now - 1209600000 ≤ t ∧ t < now - 604800000) ∧
      List.Sublist (thisWeekMatches now ms) ms ∧
      List.Sublist (lastWeekMatches now ms) ms ∧
      (∀ m, ¬ (m ∈ thisWeekMatches now ms ∧ m ∈ lastWeekMatches now ms)) := by
  refine ⟨_, _, _,
    calculateWeeklyStats_ok now ms _ _ (calculateWinRate_ok _) (calculateWinRate_ok _),
    calculateWinRate_ok _, calculateWinRate_ok _, rfl, rfl, rfl, rfl,
    mem_thisWeekMatches now ms, mem_lastWeekMatches now ms, List.filter_sublist _,
    List.filter_sublist _, ?_⟩
  · rintro m ⟨h1, h2⟩
    obtain ⟨_, t, ht, h7⟩ := (mem_thisWeekMatches now ms m).mp h1
    obtain ⟨_, t2, ht2, _, hlt⟩ := (mem_lastWeekMatches now ms m).mp h2
    rw [ht] at ht2
    cases ht2
    omega

/-! ## Properties: play style -/

/-- C15: on a collection whose durations are all present, each of the five scores of
`calculatePlayStyle` is an integer between 0 and 100; on the empty collection all five
are 0. -/
theorem calculatePlayStyle_range (ms : List Match)
    (h : ∀ m ∈ ms, m.duration.seconds ≠ none) :
    (∃ r, calculatePlayStyle ms = Except.ok r ∧
      0 ≤ r.fighting ∧ r.fighting ≤ 100 ∧
      0 ≤ r.versatility ∧ r.versatility ≤ 100 ∧
      0 ≤ r.farming ∧ r.farming ≤ 100 ∧
      0 ≤ r.supporting ∧ r.supporting ≤ 100 ∧
      0 ≤ r.pushing ∧ r.pushing ≤ 100) ∧
    calculatePlayStyle [] = Except.ok
      { fighting := 0, versatility := 0, farming := 0, supporting := 0, pushing := 0 } := by
  refine ⟨?_, rfl⟩
  cases ms with
  | nil => exact ⟨_, rfl, by simp⟩
  | cons m rest =>
    refine ⟨_, calculatePlayStyle_ok (m :: rest) (by simp) h, ?_⟩
    simp only
    refine ⟨le_max_left _ _, ?_, le_max_left _ _, ?_, le_max_left _ _, ?_, le_max_left _ _, ?_,
      le_max_left _ _, ?_⟩ <;>
    exact max_le (by decide) (min_le_left _ _)

/-- C15 (witness): the statement for the one-match collection `[completeMatch]`. -/
theorem calculatePlayStyle_range_witness :
    (∀ m ∈ [completeMatch], m.duration.seconds ≠ none) ∧
    ((∃ r, calculatePlayStyle [completeMatch] = Except.ok r ∧
      0 ≤ r.fighting ∧ r.fighting ≤ 100 ∧
      0 ≤ r.versatility ∧ r.versatility ≤ 100 ∧
      0 ≤ r.farming ∧ r.farming ≤ 100 ∧
      0 ≤ r.supporting ∧ r.supporting ≤ 100 ∧
      0 ≤ r.pushing ∧ r.pushing ≤ 100) ∧
    calculatePlayStyle [] = Except.ok
      { fighting := 0, versatility := 0, farming := 0, supporting := 0, pushing := 0 }) :=
  ⟨by simp [completeMatch, normalizeMatch, completeRawMatch],
    calculatePlayStyle_range [completeMatch]
      (by simp [completeMatch, normalizeMatch, completeRawMatch])⟩

/-! ## Properties: the insight generator -/

/-- C18: for a collection of fewer than five matches `generateInsights` returns exactly
one insight, of type info and title "Dados Insuficientes", whatever the matches are; no
rule function is evaluated. -/
theorem generateInsights_insufficient (ms : List Match) (h : ms.length < 5) :
    generateInsights ms = Except.ok [insufficientData] ∧
    insufficientData.type = InsightType.info ∧
    insufficientData.title = "Dados Insuficientes" := by
  refine ⟨?_, rfl, rfl⟩
  simp [generateInsights, h]

/-- C18 (witness): the statement for four copies of `completeMatch`; the empty collection
gives the same single insight. -/
theorem generateInsights_insufficient_witness :
    [completeMatch, completeMatch, completeMatch, completeMatch].length < 5 ∧
    (generateInsights [completeMatch, completeMatch, completeMatch, completeMatch] =
        Except.ok [insufficientData] ∧
      insufficientData.type = InsightType.info ∧
      insufficientData.title = "Dados Insuficientes") ∧
    generateInsights [] = Except.ok [insufficientData] :=
  ⟨by decide,
    generateInsights_insufficient
      [completeMatch, completeMatch, completeMatch, completeMatch] (by decide),
    (generateInsights_insufficient [] (by decide)).1⟩

theorem insightType_cases (t : InsightType) :
    t = InsightType.info ∨ t = InsightType.warning ∨ t = InsightType.success := by
  cases t <;> simp

theorem generateInsights_length_le (ms : List Match) (r : List Insight)
    (h : generateInsights ms = Except.ok r) : r.length ≤ 5 := by
  unfold generateInsights at h
  split at h
  · cases h
    simp
  · cases ha : checkFarmingIssues ms with
    | error e => simp [ha, bind, Except.bind] at h
    | ok a =>
      cases hb : checkSynergies ms with
      | error e => simp [ha, hb, bind, Except.bind] at h
      | ok b =>
        cases hc : checkStreaks ms with
        | error e => simp [ha, hb, hc, bind, Except.bind] at h
        | ok c =>
          cases hd : checkHeroPerformance ms with
          | error e => simp [ha, hb, hc, hd, bind, Except.bind] at h
          | ok d =>
            cases he : checkPlayPatterns ms with
            | error e => simp [ha, hb, hc, hd, he, bind, Except.bind] at h
            | ok e =>
              simp only [ha, hb, hc, hd, he, bind, Except.bind, pure, Except.pure,
                Except.ok.injEq] at h
              rw [← h]
              simp

/-- C19: for a collection of at least five matches whose durations are all present, the
five rules return lists `a`, `b`, `c`, `d`, `e` and `generateInsights` returns the first
five elements of `a ++ b ++ c ++ d ++ e`; whatever the collection, a returned list has at
most five insights, each of type info, warning or success. -/
theorem generateInsights_spec (ms : List Match) (h5 : 5 ≤ ms.length)
    (hdur : ∀ m ∈ ms, m.duration.seconds ≠ none) :
    (∃ a b c d e, checkFarmingIssues ms = Except.ok a ∧ checkSynergies ms = Except.ok b ∧
      checkStreaks ms = Except.ok c ∧ checkHeroPerformance ms = Except.ok d ∧
      checkPlayPatterns ms = Except.ok e ∧
      generateInsights ms = Except.ok ((a ++ b ++ c ++ d ++ e).take 5)) ∧
    (∀ (xs : List Match) (r : List Insight), generateInsights xs = Except.ok r →
      r.length ≤ 5 ∧
      ∀ i ∈ r, i.type = InsightType.info ∨ i.type = InsightType.warning ∨
        i.type = InsightType.success) := by
  constructor
  · have hne : ms ≠ [] := by
      rintro rfl
      simp at h5
    obtain ⟨a, ha⟩ := checkFarmingIssues_ok ms hne
    obtain ⟨b, hb⟩ := checkSynergies_ok ms
    obtain ⟨c, hc⟩ := checkStreaks_ok ms
    obtain ⟨d, hd⟩ := checkHeroPerformance_ok ms
    obtain ⟨e, he⟩ := checkPlayPatterns_ok ms hne hdur
    refine ⟨a, b, c, d, e, ha, hb, hc, hd, he, ?_⟩
    have hlt : ¬ ms.length < 5 := by omega
    simp only [generateInsights, hlt, if_false, ha, hb, hc, hd, he, bind, Except.bind, pure,
      Except.pure]
  · intro xs r hr
    exact ⟨generateInsights_length_le xs r hr, fun i _ => insightType_cases i.type⟩

/-- C19 (witness): the statement for five copies of `completeMatch`. -/
theorem generateInsights_spec_witness :
    5 ≤ [completeMatch, completeMatch, completeMatch, completeMatch, completeMatch].length ∧
    (∀ m ∈ [completeMatch, completeMatch, completeMatch, completeMatch, completeMatch],
      m.duration.seconds ≠ none) ∧
    ((∃ a b c d e,
      checkFarmingIssues
        [completeMatch, completeMatch, completeMatch, completeMatch, completeMatch] =
          Except.ok a ∧
      checkSynergies
        [completeMatch, completeMatch, completeMatch, completeMatch, completeMatch] =
          Except.ok b ∧
      checkStreaks
        [completeMatch, completeMatch, completeMatch, completeMatch, completeMatch] =
          Except.ok c ∧
      checkHeroPerformance
        [completeMatch, completeMatch, completeMatch, completeMatch, completeMatch] =
          Except.ok d ∧
      checkPlayPatterns
        [completeMatch, completeMatch, completeMatch, completeMatch, completeMatch] =
          Except.ok e ∧
      generateInsights
        [completeMatch, completeMatch, completeMatch, completeMatch, completeMatch] =
          Except.ok ((a ++ b ++ c ++ d ++ e).take 5)) ∧
    (∀ (xs : List Match) (r : List Insight), generateInsights xs = Except.ok r →
      r.length ≤ 5 ∧
      ∀ i ∈ r, i.type = InsightType.info ∨ i.type = InsightType.warning ∨
        i.type = InsightType.success)) :=
  ⟨by decide, by simp [completeMatch, normalizeMatch, completeRawMatch],
    generateInsights_spec
      [completeMatch, completeMatch, completeMatch, completeMatch, completeMatch] (by decide)
      (by simp [completeMatch, normalizeMatch, completeRawMatch])⟩

/-! ## Properties: streaks -/

theorem streakLength_eq (t : MatchResult) (ms : List Match) :
    streakLength t ms =
      if t = MatchResult.unknown then 0
      else (ms.takeWhile (fun m => decide (m.result = t))).length := by
  induction ms with
  | nil => simp [streakLength]
  | cons m rest ih =>
    by_cases ht : t = MatchResult.unknown
    · subst ht
      simp [streakLength]
    · by_cases hm : m.result = t
      · have hmu : m.result ≠ MatchResult.unknown := by rw [hm]; exact ht
        simp only [streakLength, hm, ht, ne_eq, not_false_eq_true, and_self, if_true, if_false,
          List.takeWhile_cons, decide_True, List.length_cons, ih]
      · simp [streakLength, hm, ht, List.takeWhile_cons]

theorem streakLength_eq_leadingStreak (first : Match) (rest : List Match) :
    streakLength first.result (first :: rest) = leadingStreak (first :: rest) := by
  rw [streakLength_eq]
  rfl

/-- C20: for a collection `m0 :: m1 :: m2 :: rest` (most recent first) with `k` the length
of the longest prefix whose results equal the result of `m0`, taken as 0 when that result
is unknown, `checkStreaks` returns exactly one insight naming `k` when `k ≥ 3` (of type
success for wins, warning for losses) and none when `k < 3`; for the results win, win,
win, loss, win it reports a streak of 3 wins. -/
theorem checkStreaks_spec (m0 m1 m2 : Match) (rest : List Match) :
    checkStreaks (m0 :: m1 :: m2 :: rest) = Except.ok
      (if 3 ≤ leadingStreak (m0 :: m1 :: m2 :: rest) then
        (if m0.result = MatchResult.win then
          [winStreakInsight (leadingStreak (m0 :: m1 :: m2 :: rest))]
        else [lossStreakInsight (leadingStreak (m0 :: m1 :: m2 :: rest))])
      else []) ∧
    (3 ≤ leadingStreak (m0 :: m1 :: m2 :: rest) →
      m0.result = MatchResult.win ∨ m0.result = MatchResult.loss) ∧
    leadingStreak streakSample = 3 ∧
    checkStreaks streakSample = Except.ok [winStreakInsight 3] ∧
    (winStreakInsight 3).message = "Você está em uma sequência de 3 vitórias! Continue assim!" := by
  have hk : ∀ (a b c : Match) (l : List Match), 3 ≤ leadingStreak (a :: b :: c :: l) →
      a.result = MatchResult.win ∨ a.result = MatchResult.loss := by
    intro a b c l h3
    cases hr : a.result with
    | win => exact Or.inl rfl
    | loss => exact Or.inr rfl
    | unknown => simp [leadingStreak, hr] at h3
  have hgen : ∀ (a b c : Match) (l : List Match),
      checkStreaks (a :: b :: c :: l) = Except.ok
        (if 3 ≤ leadingStreak (a :: b :: c :: l) then
          (if a.result = MatchResult.win then [winStreakInsight (leadingStreak (a :: b :: c :: l))]
          else [lossStreakInsight (leadingStreak (a :: b :: c :: l))])
        else []) := by
    intro a b c l
    have hlen : ¬ (a :: b :: c :: l).length < 3 := by simp
    simp only [checkStreaks, hlen, if_false, List.head?_cons, streakLength_eq_leadingStreak]
    by_cases h3 : 3 ≤ leadingStreak (a :: b :: c :: l)
    · rcases hk a b c l h3 with hw | hl
      · simp [h3, hw, winStreakInsight]
      · simp [h3, hl, lossStreakInsight]
    · simp [h3]
  have h3 : leadingStreak streakSample = 3 := by decide
  refine ⟨hgen m0 m1 m2 rest, hk m0 m1 m2 rest, h3, ?_, by decide⟩
  have hs := hgen (matchWithResult MatchResult.win) (matchWithResult MatchResult.win)
    (matchWithResult MatchResult.win)
    [matchWithResult MatchResult.loss, matchWithResult MatchResult.win]
  have hw : (matchWithResult MatchResult.win).result = MatchResult.win := rfl
  unfold streakSample at h3 ⊢
  rw [hs, h3, hw]
  simp

theorem mathRound_natCast (n : Nat) : mathRound (n : ℚ) = (n : ℤ) := by
  unfold mathRound
  rw [Int.floor_eq_iff]
  constructor
  · push_cast
    linarith
  · push_cast
    linarith

theorem mathRound_nonneg (x : ℚ) (hx : 0 ≤ x) : 0 ≤ mathRound x := by
  unfold mathRound
  apply Int.floor_nonneg.mpr
  linarith

/-- C16 (counterexample): for three matches with means of 1/3 kill and 2/3 assist the code
scores supporting 27 where the formula on the exact means gives 25, and for five matches
with a mean duration of 2394.4 seconds the code scores pushing 1 where the formula on the
exact mean gives 0. -/
theorem calculatePlayStyle_not_from_exact_means :
    (∃ r, calculatePlayStyle supportingSample = Except.ok r ∧ r.supporting = 27) ∧
    (specPlayStyle supportingSample).supporting = 25 ∧
    (∃ r, calculatePlayStyle pushingSample = Except.ok r ∧ r.pushing = 1) ∧
    (specPlayStyle pushingSample).pushing = 0 := by
  have hk : totalKills supportingSample = 1 := by decide
  have ha : totalAssists supportingSample = 2 := by decide
  have hl : supportingSample.length = 3 := by decide
  have hd : totalDuration pushingSample = 11972 := by decide
  have hl2 : pushingSample.length = 5 := by decide
  refine ⟨⟨_, calculatePlayStyle_ok supportingSample (by decide) (by decide), ?_⟩, ?_,
    ⟨_, calculatePlayStyle_ok pushingSample (by decide) (by decide), ?_⟩, ?_⟩
  · have h7 : Int.toNat 7 = 7 := rfl
    have h3 : Int.toNat 3 = 3 := rfl
    simp only [hk, ha, hl, toFixedValue, mathRound]
    norm_num [h7, h3]
  · simp only [specPlayStyle, hk, ha, hl, mathRound]
    norm_num
  · simp only [hd, hl2, mathRound]
    norm_num
  · simp only [specPlayStyle, hd, hl2, mathRound]
    norm_num

theorem mathRound_close (x : ℚ) : |(mathRound x : ℚ) - x| ≤ 1 / 2 := by
  have h1 : (mathRound x : ℚ) ≤ x + 1 / 2 := Int.floor_le _
  have h2 : x + 1 / 2 < (mathRound x : ℚ) + 1 := Int.lt_floor_add_one _
  rw [abs_le]
  constructor <;> linarith

/-- C16 (amended): for a non-empty collection whose durations are present,
`calculatePlayStyle` computes versatility and farming as the formulas on the exact values
state; fighting and supporting from the means of kills and assists each rounded to one
decimal (the `toFixed(1)` texts of `calculateAverageKda` parsed back), and pushing from the
mean duration rounded to whole seconds (the `seconds` of `calculateAverageDuration`). The
one-decimal means are within 1/20 of the exact means and the rounded duration within 1/2
of the exact mean duration. -/
theorem calculatePlayStyle_spec (m : Match) (rest : List Match)
    (hdur : ∀ x ∈ m :: rest, x.duration.seconds ≠ none) :
    ∃ r, calculatePlayStyle (m :: rest) = Except.ok r ∧
      r.fighting = max 0 (min 100 (mathRound
        (toFixedValue 1 ((totalKills (m :: rest) : ℚ) / ((m :: rest).length : ℚ)) * 10))) ∧
      r.versatility = (specPlayStyle (m :: rest)).versatility ∧
      r.farming = (specPlayStyle (m :: rest)).farming ∧
      r.supporting = max 0 (min 100 (mathRound
        (toFixedValue 1 ((totalAssists (m :: rest) : ℚ) / ((m :: rest).length : ℚ)) /
          (toFixedValue 1 ((totalKills (m :: rest) : ℚ) / ((m :: rest).length : ℚ)) + 1) *
            50))) ∧
      r.pushing = max 0 (min 100 (mathRound
        ((2400 - ((mathRound ((totalDuration (m :: rest) : ℚ) / ((m :: rest).length : ℚ)) : ℤ) :
          ℚ)) / 12))) ∧
      |toFixedValue 1 ((totalKills (m :: rest) : ℚ) / ((m :: rest).length : ℚ)) -
        (totalKills (m :: rest) : ℚ) / ((m :: rest).length : ℚ)| ≤ 1 / 20 ∧
      |toFixedValue 1 ((totalAssists (m :: rest) : ℚ) / ((m :: rest).length : ℚ)) -
        (totalAssists (m :: rest) : ℚ) / ((m :: rest).length : ℚ)| ≤ 1 / 20 ∧
      |((mathRound ((totalDuration (m :: rest) : ℚ) / ((m :: rest).length : ℚ)) : ℤ) : ℚ) -
        (totalDuration (m :: rest) : ℚ) / ((m :: rest).length : ℚ)| ≤ 1 / 2 := by
  have hk : (0 : ℚ) ≤ (totalKills (m :: rest) : ℚ) / ((m :: rest).length : ℚ) := by positivity
  have ha : (0 : ℚ) ≤ (totalAssists (m :: rest) : ℚ) / ((m :: rest).length : ℚ) := by
    positivity
  refine ⟨_, calculatePlayStyle_ok (m :: rest) (by simp) hdur, rfl, ?_, rfl, rfl, rfl, ?_, ?_,
    mathRound_close _⟩
  · simp only [specPlayStyle]
    congr 3
    ring
  · have := mathRound_scaled_close 1 _ hk
    norm_num [toFixedValue] at this ⊢
    exact this
  · have := mathRound_scaled_close 1 _ ha
    norm_num [toFixedValue] at this ⊢
    exact this

/-- C16 (witness): the amended statement for the one-match collection `[completeMatch]`. -/
theorem calculatePlayStyle_spec_witness :
    (∀ x ∈ [completeMatch], x.duration.seconds ≠ none) ∧
    ∃ r, calculatePlayStyle [completeMatch] = Except.ok r ∧
      r.fighting = max 0 (min 100 (mathRound
        (toFixedValue 1 ((totalKills [completeMatch] : ℚ) / ([completeMatch].length : ℚ)) *
          10))) ∧
      r.versatility = (specPlayStyle [completeMatch]).versatility ∧
      r.farming = (specPlayStyle [completeMatch]).farming ∧
      r.supporting = max 0 (min 100 (mathRound
        (toFixedValue 1 ((totalAssists [completeMatch] : ℚ) / ([completeMatch].length : ℚ)) /
          (toFixedValue 1 ((totalKills [completeMatch] : ℚ) / ([completeMatch].length : ℚ)) + 1) *
            50))) ∧
      r.pushing = max 0 (min 100 (mathRound
        ((2400 - ((mathRound ((totalDuration [completeMatch] : ℚ) /
          ([completeMatch].length : ℚ)) : ℤ) : ℚ)) / 12))) ∧
      |toFixedValue 1 ((totalKills [completeMatch] : ℚ) / ([completeMatch].length : ℚ)) -
        (totalKills [completeMatch] : ℚ) / ([completeMatch].length : ℚ)| ≤ 1 / 20 ∧
      |toFixedValue 1 ((totalAssists [completeMatch] : ℚ) / ([completeMatch].length : ℚ)) -
        (totalAssists [completeMatch] : ℚ) / ([completeMatch].length : ℚ)| ≤ 1 / 20 ∧
      |((mathRound ((totalDuration [completeMatch] : ℚ) / ([completeMatch].length : ℚ)) : ℤ) :
        ℚ) - (totalDuration [completeMatch] : ℚ) / ([completeMatch].length : ℚ)| ≤ 1 / 2 :=
  ⟨by decide, calculatePlayStyle_spec completeMatch [] (by decide)⟩

/-! ## Properties: performance over time -/

/-- C17 (failing input): with Brasília as local time, two matches played on the same local
date, 14 November 2023 at 20:00 and at 22:00, are reported as two entries, dated
2023-11-14 and 2023-11-15: the key is the UTC date of `toISOString`, not the local
calendar date. -/
theorem getPerformanceOverTime_groups_by_utc_date :
    getPerformanceOverTime 1700020000000 [lateEveningMatch, eveningMatch] 30 = Except.ok
      [{ date := "2023-11-14", wins := 1, losses := 0, games := 1, winRate := 100 },
       { date := "2023-11-15", wins := 1, losses := 0, games := 1, winRate := 100 }] ∧
    localDateKey brasiliaHost eveningMatch.localTime = Except.ok "2023-11-14" ∧
    localDateKey brasiliaHost lateEveningMatch.localTime = Except.ok "2023-11-14" ∧
    getHours brasiliaHost eveningMatch.localTime = some 20 ∧
    getHours brasiliaHost lateEveningMatch.localTime = some 22 ∧
    isoDateKey lateEveningMatch.localTime = Except.ok "2023-11-15" := by
  refine ⟨?_, rfl, rfl, by decide, by decide, rfl⟩
  have hfilter : [lateEveningMatch, eveningMatch].filter
      (fun m => timestampGe m.timestamp (1700020000000 - 30 * 24 * 60 * 60 * 1000)) =
      [lateEveningMatch, eveningMatch] := rfl
  have hfold : [lateEveningMatch, eveningMatch].foldlM byDateStep [] = Except.ok
      [("2023-11-15", ({ wins := 1, losses := 0, games := 1 } : DayStat)),
       ("2023-11-14", ({ wins := 1, losses := 0, games := 1 } : DayStat))] := rfl
  have hmap := jsMapM_ok dayWithWinRate dayEntryOf
    [("2023-11-15", ({ wins := 1, losses := 0, games := 1 } : DayStat)),
     ("2023-11-14", ({ wins := 1, losses := 0, games := 1 } : DayStat))]
    (by
      intro p hp
      apply dayWithWinRate_ok
      simp only [List.mem_cons, List.mem_singleton, List.not_mem_nil, or_false] at hp
      rcases hp with rfl | rfl <;> decide)
  have hrate : mathRound (((1 : ℕ) : ℚ) / ((1 : ℕ) : ℚ) * 100) = 100 := by
    norm_num [mathRound]
  simp only [getPerformanceOverTime, hfilter, hfold, hmap, bind, Except.bind, pure, Except.pure,
    List.map_cons, List.map_nil, dayEntryOf, hrate]
  congr 1
  have hlt : ¬ ("2023-11-15" < "2023-11-14") := by
    intro h
    have h2 := String.lt_iff_toList_lt.mp h
    revert h2
    decide
  simp [jsSort, List.insertionSort, List.orderedInsert, localeCompare, hlt]

/-! ## Properties: grouping by hero -/

theorem firstOccurrences_concat {α : Type} [DecidableEq α] (l : List α) (a : α) :
    firstOccurrences (l ++ [a]) =
      if a ∈ l then firstOccurrences l else firstOccurrences l ++ [a] := by
  unfold firstOccurrences
  rw [List.reverse_append, List.reverse_singleton, List.singleton_append]
  split
  · next h => rw [List.dedup_cons_of_mem (List.mem_reverse.mpr h)]
  · next h =>
    rw [List.dedup_cons_of_not_mem (fun hm => h (List.mem_reverse.mp hm)), List.reverse_cons]

theorem mem_firstOccurrences {α : Type} [DecidableEq α] (l : List α) (a : α) :
    a ∈ firstOccurrences l ↔ a ∈ l := by
  simp [firstOccurrences]

theorem nodup_firstOccurrences {α : Type} [DecidableEq α] (l : List α) :
    (firstOccurrences l).Nodup := by
  unfold firstOccurrences
  exact List.nodup_reverse.mpr (List.nodup_dedup _)

/-- The distinct elements come in the order of their first positions. -/
theorem pairwise_firstOccurrences {α : Type} [DecidableEq α] (l : List α) :
    (firstOccurrences l).Pairwise (fun x y => firstIndex l x < firstIndex l y) := by
  unfold firstIndex
  induction l using List.reverseRecOn with
  | nil => simp [firstOccurrences]
  | append_singleton l a ih =>
    have hold : (firstOccurrences l).Pairwise
        (fun x y => (l ++ [a]).indexOf x < (l ++ [a]).indexOf y) := by
      refine ih.imp_of_mem ?_
      intro x y hx hy hxy
      rw [List.indexOf_append_of_mem ((mem_firstOccurrences l x).mp hx),
        List.indexOf_append_of_mem ((mem_firstOccurrences l y).mp hy)]
      exact hxy
    rw [firstOccurrences_concat]
    split
    · exact hold
    · next ha =>
      rw [List.pairwise_append]
      refine ⟨hold, List.pairwise_singleton _ _, ?_⟩
      intro x hx y hy
      rw [List.mem_singleton] at hy
      subst hy
      have hxl := (mem_firstOccurrences l x).mp hx
      rw [List.indexOf_append_of_mem hxl, List.indexOf_append_of_not_mem ha]
      have := List.indexOf_lt_length.mpr hxl
      omega

theorem JsMap.get_keyed {κ α : Type} [DecidableEq κ] (keys : List κ) (f : κ → α) (k : κ) :
    JsMap.get (keys.map (fun x => (x, f x))) k = if k ∈ keys then some (f k) else none := by
  induction keys with
  | nil => simp [JsMap.get]
  | cons x xs ih =>
    simp only [List.map_cons, JsMap.get, List.mem_cons]
    by_cases hx : x = k
    · subst hx
      simp
    · have hx2 : ¬ k = x := fun h => hx h.symm
      simp only [hx, if_false, ih, hx2, false_or]

theorem JsMap.set_keyed_mem {κ α : Type} [DecidableEq κ] (keys : List κ) (f : κ → α) (k : κ)
    (v : α) (hk : k ∈ keys) (hnd : keys.Nodup) :
    JsMap.set (keys.map (fun x => (x, f x))) k v =
      keys.map (fun x => (x, if x = k then v else f x)) := by
  induction keys with
  | nil => simp at hk
  | cons x xs ih =>
    have hx := List.nodup_cons.mp hnd
    simp only [List.map_cons, JsMap.set]
    by_cases hxk : x = k
    · subst hxk
      simp only [if_true, List.cons.injEq, true_and]
      apply List.map_congr_left
      intro y hy
      have : y ≠ x := fun h => hx.1 (h ▸ hy)
      simp [this]
    · have hk2 : k ∈ xs := by
        rcases List.mem_cons.mp hk with h | h
        · exact absurd h.symm hxk
        · exact h
      simp only [hxk, if_false, ih hk2 hx.2]

theorem JsMap.set_keyed_not_mem {κ α : Type} [DecidableEq κ] (keys : List κ) (f : κ → α) (k : κ)
    (v : α) (hk : k ∉ keys) :
    JsMap.set (keys.map (fun x => (x, f x))) k v =
      keys.map (fun x => (x, f x)) ++ [(k, v)] := by
  induction keys with
  | nil => simp [JsMap.set]
  | cons x xs ih =>
    have hxk : ¬ x = k := fun h => hk (h ▸ List.mem_cons_self _ _)
    have hk2 : k ∉ xs := fun h => hk (List.mem_cons_of_mem _ h)
    simp only [List.map_cons, JsMap.set, hxk, if_false, ih hk2, List.cons_append]

theorem mem_heroIds (ms : List Match) (k : Option Nat) :
    k ∈ heroIds ms ↔ ∃ m ∈ ms, m.heroId = k := by
  simp [heroIds]

theorem find_hero_of_mem (ms : List Match) (k : Option Nat) (h : k ∈ heroIds ms) :
    ∃ first, ms.find? (fun m => decide (m.heroId = k)) = some first ∧ first.heroId = k := by
  obtain ⟨m, hm, hk⟩ := (mem_heroIds ms k).mp h
  cases hf : ms.find? (fun m => decide (m.heroId = k)) with
  | none =>
    have := List.find?_eq_none.mp hf m hm
    simp [hk] at this
  | some first =>
    have := List.find?_some hf
    exact ⟨first, rfl, by simpa using this⟩

theorem find_hero_of_not_mem (ms : List Match) (k : Option Nat) (h : k ∉ heroIds ms) :
    ms.find? (fun m => decide (m.heroId = k)) = none := by
  rw [List.find?_eq_none]
  intro m hm
  have : m.heroId ≠ k := fun hk => h ((mem_heroIds ms k).mpr ⟨m, hm, hk⟩)
  simpa using this

theorem heroGames_concat (ms : List Match) (m : Match) (k : Option Nat) :
    heroGames (ms ++ [m]) k = heroGames ms k + (if m.heroId = k then 1 else 0) := by
  unfold heroGames
  rw [List.filter_append, List.length_append]
  by_cases h : m.heroId = k <;> simp [List.filter_cons, h]

theorem heroWins_concat (ms : List Match) (m : Match) (k : Option Nat) :
    heroWins (ms ++ [m]) k =
      heroWins ms k + (if m.heroId = k ∧ m.result = MatchResult.win then 1 else 0) := by
  unfold heroWins
  rw [List.filter_append, List.length_append]
  by_cases h : m.heroId = k <;> by_cases hw : m.result = MatchResult.win <;>
    simp [List.filter_cons, h, hw]

theorem heroGames_of_not_mem (ms : List Match) (k : Option Nat) (h : k ∉ heroIds ms) :
    heroGames ms k = 0 := by
  unfold heroGames
  rw [List.length_eq_zero, List.filter_eq_nil_iff]
  intro m hm
  have : m.heroId ≠ k := fun hk => h ((mem_heroIds ms k).mpr ⟨m, hm, hk⟩)
  simpa using this

theorem heroWins_le_heroGames (ms : List Match) (k : Option Nat) :
    heroWins ms k ≤ heroGames ms k := by
  unfold heroWins heroGames
  induction ms with
  | nil => simp
  | cons m rest ih =>
    by_cases h : m.heroId = k <;> by_cases hw : m.result = MatchResult.win <;>
      simp [List.filter_cons, h, hw] <;> omega

theorem heroWins_of_not_mem (ms : List Match) (k : Option Nat) (h : k ∉ heroIds ms) :
    heroWins ms k = 0 := by
  have h1 := heroWins_le_heroGames ms k
  have h2 := heroGames_of_not_mem ms k h
  omega

theorem heroGames_pos_of_mem (ms : List Match) (k : Option Nat) (h : k ∈ heroIds ms) :
    0 < heroGames ms k := by
  obtain ⟨m, hm, hk⟩ := (mem_heroIds ms k).mp h
  unfold heroGames
  apply List.length_pos_of_mem (a := m)
  simp [List.mem_filter, hm, hk]

/-- A match played with another hero leaves the counters of `k` as they are. -/
theorem heroStatOf_concat_other (ms : List Match) (m : Match) (k : Option Nat)
    (h : m.heroId ≠ k) : heroStatOf (ms ++ [m]) k = heroStatOf ms k := by
  have hf : (ms ++ [m]).find? (fun x => decide (x.heroId = k)) =
      ms.find? (fun x => decide (x.heroId = k)) := by
    rw [List.find?_append]
    simp [List.find?_cons, h]
  unfold heroStatOf
  rw [hf, heroGames_concat, heroWins_concat]
  simp [h]

/-- The step of the `forEach` for a hero already present. -/
theorem heroStatOf_concat_old (ms : List Match) (m : Match) (h : m.heroId ∈ heroIds ms) :
    heroStatOf (ms ++ [m]) m.heroId =
      (if m.result = MatchResult.win then
        { heroStatOf ms m.heroId with
          games := (heroStatOf ms m.heroId).games + 1
          wins := (heroStatOf ms m.heroId).wins + 1 }
      else { heroStatOf ms m.heroId with games := (heroStatOf ms m.heroId).games + 1 }) := by
  obtain ⟨first, hfirst, _⟩ := find_hero_of_mem ms m.heroId h
  have hf : (ms ++ [m]).find? (fun x => decide (x.heroId = m.heroId)) = some first := by
    rw [List.find?_append, hfirst]
    rfl
  unfold heroStatOf
  rw [hf, hfirst, heroGames_concat, heroWins_concat]
  by_cases hw : m.result = MatchResult.win <;> simp [hw]

/-- The step of the `forEach` for a hero met for the first time. -/
theorem heroStatOf_concat_new (ms : List Match) (m : Match) (h : m.heroId ∉ heroIds ms) :
    heroStatOf (ms ++ [m]) m.heroId =
      (if m.result = MatchResult.win then
        { heroId := m.heroId, heroName := m.heroName, heroImage := m.heroImage,
          games := 1, wins := 1 }
      else
        { heroId := m.heroId, heroName := m.heroName, heroImage := m.heroImage,
          games := 1, wins := 0 }) := by
  have hf : (ms ++ [m]).find? (fun x => decide (x.heroId = m.heroId)) = some m := by
    rw [List.find?_append, find_hero_of_not_mem ms m.heroId h]
    simp [List.find?_cons]
  unfold heroStatOf
  rw [hf, heroGames_concat, heroWins_concat, heroGames_of_not_mem ms _ h,
    heroWins_of_not_mem ms _ h]
  by_cases hw : m.result = MatchResult.win <;> simp [hw]

/-- The map that the `forEach` of `getMostPlayedHeroes` builds: one entry per distinct
hero, in the order of the first matches, holding the counters of that hero. -/
theorem heroStats_closed (ms : List Match) :
    ms.foldl heroStatsStep [] =
      (firstOccurrences (heroIds ms)).map (fun k => (k, heroStatOf ms k)) := by
  induction ms using List.reverseRecOn with
  | nil => simp [firstOccurrences, heroIds]
  | append_singleton ms m ih =>
    rw [List.foldl_append, List.foldl_cons, List.foldl_nil, ih]
    have hids : heroIds (ms ++ [m]) = heroIds ms ++ [m.heroId] := by simp [heroIds]
    rw [hids, firstOccurrences_concat]
    unfold heroStatsStep
    rw [JsMap.get_keyed]
    by_cases hmem : m.heroId ∈ heroIds ms
    · have hmem2 : m.heroId ∈ firstOccurrences (heroIds ms) :=
        (mem_firstOccurrences _ _).mpr hmem
      simp only [hmem, hmem2, if_true, Option.getD_some]
      rw [JsMap.set_keyed_mem _ _ _ _ hmem2 (nodup_firstOccurrences _)]
      apply List.map_congr_left
      intro k _
      by_cases hk : k = m.heroId
      · subst hk
        rw [heroStatOf_concat_old ms m hmem]
        by_cases hw : m.result = MatchResult.win <;> simp [hw]
      · have hk2 : m.heroId ≠ k := fun h => hk h.symm
        rw [heroStatOf_concat_other ms m k hk2]
        simp [hk]
    · have hmem2 : m.heroId ∉ firstOccurrences (heroIds ms) :=
        fun h => hmem ((mem_firstOccurrences _ _).mp h)
      simp only [hmem, hmem2, if_false, Option.getD_none]
      rw [JsMap.set_keyed_not_mem _ _ _ _ hmem2, List.map_append, List.map_singleton]
      congr 1
      · apply List.map_congr_left
        intro k hk
        have hk2 : m.heroId ≠ k := fun h => hmem2 (h ▸ hk)
        rw [heroStatOf_concat_other ms m k hk2]
      · rw [heroStatOf_concat_new ms m hmem]

theorem pair_sublist_of_pairwise {α : Type} (R : α → α → Prop) (l : List α) (a b : α)
    (hp : l.Pairwise R) (hasymm : ∀ x y, R x y → ¬ R y x) (ha : a ∈ l) (hb : b ∈ l)
    (hab : R a b) : List.Sublist [a, b] l := by
  induction l with
  | nil => simp at ha
  | cons x t ih =>
    obtain ⟨hx, ht⟩ := List.pairwise_cons.mp hp
    have hne : a ≠ b := fun h => hasymm a b hab (h ▸ hab)
    rcases List.mem_cons.mp ha with rfl | hat
    · rcases List.mem_cons.mp hb with h | hbt
      · exact absurd h.symm hne
      · exact List.Sublist.cons₂ _ (List.singleton_sublist.mpr hbt)
    · rcases List.mem_cons.mp hb with rfl | hbt
      · exact absurd hab (hasymm _ _ (hx a hat))
      · exact List.Sublist.cons _ (ih ht hat hbt)

theorem pair_sublist_take {α : Type} (l : List α) (n : Nat) (a b : α) (hnd : l.Nodup)
    (h : List.Sublist [a, b] l) (hb : b ∈ l.take n) : List.Sublist [a, b] (l.take n) := by
  have hsplit : List.Sublist [a, b] (l.take n ++ l.drop n) := by
    rw [List.take_append_drop]
    exact h
  obtain ⟨s1, s2, hs, h1, h2⟩ := List.sublist_append_iff.mp hsplit
  have hdisj : b ∉ l.drop n := by
    intro hbd
    have hnd2 : (l.take n ++ l.drop n).Nodup := by
      rw [List.take_append_drop]
      exact hnd
    exact (List.nodup_append.mp hnd2).2.2 hb hbd
  have hs2 : s2 = [] := by
    cases s2 with
    | nil => rfl
    | cons y ys =>
      exfalso
      have hlast : b ∈ y :: ys := by
        have hmem : b ∈ s1 ++ (y :: ys) := by
          rw [← hs]
          simp
        rcases List.mem_append.mp hmem with hb1 | hb2
        · -- `b` in `s1` would put an element of `y :: ys` after it in `[a, b]`
          have hlen : (s1 ++ (y :: ys)).length = 2 := by rw [← hs]; rfl
          cases s1 with
          | nil => simp at hb1
          | cons z zs =>
            cases zs with
            | nil =>
              simp only [List.singleton_append] at hs
              have := List.cons.inj hs
              have h3 : [b] = y :: ys := this.2
              rw [← h3]
              simp
            | cons w ws =>
              simp only [List.length_append, List.length_cons] at hlen
              omega
        · exact hb2
      exact hdisj (h2.subset hlast)
  rw [hs2, List.append_nil] at hs
  rw [hs]
  exact h1

theorem heroEntryOf_heroStatOf (ms : List Match) (k : Option Nat) (hk : k ∈ heroIds ms) :
    (heroEntryOf (heroStatOf ms k)).heroId = k ∧
    (heroEntryOf (heroStatOf ms k)).games = heroGames ms k ∧
    (heroEntryOf (heroStatOf ms k)).wins = heroWins ms k ∧
    (heroEntryOf (heroStatOf ms k)).winRate =
      mathRound ((heroWins ms k : ℚ) / (heroGames ms k : ℚ) * 100) := by
  obtain ⟨first, hfirst, hid⟩ := find_hero_of_mem ms k hk
  simp [heroEntryOf, heroStatOf, hfirst, hid]

theorem getMostPlayedHeroes_closed (ms : List Match) (limit : Nat) :
    getMostPlayedHeroes ms limit = Except.ok
      ((jsSort (fun a b => (b.games : ℤ) - (a.games : ℤ)) (heroEntries ms)).take limit) := by
  rw [getMostPlayedHeroes_ok, heroStats_closed]
  simp [JsMap.values, heroEntries, List.map_map, Function.comp_def]

theorem heroEntries_heroIds (ms : List Match) :
    (heroEntries ms).map (fun e => e.heroId) = firstOccurrences (heroIds ms) := by
  unfold heroEntries
  rw [List.map_map]
  conv_rhs => rw [← List.map_id (firstOccurrences (heroIds ms))]
  apply List.map_congr_left
  intro k hk
  exact (heroEntryOf_heroStatOf ms k ((mem_firstOccurrences _ _).mp hk)).1

theorem mem_heroEntries (ms : List Match) (e : HeroEntry) (he : e ∈ heroEntries ms) :
    e.heroId ∈ heroIds ms ∧ e = heroEntryOf (heroStatOf ms e.heroId) := by
  obtain ⟨k, hk, rfl⟩ := List.mem_map.mp he
  have hk2 := (mem_firstOccurrences _ _).mp hk
  have := (heroEntryOf_heroStatOf ms k hk2).1
  rw [this]
  exact ⟨hk2, rfl⟩

theorem length_heroEntries_le (ms : List Match) : (heroEntries ms).length ≤ ms.length := by
  have h1 : (heroEntries ms).length = (firstOccurrences (heroIds ms)).length := by
    simp [heroEntries]
  have h2 : (firstOccurrences (heroIds ms)).length ≤ (heroIds ms).length := by
    unfold firstOccurrences
    rw [List.length_reverse]
    have := (List.dedup_sublist (heroIds ms).reverse).length_le
    simpa using this
  have h3 : (heroIds ms).length = ms.length := by simp [heroIds]
  omega

theorem sorted_by_games (l : List HeroEntry) :
    (jsSort (fun a b => (b.games : ℤ) - (a.games : ℤ)) l).Pairwise
      (fun a b => b.games ≤ a.games) := by
  haveI : IsTotal HeroEntry (fun a b => (b.games : ℤ) - (a.games : ℤ) ≤ 0) :=
    ⟨fun a b => by omega⟩
  haveI : IsTrans HeroEntry (fun a b => (b.games : ℤ) - (a.games : ℤ) ≤ 0) :=
    ⟨fun a b c h1 h2 => by omega⟩
  have h := List.sorted_insertionSort (fun a b : HeroEntry => (b.games : ℤ) - (a.games : ℤ) ≤ 0) l
  unfold jsSort
  refine List.Pairwise.imp ?_ h
  intro a b hab
  omega

/-- C12: `getMostPlayedHeroes(ms, n)` returns the first `n` entries of the full list
`full` (the result for a limit that cuts nothing), so at most `n` entries; `full` has
exactly one entry per distinct hero id of `ms`; every entry has `games` = the number of
matches of its hero (at least 1), `wins` = the number of those won and
`winRate = Math.round(wins / games * 100)`; `full` is in non-increasing order of games,
so every kept entry has at least as many games as every dropped one; and of two entries
with equal games the one whose hero occurs first in `ms` comes first (stable sort). -/
theorem getMostPlayedHeroes_spec (ms : List Match) (n : Nat) :
    ∃ r full,
      getMostPlayedHeroes ms n = Except.ok r ∧
      getMostPlayedHeroes ms ms.length = Except.ok full ∧
      r = full.take n ∧ r.length ≤ n ∧
      (full.map (fun e => e.heroId)).Nodup ∧
      (∀ k, k ∈ full.map (fun e => e.heroId) ↔ k ∈ heroIds ms) ∧
      (∀ e ∈ full, 0 < e.games ∧ e.games = heroGames ms e.heroId ∧
        e.wins = heroWins ms e.heroId ∧
        e.winRate = mathRound ((e.wins : ℚ) / (e.games : ℚ) * 100)) ∧
      full.Pairwise (fun a b => b.games ≤ a.games) ∧
      (∀ a ∈ r, ∀ b ∈ full.drop n, b.games ≤ a.games) ∧
      (∀ a ∈ full, ∀ b ∈ full, a.games = b.games →
        firstIndex (heroIds ms) a.heroId < firstIndex (heroIds ms) b.heroId →
          List.Sublist [a, b] full) ∧
      (∀ a ∈ r, ∀ b ∈ r, a.games = b.games →
        firstIndex (heroIds ms) a.heroId < firstIndex (heroIds ms) b.heroId →
          List.Sublist [a, b] r) := by
  have hperm : List.Perm (jsSort (fun a b => (b.games : ℤ) - (a.games : ℤ)) (heroEntries ms))
      (heroEntries ms) := List.perm_insertionSort _ _
  have hfull : (jsSort (fun a b => (b.games : ℤ) - (a.games : ℤ)) (heroEntries ms)).take
      ms.length = jsSort (fun a b => (b.games : ℤ) - (a.games : ℤ)) (heroEntries ms) := by
    apply List.take_of_length_le
    rw [hperm.length_eq]
    exact length_heroEntries_le ms
  have hmem : ∀ e, e ∈ jsSort (fun a b => (b.games : ℤ) - (a.games : ℤ)) (heroEntries ms) ↔
      e ∈ heroEntries ms := fun e => hperm.mem_iff
  have hids : List.Perm
      ((jsSort (fun a b => (b.games : ℤ) - (a.games : ℤ)) (heroEntries ms)).map
        (fun e => e.heroId)) (firstOccurrences (heroIds ms)) := by
    rw [← heroEntries_heroIds]
    exact hperm.map _
  have hnodup : ((jsSort (fun a b => (b.games : ℤ) - (a.games : ℤ)) (heroEntries ms)).map
      (fun e => e.heroId)).Nodup := hids.nodup_iff.mpr (nodup_firstOccurrences _)
  have hsorted := sorted_by_games (heroEntries ms)
  have hstable : ∀ a ∈ jsSort (fun a b => (b.games : ℤ) - (a.games : ℤ)) (heroEntries ms),
      ∀ b ∈ jsSort (fun a b => (b.games : ℤ) - (a.games : ℤ)) (heroEntries ms),
      a.games = b.games →
      firstIndex (heroIds ms) a.heroId < firstIndex (heroIds ms) b.heroId →
      List.Sublist [a, b]
        (jsSort (fun a b => (b.games : ℤ) - (a.games : ℤ)) (heroEntries ms)) := by
    intro a ha b hb hg hidx
    obtain ⟨hka, hea⟩ := mem_heroEntries ms a ((hmem a).mp ha)
    obtain ⟨hkb, heb⟩ := mem_heroEntries ms b ((hmem b).mp hb)
    have hkeys : List.Sublist [a.heroId, b.heroId] (firstOccurrences (heroIds ms)) :=
      pair_sublist_of_pairwise _ _ _ _ (pairwise_firstOccurrences (heroIds ms))
        (fun x y hxy => by omega) ((mem_firstOccurrences _ _).mpr hka)
        ((mem_firstOccurrences _ _).mpr hkb) hidx
    have hentries : List.Sublist [a, b] (heroEntries ms) := by
      have := hkeys.map (fun k => heroEntryOf (heroStatOf ms k))
      simp only [List.map_cons, List.map_nil] at this
      rw [← hea, ← heb] at this
      exact this
    unfold jsSort
    exact List.pair_sublist_insertionSort (by simp only; omega) hentries
  refine ⟨_, _, getMostPlayedHeroes_closed ms n, getMostPlayedHeroes_closed ms ms.length, ?_, ?_,
    ?_, ?_, ?_, ?_, ?_, ?_, ?_⟩
  · rw [hfull]
  · rw [List.length_take]
    exact Nat.min_le_left _ _
  · rw [hfull]
    exact hnodup
  · intro k
    rw [hfull, hids.mem_iff, mem_firstOccurrences]
  · intro e he
    rw [hfull] at he
    obtain ⟨hk, hee⟩ := mem_heroEntries ms e ((hmem e).mp he)
    obtain ⟨_, h2, h3, h4⟩ := heroEntryOf_heroStatOf ms e.heroId hk
    rw [← hee] at h2 h3 h4
    refine ⟨?_, h2, h3, ?_⟩
    · rw [h2]
      exact heroGames_pos_of_mem ms _ hk
    · rw [h4, h2, h3]
  · rw [hfull]
    exact hsorted
  · intro a ha b hb
    rw [hfull] at hb
    have hsplit := hsorted
    rw [← List.take_append_drop n
      (jsSort (fun a b => (b.games : ℤ) - (a.games : ℤ)) (heroEntries ms))] at hsplit
    exact (List.pairwise_append.mp hsplit).2.2 a ha b hb
  · intro a ha b hb hg hidx
    rw [hfull] at ha hb ⊢
    exact hstable a ha b hb hg hidx
  · intro a ha b hb hg hidx
    have hfa := List.mem_of_mem_take ha
    have hfb := List.mem_of_mem_take hb
    exact pair_sublist_take _ n a b (List.Nodup.of_map _ hnodup)
      (hstable a hfa b hfb hg hidx) hb

/-! ## Properties: the best role -/

theorem laneGames_cons (m : Match) (rest : List Match) (lane : Nat) :
    laneGames (m :: rest) lane = (if m.lane = some lane then 1 else 0) + laneGames rest lane := by
  unfold laneGames
  by_cases h : m.lane = some lane <;> simp [List.filter_cons, h] <;> omega

theorem laneWins_cons (m : Match) (rest : List Match) (lane : Nat) :
    laneWins (m :: rest) lane =
      (if m.lane = some lane ∧ m.result = MatchResult.win then 1 else 0) +
        laneWins rest lane := by
  unfold laneWins
  by_cases h : m.lane = some lane <;> by_cases hw : m.result = MatchResult.win <;>
    simp [List.filter_cons, h, hw] <;> omega

theorem laneWins_le_laneGames (ms : List Match) (lane : Nat) :
    laneWins ms lane ≤ laneGames ms lane := by
  induction ms with
  | nil => simp [laneWins, laneGames]
  | cons m rest ih =>
    rw [laneGames_cons, laneWins_cons]
    by_cases h : m.lane = some lane <;> by_cases hw : m.result = MatchResult.win <;>
      simp [h, hw] <;> omega

/-- One step of the `forEach` of `getBestRole` on lanes whose codes are not 0. -/
theorem lanesStep_eq (lanes : List (Nat × LaneStat)) (m : Match)
    (h0 : ∀ p ∈ lanes, p.1 ≠ 0) : lanesStep lanes m = lanes.map (laneStatOf [m]) := by
  have hsame : ∀ p ∈ lanes, m.lane ≠ some p.1 → laneStatOf [m] p = p := by
    intro p _ hne
    simp [laneStatOf, laneGames, laneWins, List.filter_cons, hne]
  unfold lanesStep
  cases hl : m.lane with
  | none =>
    simp only
    conv_lhs => rw [← List.map_id lanes]
    apply List.map_congr_left
    intro p hp
    exact (hsame p hp (by simp [hl])).symm
  | some lane =>
    simp only
    split
    · apply List.map_congr_left
      intro p hp
      by_cases hpl : p.1 = lane
      · subst hpl
        by_cases hw : m.result = MatchResult.win <;>
          simp [laneStatOf, laneGames, laneWins, List.filter_cons, hl, hw]
      · have hne : m.lane ≠ some p.1 := by
          rw [hl]
          intro h
          exact hpl (Option.some.inj h).symm
        rw [hsame p hp hne]
        simp [hpl]
    · next hcond =>
      conv_lhs => rw [← List.map_id lanes]
      apply List.map_congr_left
      intro p hp
      have hne : m.lane ≠ some p.1 := by
        rw [hl]
        intro h
        have hpl : p.1 = lane := (Option.some.inj h).symm
        apply hcond
        refine ⟨?_, ?_⟩
        · rw [← hpl]
          exact h0 p hp
        · simp only [List.any_eq_true, decide_eq_true_eq]
          exact ⟨p, hp, hpl⟩
      exact (hsame p hp hne).symm

theorem laneStatOf_cons (m : Match) (rest : List Match) (p : Nat × LaneStat) :
    laneStatOf rest (laneStatOf [m] p) = laneStatOf (m :: rest) p := by
  simp only [laneStatOf, laneGames_cons m rest, laneWins_cons m rest]
  have hg : laneGames [m] p.1 = if m.lane = some p.1 then 1 else 0 := by
    rw [laneGames_cons]
    simp [laneGames]
  have hw : laneWins [m] p.1 =
      if m.lane = some p.1 ∧ m.result = MatchResult.win then 1 else 0 := by
    rw [laneWins_cons]
    simp [laneWins]
  rw [hg, hw]
  simp only [Prod.mk.injEq, LaneStat.mk.injEq, true_and]
  constructor <;> omega

/-- The lanes after the `forEach` of `getBestRole`. -/
theorem lanes_closed (ms : List Match) (lanes : List (Nat × LaneStat))
    (h0 : ∀ p ∈ lanes, p.1 ≠ 0) : ms.foldl lanesStep lanes = lanes.map (laneStatOf ms) := by
  induction ms generalizing lanes with
  | nil =>
    simp only [List.foldl_nil]
    conv_lhs => rw [← List.map_id lanes]
    apply List.map_congr_left
    intro p _
    simp [laneStatOf, laneGames, laneWins]
  | cons m rest ih =>
    rw [List.foldl_cons, lanesStep_eq lanes m h0]
    have h0' : ∀ p ∈ lanes.map (laneStatOf [m]), p.1 ≠ 0 := by
      intro p hp
      obtain ⟨q, hq, rfl⟩ := List.mem_map.mp hp
      exact h0 q hq
    rw [ih _ h0', List.map_map]
    apply List.map_congr_left
    intro p _
    exact laneStatOf_cons m rest p

/-- `getBestRole` returns the first of the played lanes after sorting, or the sentinel. -/
theorem getBestRole_closed (ms : List Match) :
    getBestRole ms = Except.ok
      ((jsSort roleCompare ((laneEntries ms).filter (fun e => e.games > 0))).head?.getD
        unknownRole) := by
  rw [getBestRole_ok, lanes_closed ms initialLanes (by decide)]
  have h : ((List.map Prod.snd (List.map (laneStatOf ms) initialLanes)).filter
      (fun l => decide (l.games > 0))).map roleEntryOf =
      (laneEntries ms).filter (fun e => decide (e.games > 0)) := by
    have hmap : (List.map Prod.snd (List.map (laneStatOf ms) initialLanes)).map roleEntryOf =
        laneEntries ms := by
      simp [initialLanes, laneStatOf, roleEntryOf, laneEntries, laneEntry]
    have hcomm : ∀ l : List LaneStat,
        (l.filter (fun l => decide (l.games > 0))).map roleEntryOf =
          (l.map roleEntryOf).filter (fun e => decide (e.games > 0)) := by
      intro l
      induction l with
      | nil => rfl
      | cons x xs ih =>
        by_cases hx : x.games > 0
        · have hx2 : (roleEntryOf x).games > 0 := hx
          simp only [List.map_cons, List.filter_cons, hx, hx2, decide_True, if_true, ih]
        · have hx2 : ¬ (roleEntryOf x).games > 0 := hx
          simp [List.filter_cons, hx, hx2, ih]
    rw [← hmap, hcomm]
  rw [h]
  rfl

theorem roleCompare_le_iff (a b : RoleEntry) :
    roleCompare a b ≤ 0 ↔
      (3 ≤ a.games ∧ b.games < 3) ∨ ((3 ≤ a.games ↔ 3 ≤ b.games) ∧ b.winRate ≤ a.winRate) := by
  unfold roleCompare
  split_ifs with h1 h2
  · constructor
    · intro _
      exact Or.inl ⟨h1.2, h1.1⟩
    · intro _
      omega
  · constructor
    · intro h
      omega
    · intro h
      rcases h with h | h
      · omega
      · exfalso
        have := h.1
        omega
  · constructor
    · intro h
      right
      constructor
      · constructor <;> intro h3 <;> by_contra hc <;> simp only [not_le] at hc
        · exact h1 ⟨hc, h3⟩
        · exact h2 ⟨hc, h3⟩
      · omega
    · intro h
      rcases h with h | h
      · exact absurd ⟨h.2, h.1⟩ h1
      · omega

theorem laneGames_eq_zero_iff (ms : List Match) (lane : Nat) :
    laneGames ms lane = 0 ↔ ∀ m ∈ ms, m.lane ≠ some lane := by
  unfold laneGames
  rw [List.length_eq_zero, List.filter_eq_nil_iff]
  simp

/-- The head of the sorted list of played lanes compares before every played lane. -/
theorem jsSort_roleCompare_head (l : List RoleEntry) (r : RoleEntry)
    (h : (jsSort roleCompare l).head? = some r) :
    r ∈ l ∧ ∀ e ∈ l, roleCompare r e ≤ 0 := by
  haveI : IsTotal RoleEntry (fun a b => roleCompare a b ≤ 0) :=
    ⟨fun a b => by
      rw [roleCompare_le_iff, roleCompare_le_iff]
      by_cases ha : 3 ≤ a.games <;> by_cases hb : 3 ≤ b.games <;>
        rcases le_total a.winRate b.winRate with hw | hw <;> simp [ha, hb, hw] <;> omega⟩
  haveI : IsTrans RoleEntry (fun a b => roleCompare a b ≤ 0) :=
    ⟨fun a b c h1 h2 => by
      rw [roleCompare_le_iff] at h1 h2 ⊢
      by_cases ha : 3 ≤ a.games <;> by_cases hb : 3 ≤ b.games <;>
        by_cases hc : 3 ≤ c.games <;> simp [ha, hb, hc] at h1 h2 ⊢ <;> omega⟩
  have hsorted := List.sorted_insertionSort (fun a b : RoleEntry => roleCompare a b ≤ 0) l
  have hperm : List.Perm (jsSort roleCompare l) l := List.perm_insertionSort _ _
  unfold jsSort at h hperm
  cases hs : List.insertionSort (fun a b : RoleEntry => roleCompare a b ≤ 0) l with
  | nil => rw [hs] at h; simp at h
  | cons x xs =>
    rw [hs] at h hsorted hperm
    simp only [List.head?_cons, Option.some.injEq] at h
    subst h
    refine ⟨hperm.mem_iff.mp (List.mem_cons_self _ _), ?_⟩
    intro e he
    rcases List.mem_cons.mp (hperm.mem_iff.mpr he) with heq | hmem
    · subst heq
      rw [roleCompare_le_iff]
      right
      exact ⟨Iff.rfl, le_refl _⟩
    · exact List.rel_of_sorted_cons hsorted e hmem

theorem jsSort_eq_nil_iff {α : Type} (cmp : α → α → ℤ) (l : List α) :
    jsSort cmp l = [] ↔ l = [] := by
  have hperm : List.Perm (jsSort cmp l) l := List.perm_insertionSort _ _
  constructor
  · intro h
    rw [h] at hperm
    exact hperm.symm.eq_nil
  · intro h
    subst h
    rfl

/-- The games, wins and rounded win rates of the lanes of the sample. -/
theorem laneEntries_roleSample :
    laneEntries roleSample =
      [{ name := "Safe Lane", games := 2, wins := some 2, winRate := 100 },
       { name := "Mid Lane", games := 3, wins := some 2, winRate := 67 },
       { name := "Off Lane", games := 0, wins := some 0, winRate := 0 },
       { name := "Jungle", games := 0, wins := some 0, winRate := 0 }] := by
  have g1 : laneGames roleSample 1 = 2 := by decide
  have g2 : laneGames roleSample 2 = 3 := by decide
  have g3 : laneGames roleSample 3 = 0 := by decide
  have g4 : laneGames roleSample 4 = 0 := by decide
  have w1 : laneWins roleSample 1 = 2 := by decide
  have w2 : laneWins roleSample 2 = 2 := by decide
  have w3 : laneWins roleSample 3 = 0 := by decide
  have w4 : laneWins roleSample 4 = 0 := by decide
  simp only [laneEntries, laneEntry, g1, g2, g3, g4, w1, w2, w3, w4]
  norm_num [mathRound]

/-- C13 (counterexample): in the sample the mid lane has 3 games and 2 wins, and the
win rate that `getBestRole` computes for it is `Math.round(2 / 3 * 100)` = 67, not 66;
the function returns that lane with `winRate` 67. -/
theorem getBestRole_three_games_two_wins :
    laneGames roleSample 2 = 3 ∧ laneWins roleSample 2 = 2 ∧
      (laneEntry roleSample 2 "Mid Lane").winRate = 67 ∧
      (laneEntry roleSample 2 "Mid Lane").winRate ≠ 66 ∧
      getBestRole roleSample =
        Except.ok { name := "Mid Lane", games := 3, wins := some 2, winRate := 67 } := by
  have g2 : laneGames roleSample 2 = 3 := by decide
  have w2 : laneWins roleSample 2 = 2 := by decide
  have hrate : (laneEntry roleSample 2 "Mid Lane").winRate = 67 := by
    simp only [laneEntry, g2, w2]
    norm_num [mathRound]
  refine ⟨g2, w2, hrate, ?_, ?_⟩
  · rw [hrate]
    decide
  · rw [getBestRole_closed, laneEntries_roleSample]
    rfl

/-- C13 (amended): `getBestRole(ms)` returns the sentinel
`{name: "Unknown", winRate: 0, games: 0}` if no match has a lane code in 1..4; otherwise
it returns a lane `r` with `games > 0` such that (i) if any lane has at least 3 games
then `r` has at least 3 games, and (ii) the rounded win rate of `r` is at least that of
every played lane in the same sample-size class as `r`. A lane with fewer than 3 games
sorts after a lane with at least 3 games whatever the win rates: in the sample the safe
lane with 2 games at 100% ranks below the mid lane with 3 games at 2 wins, whose rounded
win rate is 67%. -/
theorem getBestRole_spec (ms : List Match) :
    ∃ r, getBestRole ms = Except.ok r ∧
      ((∀ m ∈ ms, m.lane ≠ some 1 ∧ m.lane ≠ some 2 ∧ m.lane ≠ some 3 ∧ m.lane ≠ some 4) →
        r = unknownRole) ∧
      ((∃ m ∈ ms, m.lane = some 1 ∨ m.lane = some 2 ∨ m.lane = some 3 ∨ m.lane = some 4) →
        r ∈ laneEntries ms ∧ 0 < r.games ∧
        ((∃ e ∈ laneEntries ms, 3 ≤ e.games) → 3 ≤ r.games) ∧
        (∀ e ∈ laneEntries ms, 0 < e.games → (3 ≤ e.games ↔ 3 ≤ r.games) →
          e.winRate ≤ r.winRate)) ∧
      (∀ a b : RoleEntry, a.games < 3 → 3 ≤ b.games →
        roleCompare b a = -1 ∧ roleCompare a b = 1) ∧
      laneEntries roleSample =
        [{ name := "Safe Lane", games := 2, wins := some 2, winRate := 100 },
         { name := "Mid Lane", games := 3, wins := some 2, winRate := 67 },
         { name := "Off Lane", games := 0, wins := some 0, winRate := 0 },
         { name := "Jungle", games := 0, wins := some 0, winRate := 0 }] ∧
      jsSort roleCompare ((laneEntries roleSample).filter (fun e => e.games > 0)) =
        [{ name := "Mid Lane", games := 3, wins := some 2, winRate := 67 },
         { name := "Safe Lane", games := 2, wins := some 2, winRate := 100 }] := by
  refine ⟨_, getBestRole_closed ms, ?_, ?_, ?_, laneEntries_roleSample, ?_⟩
  · intro hnone
    have hz : ∀ i, i = 1 ∨ i = 2 ∨ i = 3 ∨ i = 4 → laneGames ms i = 0 := by
      intro i hi
      rw [laneGames_eq_zero_iff]
      intro m hm
      obtain ⟨h1, h2, h3, h4⟩ := hnone m hm
      rcases hi with rfl | rfl | rfl | rfl <;> assumption
    have hnil : (laneEntries ms).filter (fun e => decide (e.games > 0)) = [] := by
      simp [laneEntries, laneEntry, List.filter_cons, hz]
    rw [hnil]
    rfl
  · rintro ⟨m, hm, hlane⟩
    have hne : (laneEntries ms).filter (fun e => decide (e.games > 0)) ≠ [] := by
      have hpos : ∃ i, (i = 1 ∨ i = 2 ∨ i = 3 ∨ i = 4) ∧ 0 < laneGames ms i := by
        rcases hlane with h | h | h | h
        · exact ⟨1, by simp, Nat.pos_of_ne_zero
            (fun hz => (laneGames_eq_zero_iff ms 1).mp hz m hm h)⟩
        · exact ⟨2, by simp, Nat.pos_of_ne_zero
            (fun hz => (laneGames_eq_zero_iff ms 2).mp hz m hm h)⟩
        · exact ⟨3, by simp, Nat.pos_of_ne_zero
            (fun hz => (laneGames_eq_zero_iff ms 3).mp hz m hm h)⟩
        · exact ⟨4, by simp, Nat.pos_of_ne_zero
            (fun hz => (laneGames_eq_zero_iff ms 4).mp hz m hm h)⟩
      obtain ⟨i, hi, hpos⟩ := hpos
      intro hnil
      rw [List.filter_eq_nil_iff] at hnil
      rcases hi with rfl | rfl | rfl | rfl
      · exact hnil (laneEntry ms 1 "Safe Lane") (by simp [laneEntries]) (by simpa [laneEntry])
      · exact hnil (laneEntry ms 2 "Mid Lane") (by simp [laneEntries]) (by simpa [laneEntry])
      · exact hnil (laneEntry ms 3 "Off Lane") (by simp [laneEntries]) (by simpa [laneEntry])
      · exact hnil (laneEntry ms 4 "Jungle") (by simp [laneEntries]) (by simpa [laneEntry])
    cases hs : jsSort roleCompare ((laneEntries ms).filter (fun e => decide (e.games > 0))) with
    | nil => exact absurd ((jsSort_eq_nil_iff _ _).mp hs) hne
    | cons x xs =>
      simp only [List.head?_cons, Option.getD_some]
      obtain ⟨hx, hle⟩ := jsSort_roleCompare_head _ x (by rw [hs]; rfl)
      have hxmem := List.mem_filter.mp hx
      have hxpos : 0 < x.games := by simpa using hxmem.2
      refine ⟨hxmem.1, hxpos, ?_, ?_⟩
      · rintro ⟨e, he, he3⟩
        have hef : e ∈ (laneEntries ms).filter (fun e => decide (e.games > 0)) :=
          List.mem_filter.mpr ⟨he, by simp; omega⟩
        have := (roleCompare_le_iff x e).mp (hle e hef)
        rcases this with h | h
        · exact h.1
        · exact h.1.mpr he3
      · intro e he hepos hclass
        have hef : e ∈ (laneEntries ms).filter (fun e => decide (e.games > 0)) :=
          List.mem_filter.mpr ⟨he, by simpa using hepos⟩
        have := (roleCompare_le_iff x e).mp (hle e hef)
        rcases this with h | h
        · exfalso
          have := hclass.mpr h.1
          omega
        · exact h.2
  · intro a b ha hb
    unfold roleCompare
    constructor
    · rw [if_pos ⟨ha, hb⟩]
    · rw [if_neg (by omega), if_pos ⟨ha, hb⟩]
  · rw [laneEntries_roleSample]
    decide

/-! ## Properties: the death-rate rule -/

/-- The result of `checkFarmingIssues` on a non-empty collection. -/
theorem checkFarmingIssues_closed (ms : List Match) (hne : ms ≠ []) :
    checkFarmingIssues ms = Except.ok
      (if (recentDeaths ms : ℚ) / ((ms.take 5).length : ℚ) > 8 then
        [farmingInsight (ms.take 5).length
          ((recentDeaths ms : ℚ) / ((ms.take 5).length : ℚ))]
      else []) := by
  have hlen : (ms.take 5).length ≠ 0 := by
    cases ms with
    | nil => exact absurd rfl hne
    | cons m rest => simp
  have hq : ((ms.take 5).length : ℚ) ≠ 0 := by exact_mod_cast hlen
  simp only [checkFarmingIssues, jsDiv_ok _ _ hq, bind, Except.bind, pure, Except.pure,
    recentDeaths, farmingInsight]
  split <;> rfl

/-- C24: for a collection of at least five matches, most recent first,
`checkFarmingIssues` returns exactly one warning, "Muitas Mortes Recentes", if the deaths
of the first five matches sum to more than 40, which is to say that their mean exceeds 8,
and returns nothing otherwise; the matches after the fifth do not influence the result. -/
theorem checkFarmingIssues_spec (a b c d e : Match) (rest : List Match) :
    ∃ r, checkFarmingIssues (a :: b :: c :: d :: e :: rest) = Except.ok r ∧
      recentDeaths (a :: b :: c :: d :: e :: rest) =
        a.kda.deaths + b.kda.deaths + c.kda.deaths + d.kda.deaths + e.kda.deaths ∧
      ((recentDeaths (a :: b :: c :: d :: e :: rest) : ℚ) / 5 > 8 ↔
        40 < recentDeaths (a :: b :: c :: d :: e :: rest)) ∧
      (40 < recentDeaths (a :: b :: c :: d :: e :: rest) →
        r = [farmingInsight 5 ((recentDeaths (a :: b :: c :: d :: e :: rest) : ℚ) / 5)]) ∧
      (recentDeaths (a :: b :: c :: d :: e :: rest) ≤ 40 → r = []) ∧
      (farmingInsight 5 ((recentDeaths (a :: b :: c :: d :: e :: rest) : ℚ) / 5)).type =
        InsightType.warning ∧
      checkFarmingIssues (a :: b :: c :: d :: e :: rest) =
        checkFarmingIssues [a, b, c, d, e] := by
  have hiff : (recentDeaths (a :: b :: c :: d :: e :: rest) : ℚ) / 5 > 8 ↔
      40 < recentDeaths (a :: b :: c :: d :: e :: rest) := by
    rw [gt_iff_lt, lt_div_iff₀ (by norm_num : (0 : ℚ) < 5)]
    constructor
    · intro h
      have h2 : ((40 : ℕ) : ℚ) < (recentDeaths (a :: b :: c :: d :: e :: rest) : ℚ) := by
        push_cast
        linarith
      exact_mod_cast h2
    · intro h
      have h2 : ((40 : ℕ) : ℚ) < (recentDeaths (a :: b :: c :: d :: e :: rest) : ℚ) := by
        exact_mod_cast h
      push_cast at h2
      linarith
  have hlen : ((a :: b :: c :: d :: e :: rest).take 5).length = 5 := by simp
  have hclosed := checkFarmingIssues_closed (a :: b :: c :: d :: e :: rest) (by simp)
  rw [hlen] at hclosed
  simp only [Nat.cast_ofNat] at hclosed
  refine ⟨_, hclosed, ?_, hiff, ?_, ?_, rfl, ?_⟩
  · simp [recentDeaths, Nat.add_assoc]
  · intro h
    rw [if_pos (by exact_mod_cast hiff.mpr h)]
  · intro h
    rw [if_neg]
    intro hgt
    have := hiff.mp (by exact_mod_cast hgt)
    omega
  · rw [checkFarmingIssues_closed _ (by simp), checkFarmingIssues_closed [a, b, c, d, e] (by simp)]
    rfl

/-! ## Properties: match types -/

theorem typeCounts_sum (ms : List Match) :
    (countMatchesByType ms).ranked + (countMatchesByType ms).normal +
      (countMatchesByType ms).turbo = ms.length := by
  induction ms with
  | nil => rfl
  | cons m rest ih =>
    simp only [countMatchesByType] at ih ⊢
    cases ht : m.type <;> simp [List.filter_cons, ht] <;> omega

/-- C30: for every list of raw records and every hero directory (and every host and clock
reading), the collection obtained by `normalizeMatch` has as many matches as there are
records, each match has the one type `getMatchType(lobby_type, game_mode)`, which is
ranked, normal or turbo, and the three counts of `countMatchesByType` add up to the
length of the collection. -/
theorem countMatchesByType_partition (host : Host) (now : Int) (rs : List RawMatch)
    (heroMap : HeroMap) :
    (countMatchesByType (rs.map (fun r => normalizeMatch host now r heroMap))).ranked +
      (countMatchesByType (rs.map (fun r => normalizeMatch host now r heroMap))).normal +
      (countMatchesByType (rs.map (fun r => normalizeMatch host now r heroMap))).turbo =
        (rs.map (fun r => normalizeMatch host now r heroMap)).length ∧
    (rs.map (fun r => normalizeMatch host now r heroMap)).length = rs.length ∧
    ∀ m ∈ rs.map (fun r => normalizeMatch host now r heroMap),
      m.type = getMatchType m.raw.lobby_type m.raw.game_mode ∧
      ((m.type = MatchType.ranked ∧ m.type ≠ MatchType.normal ∧ m.type ≠ MatchType.turbo) ∨
       (m.type = MatchType.normal ∧ m.type ≠ MatchType.ranked ∧ m.type ≠ MatchType.turbo) ∨
       (m.type = MatchType.turbo ∧ m.type ≠ MatchType.ranked ∧ m.type ≠ MatchType.normal)) := by
  refine ⟨typeCounts_sum _, List.length_map _ _, ?_⟩
  intro m hm
  obtain ⟨r, _, rfl⟩ := List.mem_map.mp hm
  refine ⟨rfl, ?_⟩
  cases (normalizeMatch host now r heroMap).type <;> simp

/-! ## Properties: duration text -/

theorem isDigit_ne_colon (c : Char) (h : c.isDigit = true) : (c != ':') = true := by
  have : c ≠ ':' := by
    rintro rfl
    exact absurd h (by decide)
  simpa using this

theorem takeWhile_digits_colon (a b : List Char) (h : ∀ c ∈ a, c.isDigit = true) :
    (a ++ ':' :: b).takeWhile (fun c => c != ':') = a ∧
      (a ++ ':' :: b).dropWhile (fun c => c != ':') = ':' :: b := by
  induction a with
  | nil => simp [List.takeWhile, List.dropWhile]
  | cons c cs ih =>
    have hc := isDigit_ne_colon c (h c (by simp))
    have ih2 := ih (fun x hx => h x (by simp [hx]))
    simp [List.takeWhile, List.dropWhile, hc, ih2.1, ih2.2]

/-- The seconds part of a duration text: two digits whose value is the number. -/
theorem padStart_two_digits (k : Nat) (hk : k < 60) :
    (padStart 2 '0' (Nat.repr k)).data =
      (if k < 10 then ['0', Nat.digitChar k] else [Nat.digitChar (k / 10), Nat.digitChar (k % 10)]) ∧
    (padStart 2 '0' (Nat.repr k)).length = 2 ∧
    parseDigits (padStart 2 '0' (Nat.repr k)).data = some k := by
  interval_cases k <;> decide

/-- C26: for every non-negative whole number of seconds `s`, `formatDuration(s)` is the
decimal numeral of `floor(s / 60)`, a colon and `s mod 60` written with exactly two digits,
a leading zero below 10; the seconds part is below 60, and reading the text back as
minutes times 60 plus seconds gives `s`. -/
theorem formatDuration_spec (s : Nat) :
    formatDuration (some s) = Nat.repr (s / 60) ++ ":" ++ zeroPad 2 (s % 60) ∧
    (zeroPad 2 (s % 60)).data =
      (if s % 60 < 10 then ['0', Nat.digitChar (s % 60)]
       else [Nat.digitChar (s % 60 / 10), Nat.digitChar (s % 60 % 10)]) ∧
    (zeroPad 2 (s % 60)).length = 2 ∧
    parseDigits (Nat.repr (s / 60)).data = some (s / 60) ∧
    parseDigits (zeroPad 2 (s % 60)).data = some (s % 60) ∧
    s % 60 < 60 ∧
    parseDuration (formatDuration (some s)) = some s := by
  have hk : s % 60 < 60 := Nat.mod_lt _ (by norm_num)
  obtain ⟨hdata, hlen, hval⟩ := padStart_two_digits (s % 60) hk
  obtain ⟨hdig, hmins⟩ := toDigits_digits (s / 60)
  have hrepr : (Nat.repr (s / 60)).data = Nat.toDigits 10 (s / 60) := rfl
  refine ⟨rfl, hdata, hlen, ?_, hval, hk, ?_⟩
  · rw [hrepr]
    exact hmins
  · have hsplit : (formatDuration (some s)).data =
        Nat.toDigits 10 (s / 60) ++ ':' :: (padStart 2 '0' (Nat.repr (s % 60))).data := by
      simp [formatDuration, String.data_append, hrepr]
    obtain ⟨htake, hdrop⟩ := takeWhile_digits_colon (Nat.toDigits 10 (s / 60))
      (padStart 2 '0' (Nat.repr (s % 60))).data hdig
    simp only [parseDuration, hsplit, htake, hdrop, List.tail_cons, hmins, hval]
    congr 1
    have := Nat.div_add_mod s 60
    omega

/-! ## Properties: the play-pattern rule -/

/-- The late-game part of `checkPlayPatterns` on a non-empty collection with durations. -/
theorem checkLateGame_closed (ms : List Match) (hne : ms ≠ [])
    (h : ∀ m ∈ ms, m.duration.seconds ≠ none) :
    checkLateGame ms = Except.ok
      (if (totalDuration ms : ℚ) / (ms.length : ℚ) > 45 * 60 ∧ 5 ≤ lateGameTotal ms then
        [lateGameInsight
          (mathRound ((lateGameWins ms : ℚ) / (lateGameTotal ms : ℚ) * 100))]
      else []) := by
  have hlen : ms.length ≠ 0 := fun h0 => hne (List.length_eq_zero.mp h0)
  have hq : (ms.length : ℚ) ≠ 0 := by exact_mod_cast hlen
  simp only [checkLateGame, sumDurations_ok ms h, jsDiv_ok _ _ hq, bind, Except.bind, pure,
    Except.pure]
  by_cases h1 : (totalDuration ms : ℚ) / (ms.length : ℚ) > 45 * 60
  · by_cases h2 : 5 ≤ lateGameTotal ms
    · have h2' : (ms.filter isLateGame).length ≥ 5 := h2
      have hq5 : (((ms.filter isLateGame).length : ℕ) : ℚ) ≠ 0 := by
        have : (ms.filter isLateGame).length ≠ 0 := by omega
        exact_mod_cast this
      simp only [if_pos h1, if_pos h2', jsDiv_ok _ _ hq5, if_pos (And.intro h1 h2)]
      rfl
    · have h2' : ¬ (ms.filter isLateGame).length ≥ 5 := h2
      simp only [if_pos h1, if_neg h2', if_neg (fun hc : _ ∧ _ => h2 hc.2)]
  · simp only [if_neg h1, if_neg (fun hc : _ ∧ _ => h1 hc.1)]

/-- The match-type part of `checkPlayPatterns` on a non-empty collection. -/
theorem checkRankedShare_closed (ms : List Match) (hne : ms ≠ []) :
    checkRankedShare ms = Except.ok
      (if ((countMatchesByType ms).ranked : ℚ) / (ms.length : ℚ) < 3 / 10 ∧ 10 < ms.length then
        [rankedShareInsight
          (mathRound (((countMatchesByType ms).ranked : ℚ) / (ms.length : ℚ) * 100))]
      else []) := by
  have hlen : ms.length ≠ 0 := fun h0 => hne (List.length_eq_zero.mp h0)
  have hq : (ms.length : ℚ) ≠ 0 := by exact_mod_cast hlen
  simp only [checkRankedShare, jsDiv_ok _ _ hq, bind, Except.bind, pure, Except.pure,
    countMatchesByType, rankedShareInsight]
  split <;> rfl

theorem checkPlayPatterns_closed (ms : List Match) (hne : ms ≠ [])
    (h : ∀ m ∈ ms, m.duration.seconds ≠ none) :
    checkPlayPatterns ms = Except.ok
      ((if (totalDuration ms : ℚ) / (ms.length : ℚ) > 45 * 60 ∧ 5 ≤ lateGameTotal ms then
        [lateGameInsight
          (mathRound ((lateGameWins ms : ℚ) / (lateGameTotal ms : ℚ) * 100))]
       else []) ++
       (if ((countMatchesByType ms).ranked : ℚ) / (ms.length : ℚ) < 3 / 10 ∧
          10 < ms.length then
        [rankedShareInsight
          (mathRound (((countMatchesByType ms).ranked : ℚ) / (ms.length : ℚ) * 100))]
       else [])) := by
  simp only [checkPlayPatterns, checkLateGame_closed ms hne h, checkRankedShare_closed ms hne,
    bind, Except.bind, pure, Except.pure]

/-- C23: for a non-empty collection whose durations are present, `checkPlayPatterns`
returns the late-game info insight exactly when the mean duration exceeds 2700 seconds and
at least 5 matches last more than 2400 seconds, with the percentage
`Math.round(wins / total * 100)` counted among exactly the matches longer than 2400
seconds; independently, and after it, the ranked-play info insight exactly when fewer than
30% of the matches are ranked and there are more than 10 matches. -/
theorem checkPlayPatterns_spec (m : Match) (rest : List Match)
    (hdur : ∀ x ∈ m :: rest, x.duration.seconds ≠ none) :
    checkPlayPatterns (m :: rest) = Except.ok
      ((if (totalDuration (m :: rest) : ℚ) / ((m :: rest).length : ℚ) > 2700 ∧
          5 ≤ lateGameTotal (m :: rest) then
        [lateGameInsight (mathRound
          ((lateGameWins (m :: rest) : ℚ) / (lateGameTotal (m :: rest) : ℚ) * 100))]
       else []) ++
       (if ((countMatchesByType (m :: rest)).ranked : ℚ) / ((m :: rest).length : ℚ) < 3 / 10 ∧
          10 < (m :: rest).length then
        [rankedShareInsight (mathRound
          (((countMatchesByType (m :: rest)).ranked : ℚ) / ((m :: rest).length : ℚ) * 100))]
       else [])) ∧
    lateGameTotal (m :: rest) =
      ((m :: rest).filter
        (fun x => decide (∃ s, x.duration.seconds = some s ∧ 2400 < s))).length ∧
    lateGameWins (m :: rest) =
      ((m :: rest).filter
        (fun x => decide (∃ s, x.duration.seconds = some s ∧ 2400 < s) &&
          decide (x.result = MatchResult.win))).length ∧
    (countMatchesByType (m :: rest)).ranked =
      ((m :: rest).filter (fun x => decide (x.type = MatchType.ranked))).length ∧
    (lateGameInsight 0).type = InsightType.info ∧
    (rankedShareInsight 0).type = InsightType.info := by
  have hlate : ∀ x : Match,
      isLateGame x = decide (∃ s, x.duration.seconds = some s ∧ 2400 < s) := by
    intro x
    unfold isLateGame
    cases x.duration.seconds with
    | none => simp
    | some s => simp
  have hclosed := checkPlayPatterns_closed (m :: rest) (by simp) hdur
  have h2700 : (45 : ℚ) * 60 = 2700 := by norm_num
  rw [h2700] at hclosed
  refine ⟨hclosed, ?_, ?_, rfl, rfl, rfl⟩
  · unfold lateGameTotal
    congr 1
    apply List.filter_congr
    intro x _
    exact hlate x
  · unfold lateGameWins
    congr 1
    apply List.filter_congr
    intro x _
    rw [hlate x]

/-- C23 (witness): the statement for the one-match collection `[completeMatch]`. -/
theorem checkPlayPatterns_spec_witness :
    (∀ x ∈ [completeMatch], x.duration.seconds ≠ none) ∧
    checkPlayPatterns [completeMatch] = Except.ok [] :=
  ⟨by simp [completeMatch, normalizeMatch, completeRawMatch], by
    have h := (checkPlayPatterns_spec completeMatch []
      (by simp [completeMatch, normalizeMatch, completeRawMatch])).1
    rw [h]
    have h1 : lateGameTotal [completeMatch] = 0 := by decide
    have h2 : ([completeMatch] : List Match).length = 1 := rfl
    simp [h1, h2]⟩

/-! ## Properties: the synergy rule -/

theorem JsMap.get_map_snd {κ α β : Type} [DecidableEq κ] (f : α → β) (m : JsMap κ α) (k : κ) :
    JsMap.get (m.map (fun p => (p.1, f p.2))) k = (JsMap.get m k).map f := by
  induction m with
  | nil => rfl
  | cons p rest ih =>
    obtain ⟨k', v⟩ := p
    simp only [List.map_cons, JsMap.get]
    by_cases h : k' = k
    · simp [h]
    · simp [h, ih]

theorem JsMap.set_map_snd {κ α β : Type} [DecidableEq κ] (f : α → β) (m : JsMap κ α) (k : κ)
    (v : α) :
    JsMap.set (m.map (fun p => (p.1, f p.2))) k (f v) =
      (JsMap.set m k v).map (fun p => (p.1, f p.2)) := by
  induction m with
  | nil => rfl
  | cons p rest ih =>
    obtain ⟨k', v'⟩ := p
    simp only [List.map_cons, JsMap.set]
    by_cases h : k' = k
    · simp [h]
    · simp [h, ih]

/-- One step of `checkSynergies` keeps, of the counters of `getMostPlayedHeroes`, the wins,
the games and the name. -/
theorem synergyStep_heroStatsStep (heroStats : JsMap (Option Nat) HeroStat) (m : Match) :
    synergyStep
        (heroStats.map
          (fun p => (p.1, ({ wins := p.2.wins, games := p.2.games, name := p.2.heroName } :
            SynergyStat)))) m =
      (heroStatsStep heroStats m).map
        (fun p => (p.1, ({ wins := p.2.wins, games := p.2.games, name := p.2.heroName } :
          SynergyStat))) := by
  unfold synergyStep heroStatsStep
  rw [JsMap.get_map_snd
    (fun h : HeroStat => ({ wins := h.wins, games := h.games, name := h.heroName } : SynergyStat))]
  rw [← JsMap.set_map_snd
    (fun h : HeroStat => ({ wins := h.wins, games := h.games, name := h.heroName } : SynergyStat))]
  cases JsMap.get heroStats m.heroId <;>
    by_cases hw : m.result = MatchResult.win <;> simp [hw]

theorem synergy_foldl (ms : List Match) (heroStats : JsMap (Option Nat) HeroStat) :
    ms.foldl synergyStep
        (heroStats.map
          (fun p => (p.1, ({ wins := p.2.wins, games := p.2.games, name := p.2.heroName } :
            SynergyStat)))) =
      (ms.foldl heroStatsStep heroStats).map
        (fun p => (p.1, ({ wins := p.2.wins, games := p.2.games, name := p.2.heroName } :
          SynergyStat))) := by
  induction ms generalizing heroStats with
  | nil => rfl
  | cons m rest ih =>
    rw [List.foldl_cons, List.foldl_cons, synergyStep_heroStatsStep, ih]

theorem heroStatOf_counts (ms : List Match) (k : Option Nat) (hk : k ∈ heroIds ms) :
    (heroStatOf ms k).games = heroGames ms k ∧ (heroStatOf ms k).wins = heroWins ms k := by
  obtain ⟨first, hfirst, _⟩ := find_hero_of_mem ms k hk
  simp [heroStatOf, hfirst]

/-- The map that the `forEach` of `checkSynergies` builds. -/
theorem synergy_closed (ms : List Match) :
    ms.foldl synergyStep [] =
      (firstOccurrences (heroIds ms)).map (fun k => (k, synergyStatOf ms k)) := by
  have h := synergy_foldl ms []
  simp only [List.map_nil] at h
  rw [h, heroStats_closed, List.map_map]
  apply List.map_congr_left
  intro k hk
  obtain ⟨hg, hw⟩ := heroStatOf_counts ms k ((mem_firstOccurrences _ _).mp hk)
  simp [synergyStatOf, hg, hw]

/-- The first element of a list sorted in descending order of a key has the largest key. -/
theorem jsSort_head_max {α : Type} (key : α → ℤ) (l : List α) (r : α)
    (h : (jsSort (fun a b => key b - key a) l).head? = some r) :
    r ∈ l ∧ ∀ e ∈ l, key e ≤ key r := by
  haveI : IsTotal α (fun a b => key b - key a ≤ 0) := ⟨fun a b => by omega⟩
  haveI : IsTrans α (fun a b => key b - key a ≤ 0) := ⟨fun a b c h1 h2 => by omega⟩
  have hsorted := List.sorted_insertionSort (fun a b : α => key b - key a ≤ 0) l
  have hperm : List.Perm (jsSort (fun a b => key b - key a) l) l :=
    List.perm_insertionSort _ _
  unfold jsSort at h hperm
  cases hs : List.insertionSort (fun a b : α => key b - key a ≤ 0) l with
  | nil => rw [hs] at h; simp at h
  | cons x xs =>
    rw [hs] at h hsorted hperm
    simp only [List.head?_cons, Option.some.injEq] at h
    subst h
    refine ⟨hperm.mem_iff.mp (List.mem_cons_self _ _), ?_⟩
    intro e he
    rcases List.mem_cons.mp (hperm.mem_iff.mpr he) with heq | hmem
    · rw [heq]
    · have := List.rel_of_sorted_cons hsorted e hmem
      omega

/-- The result of `checkSynergies`: the insight for the first of the heroes with at least
3 games and a rounded win rate of at least 70, sorted by descending rounded win rate. -/
theorem checkSynergies_closed (ms : List Match) :
    checkSynergies ms = Except.ok
      (match jsSort (fun a b : SynergyEntry => b.winRate - a.winRate)
          (((synergyEntries ms).filter (fun h => decide (h.games ≥ 3))).filter
            (fun h => decide (h.winRate ≥ 70))) with
        | hero :: _ => [synergyInsight hero]
        | [] => []) := by
  have hm := jsMapM_ok synergyWithWinRate synergyEntryOf
    ((JsMap.values (ms.foldl synergyStep [])).filter (fun h => h.games ≥ 3))
    (by
      intro x hx
      have := (List.mem_filter.mp hx).2
      have h3 : 3 ≤ x.games := by simpa using this
      exact synergyWithWinRate_ok _ (by omega))
  have hcomm : ∀ l : List SynergyStat,
      (l.filter (fun h => decide (h.games ≥ 3))).map synergyEntryOf =
        (l.map synergyEntryOf).filter (fun h => decide (h.games ≥ 3)) := by
    intro l
    induction l with
    | nil => rfl
    | cons x xs ih =>
      by_cases hx : x.games ≥ 3
      · have hx2 : (synergyEntryOf x).games ≥ 3 := hx
        simp only [List.map_cons, List.filter_cons, hx, hx2, decide_True, if_true, ih]
      · have hx2 : ¬ (synergyEntryOf x).games ≥ 3 := hx
        simp [List.filter_cons, hx, hx2, ih]
  have hvals : (JsMap.values (ms.foldl synergyStep [])).map synergyEntryOf =
      synergyEntries ms := by
    rw [synergy_closed]
    simp [JsMap.values, synergyEntries, List.map_map, Function.comp_def]
  simp only [checkSynergies, hm, bind, Except.bind, pure, Except.pure, hcomm, hvals]
  cases jsSort (fun a b : SynergyEntry => b.winRate - a.winRate)
      (((synergyEntries ms).filter (fun h => decide (h.games ≥ 3))).filter
        (fun h => decide (h.winRate ≥ 70))) <;> rfl

theorem mem_synergy_candidates (ms : List Match) (e : SynergyEntry) :
    e ∈ ((synergyEntries ms).filter (fun h => decide (h.games ≥ 3))).filter
        (fun h => decide (h.winRate ≥ 70)) ↔
      ∃ k ∈ heroIds ms, e = synergyEntryOf (synergyStatOf ms k) ∧ 3 ≤ heroGames ms k ∧
        70 ≤ heroRate ms k := by
  simp only [List.mem_filter, synergyEntries, List.mem_map, mem_firstOccurrences,
    decide_eq_true_eq]
  constructor
  · rintro ⟨⟨⟨k, hk, rfl⟩, hg⟩, hr⟩
    exact ⟨k, hk, rfl, hg, hr⟩
  · rintro ⟨k, hk, rfl, hg, hr⟩
    exact ⟨⟨⟨k, hk, rfl⟩, hg⟩, hr⟩

/-- A rounded percentage is at least 70 exactly when the exact one is at least 69.5. -/
theorem mathRound_percent_ge_seventy (a b : Nat) (hb : 0 < b) :
    70 ≤ mathRound ((a : ℚ) / (b : ℚ) * 100) ↔ 139 * b ≤ 200 * a := by
  have h := mathRound_natCast_div a b 100
  simp only [Nat.cast_ofNat] at h
  rw [h, if_neg (by omega)]
  have h2b : (0 : ℤ) < ((2 * b : ℕ) : ℤ) := by exact_mod_cast (by omega : 0 < 2 * b)
  rw [Int.le_ediv_iff_mul_le h2b]
  push_cast
  constructor <;> intro hh <;> omega

/-- The hero of the sample: 23 games, 16 wins, rounded win rate 70. -/
theorem synergyEntries_synergySample :
    synergyEntries synergySample =
      [{ wins := 16, games := 23, name := "Unknown", winRate := 70 }] := by
  have hf : firstOccurrences (heroIds synergySample) = [some 14] := by decide
  have hs : synergyStatOf synergySample (some 14) =
      { wins := 16, games := 23, name := "Unknown" } := by decide
  simp only [synergyEntries, hf, List.map_cons, List.map_nil, hs, synergyEntryOf]
  norm_num [mathRound]

/-- C21 (counterexample): the hero of the sample has 23 games and 16 wins, so its win
rate, wins / games as a percentage, is 69.57 and below 70; `checkSynergies` rounds it to
70 before comparing and emits the success insight. -/
theorem checkSynergies_rounds_before_threshold :
    heroGames synergySample (some 14) = 23 ∧ heroWins synergySample (some 14) = 16 ∧
      (heroWins synergySample (some 14) : ℚ) / (heroGames synergySample (some 14) : ℚ) * 100
        < 70 ∧
      (∀ k ∈ heroIds synergySample, k = some 14) ∧
      checkSynergies synergySample = Except.ok
        [synergyInsight { wins := 16, games := 23, name := "Unknown", winRate := 70 }] := by
  have hg : heroGames synergySample (some 14) = 23 := by decide
  have hw : heroWins synergySample (some 14) = 16 := by decide
  refine ⟨hg, hw, ?_, by decide, ?_⟩
  · rw [hg, hw]
    norm_num
  · rw [checkSynergies_closed, synergyEntries_synergySample]
    rfl

/-- C21 (amended): `checkSynergies` returns exactly one success insight if some hero with
at least 3 games has a rounded win rate `Math.round(wins / games * 100)` of at least 70,
which is to say wins / games of at least 69.5%, and returns nothing otherwise; the hero
named has the maximal rounded win rate among all heroes with at least 3 games. -/
theorem checkSynergies_spec (ms : List Match) :
    ∃ r, checkSynergies ms = Except.ok r ∧
      ((∀ k ∈ heroIds ms, 3 ≤ heroGames ms k → heroRate ms k < 70) → r = []) ∧
      ((∃ k ∈ heroIds ms, 3 ≤ heroGames ms k ∧ 70 ≤ heroRate ms k) →
        ∃ k ∈ heroIds ms, 3 ≤ heroGames ms k ∧ 70 ≤ heroRate ms k ∧
          (∀ j ∈ heroIds ms, 3 ≤ heroGames ms j → heroRate ms j ≤ heroRate ms k) ∧
          r = [synergyInsight (synergyEntryOf (synergyStatOf ms k))]) ∧
      (∀ k, 0 < heroGames ms k →
        (70 ≤ heroRate ms k ↔ 139 * heroGames ms k ≤ 200 * heroWins ms k)) ∧
      (∀ e, (synergyInsight e).type = InsightType.success) := by
  refine ⟨_, checkSynergies_closed ms, ?_, ?_, ?_, fun _ => rfl⟩
  · intro hnone
    have hnil : ((synergyEntries ms).filter (fun h => decide (h.games ≥ 3))).filter
        (fun h => decide (h.winRate ≥ 70)) = [] := by
      rw [List.eq_nil_iff_forall_not_mem]
      intro e he
      obtain ⟨k, hk, _, hg, hr⟩ := (mem_synergy_candidates ms e).mp he
      have := hnone k hk hg
      omega
    rw [hnil]
    rfl
  · rintro ⟨k0, hk0, hg0, hr0⟩
    have hmem0 := (mem_synergy_candidates ms _).mpr ⟨k0, hk0, rfl, hg0, hr0⟩
    cases hs : jsSort (fun a b : SynergyEntry => b.winRate - a.winRate)
        (((synergyEntries ms).filter (fun h => decide (h.games ≥ 3))).filter
          (fun h => decide (h.winRate ≥ 70))) with
    | nil =>
      rw [(jsSort_eq_nil_iff _ _).mp hs] at hmem0
      simp at hmem0
    | cons x xs =>
      obtain ⟨hx, hmax⟩ := jsSort_head_max (fun e : SynergyEntry => e.winRate) _ x
        (by rw [hs]; rfl)
      obtain ⟨k, hk, hxk, hg, hr⟩ := (mem_synergy_candidates ms x).mp hx
      refine ⟨k, hk, hg, hr, ?_, ?_⟩
      · intro j hj hgj
        by_cases hrj : 70 ≤ heroRate ms j
        · have := hmax _ ((mem_synergy_candidates ms _).mpr ⟨j, hj, rfl, hgj, hrj⟩)
          rw [hxk] at this
          exact this
        · omega
      · rw [hxk]
  · intro k hk
    exact mathRound_percent_ge_seventy _ _ hk

/-! ## Properties: the hero-performance rule -/

/-- The result of `checkHeroPerformance` in terms of the two searches. -/
theorem checkHeroPerformance_closed (ms : List Match) :
    checkHeroPerformance ms = Except.ok
      ((((jsSort (fun a b => (b.games : ℤ) - (a.games : ℤ)) (heroEntries ms)).take 10).find?
          (fun h => decide (h.games ≥ 5) && decide (h.winRate < 40))).toList.map
            heroWarningInsight ++
       (((jsSort (fun a b => (b.games : ℤ) - (a.games : ℤ)) (heroEntries ms)).take 10).find?
          (fun h => decide (h.games ≥ 3) && decide (h.winRate ≥ 60))).toList.map
            heroStrongInsight) := by
  simp only [checkHeroPerformance, getMostPlayedHeroes_closed, bind, Except.bind, pure,
    Except.pure]
  cases ((jsSort (fun a b => (b.games : ℤ) - (a.games : ℤ)) (heroEntries ms)).take 10).find?
      (fun h => decide (h.games ≥ 5) && decide (h.winRate < 40)) <;>
    cases ((jsSort (fun a b => (b.games : ℤ) - (a.games : ℤ)) (heroEntries ms)).take 10).find?
      (fun h => decide (h.games ≥ 3) && decide (h.winRate ≥ 60)) <;> rfl

/-- What a search with `find` returns, as a list of at most one element. -/
theorem find_toList_cases {α : Type} (p : α → Bool) (l : List α) :
    ((∃ x ∈ l, p x = true) → ∃ x ∈ l, p x = true ∧ (l.find? p).toList = [x]) ∧
    ((∀ x ∈ l, p x = false) → (l.find? p).toList = []) := by
  constructor
  · rintro ⟨x, hx, hpx⟩
    cases hf : l.find? p with
    | none =>
      have := List.find?_eq_none.mp hf x hx
      exact absurd hpx this
    | some y =>
      exact ⟨y, List.mem_of_find?_eq_some hf, List.find?_some hf, rfl⟩
  · intro hall
    have : l.find? p = none := by
      rw [List.find?_eq_none]
      intro x hx
      simp [hall x hx]
    rw [this]
    rfl

/-- C22: with `H = getMostPlayedHeroes(ms, 10)`, the first ten entries of the full list,
`checkHeroPerformance` returns a list `w ++ s`: `w` is one warning, naming an entry of `H`
with at least 5 games and a win rate below 40, if there is such an entry, and is empty
otherwise; `s` is one success insight, naming an entry of `H` with at least 3 games and a
win rate of at least 60, if there is such an entry, and is empty otherwise. The two are
independent, the warning comes first, and only entries of `H` are looked at. -/
theorem checkHeroPerformance_spec (ms : List Match) :
    ∃ H full r, getMostPlayedHeroes ms 10 = Except.ok H ∧
      getMostPlayedHeroes ms ms.length = Except.ok full ∧ H = full.take 10 ∧
      H.length ≤ 10 ∧
      checkHeroPerformance ms = Except.ok r ∧
      ∃ w s, r = w ++ s ∧
        ((∃ h ∈ H, 5 ≤ h.games ∧ h.winRate < 40) →
          ∃ h ∈ H, 5 ≤ h.games ∧ h.winRate < 40 ∧ w = [heroWarningInsight h]) ∧
        ((∀ h ∈ H, 5 ≤ h.games → 40 ≤ h.winRate) → w = []) ∧
        ((∃ h ∈ H, 3 ≤ h.games ∧ 60 ≤ h.winRate) →
          ∃ h ∈ H, 3 ≤ h.games ∧ 60 ≤ h.winRate ∧ s = [heroStrongInsight h]) ∧
        ((∀ h ∈ H, 3 ≤ h.games → h.winRate < 60) → s = []) ∧
        (∀ h, (heroWarningInsight h).type = InsightType.warning ∧
          (heroStrongInsight h).type = InsightType.success) := by
  have hperm : List.Perm (jsSort (fun a b => (b.games : ℤ) - (a.games : ℤ)) (heroEntries ms))
      (heroEntries ms) := List.perm_insertionSort _ _
  have hfull : (jsSort (fun a b => (b.games : ℤ) - (a.games : ℤ)) (heroEntries ms)).take
      ms.length = jsSort (fun a b => (b.games : ℤ) - (a.games : ℤ)) (heroEntries ms) := by
    apply List.take_of_length_le
    rw [hperm.length_eq]
    exact length_heroEntries_le ms
  obtain ⟨hw1, hw2⟩ := find_toList_cases
    (fun h : HeroEntry => decide (h.games ≥ 5) && decide (h.winRate < 40))
    ((jsSort (fun a b => (b.games : ℤ) - (a.games : ℤ)) (heroEntries ms)).take 10)
  obtain ⟨hs1, hs2⟩ := find_toList_cases
    (fun h : HeroEntry => decide (h.games ≥ 3) && decide (h.winRate ≥ 60))
    ((jsSort (fun a b => (b.games : ℤ) - (a.games : ℤ)) (heroEntries ms)).take 10)
  refine ⟨_, _, _, getMostPlayedHeroes_closed ms 10, getMostPlayedHeroes_closed ms ms.length,
    by rw [hfull], ?_, checkHeroPerformance_closed ms, _, _, rfl, ?_, ?_, ?_, ?_,
    fun _ => ⟨rfl, rfl⟩⟩
  · rw [List.length_take]
    exact Nat.min_le_left _ _
  · rintro ⟨h, hh, hg, hr⟩
    obtain ⟨x, hx, hpx, hfx⟩ := hw1 ⟨h, hh, by simp [hg, hr]⟩
    simp only [Bool.and_eq_true, decide_eq_true_eq] at hpx
    exact ⟨x, hx, hpx.1, hpx.2, by rw [hfx]; rfl⟩
  · intro hall
    rw [hw2 (by
      intro x hx
      by_cases hg : 5 ≤ x.games
      · have := hall x hx hg
        simp [hg]
        omega
      · simp [hg])]
    rfl
  · rintro ⟨h, hh, hg, hr⟩
    obtain ⟨x, hx, hpx, hfx⟩ := hs1 ⟨h, hh, by simp [hg, hr]⟩
    simp only [Bool.and_eq_true, decide_eq_true_eq] at hpx
    exact ⟨x, hx, hpx.1, hpx.2, by rw [hfx]; rfl⟩
  · intro hall
    rw [hs2 (by
      intro x hx
      by_cases hg : 3 ≤ x.games
      · have := hall x hx hg
        simp [hg]
        omega
      · simp [hg])]
    rfl

/-- The entries of the sample: Anti-Mage with 5 games and 3 wins, Axe with 3 games and 3
wins. -/
theorem heroEntries_strongHeroSample :
    heroEntries strongHeroSample =
      [{ heroId := some 1, heroName := "Anti-Mage", heroImage := none, games := 5, wins := 3,
         winRate := 60 },
       { heroId := some 2, heroName := "Axe", heroImage := none, games := 3, wins := 3,
         winRate := 100 }] := by
  have hf : firstOccurrences (heroIds strongHeroSample) = [some 1, some 2] := by decide
  have h1 : heroStatOf strongHeroSample (some 1) =
      { heroId := some 1, heroName := "Anti-Mage", heroImage := none, games := 5,
        wins := 3 } := by decide
  have h2 : heroStatOf strongHeroSample (some 2) =
      { heroId := some 2, heroName := "Axe", heroImage := none, games := 3, wins := 3 } := by
    decide
  simp only [heroEntries, hf, List.map_cons, List.map_nil, h1, h2, heroEntryOf]
  norm_num [mathRound]

/-- The insights that `generateInsights` returns for `strongHeroSample`. -/
theorem generateInsights_strongHeroSample :
    generateInsights strongHeroSample = Except.ok
      [synergyInsight { wins := 3, games := 3, name := "Axe", winRate := 100 },
       winStreakInsight 3,
       heroStrongInsight
        { heroId := some 1, heroName := "Anti-Mage", heroImage := none, games := 5, wins := 3,
          winRate := 60 }] := by
  have ha : checkFarmingIssues strongHeroSample = Except.ok [] := by
    have hd : recentDeaths strongHeroSample = 10 := by decide
    have hl : (strongHeroSample.take 5).length = 5 := by decide
    rw [checkFarmingIssues_closed strongHeroSample (by decide), hd, hl]
    norm_num
  have hb : checkSynergies strongHeroSample = Except.ok
      [synergyInsight { wins := 3, games := 3, name := "Axe", winRate := 100 }] := by
    have hf : firstOccurrences (heroIds strongHeroSample) = [some 1, some 2] := by decide
    have h1 : synergyStatOf strongHeroSample (some 1) =
        { wins := 3, games := 5, name := "Anti-Mage" } := by decide
    have h2 : synergyStatOf strongHeroSample (some 2) =
        { wins := 3, games := 3, name := "Axe" } := by decide
    have he : synergyEntries strongHeroSample =
        [{ wins := 3, games := 5, name := "Anti-Mage", winRate := 60 },
         { wins := 3, games := 3, name := "Axe", winRate := 100 }] := by
      simp only [synergyEntries, hf, List.map_cons, List.map_nil, h1, h2, synergyEntryOf]
      norm_num [mathRound]
    rw [checkSynergies_closed, he]
    rfl
  have hc : checkStreaks strongHeroSample = Except.ok [winStreakInsight 3] := rfl
  have hd : checkHeroPerformance strongHeroSample = Except.ok
      [heroStrongInsight
        { heroId := some 1, heroName := "Anti-Mage", heroImage := none, games := 5, wins := 3,
          winRate := 60 }] := by
    rw [checkHeroPerformance_closed, heroEntries_strongHeroSample]
    rfl
  have he : checkPlayPatterns strongHeroSample = Except.ok [] := by
    have hd : totalDuration strongHeroSample = 17000 := by decide
    have hl : strongHeroSample.length = 8 := by decide
    have hr : (countMatchesByType strongHeroSample).ranked = 8 := by decide
    rw [checkPlayPatterns_closed strongHeroSample (by decide) (by decide), hd, hl, hr]
    norm_num
  have hlt : ¬ strongHeroSample.length < 5 := by decide
  simp only [generateInsights, hlt, if_false, ha, hb, hc, hd, he, bind, Except.bind, pure,
    Except.pure]
  rfl

/-- C28 (failing input): for five matches with Anti-Mage, three of them won, and three
matches with Axe, all won, the ten most played heroes are Anti-Mage (5 games, 60%) and Axe
(3 games, 100%), and the "Herói Forte" insight names Anti-Mage, the first entry in order
of games with a win rate of at least 60, although Axe has the higher win rate;
`generateInsights` returns that insight next to the synergy insight for Axe at 100%. -/
theorem checkHeroPerformance_names_first_not_best :
    getMostPlayedHeroes strongHeroSample 10 = Except.ok
      [{ heroId := some 1, heroName := "Anti-Mage", heroImage := none, games := 5, wins := 3,
         winRate := 60 },
       { heroId := some 2, heroName := "Axe", heroImage := none, games := 3, wins := 3,
         winRate := 100 }] ∧
    checkHeroPerformance strongHeroSample = Except.ok
      [heroStrongInsight
        { heroId := some 1, heroName := "Anti-Mage", heroImage := none, games := 5, wins := 3,
          winRate := 60 }] ∧
    (heroStrongInsight
        { heroId := some 1, heroName := "Anti-Mage", heroImage := none, games := 5, wins := 3,
          winRate := 60 }).message =
      "Anti-Mage é seu herói mais eficiente com 60% de vitória em 5 partidas." ∧
    generateInsights strongHeroSample = Except.ok
      [synergyInsight { wins := 3, games := 3, name := "Axe", winRate := 100 },
       winStreakInsight 3,
       heroStrongInsight
        { heroId := some 1, heroName := "Anti-Mage", heroImage := none, games := 5, wins := 3,
          winRate := 60 }] := by
  refine ⟨?_, ?_, by decide, generateInsights_strongHeroSample⟩
  · rw [getMostPlayedHeroes_closed, heroEntries_strongHeroSample]
    rfl
  · rw [checkHeroPerformance_closed, heroEntries_strongHeroSample]
    rfl

/-! ## Properties: totals of the grouping by hero -/

theorem sum_map_ite_of_nodup {α : Type} [DecidableEq α] (keys : List α) (hnd : keys.Nodup)
    (x : α) (hx : x ∈ keys) : (keys.map (fun k => if x = k then 1 else 0)).sum = 1 := by
  induction keys with
  | nil => simp at hx
  | cons k ks ih =>
    obtain ⟨hk, hks⟩ := List.nodup_cons.mp hnd
    rw [List.map_cons, List.sum_cons]
    by_cases h : x = k
    · subst h
      have hzero : (ks.map (fun k => if x = k then 1 else 0)).sum = 0 := by
        apply List.sum_eq_zero
        intro n hn
        obtain ⟨k, hkm, rfl⟩ := List.mem_map.mp hn
        have : x ≠ k := fun hxk => hk (hxk ▸ hkm)
        simp [this]
      simp [hzero]
    · have hx2 : x ∈ ks := by
        rcases List.mem_cons.mp hx with h1 | h1
        · exact absurd h1 h
        · exact h1
      simp [h, ih hks hx2]

/-- Counting a list key by key, over distinct keys that cover it, gives its length. -/
theorem sum_filter_of_nodup {α β : Type} [DecidableEq α] (keys : List α) (hnd : keys.Nodup)
    (key : β → α) (l : List β) (hsub : ∀ x ∈ l, key x ∈ keys) :
    (keys.map (fun k => (l.filter (fun x => decide (key x = k))).length)).sum = l.length := by
  induction l with
  | nil => simp
  | cons x xs ih =>
    have hx : key x ∈ keys := hsub x (by simp)
    have hxs : ∀ y ∈ xs, key y ∈ keys := fun y hy => hsub y (by simp [hy])
    have hstep : ∀ k, ((x :: xs).filter (fun y => decide (key y = k))).length =
        (xs.filter (fun y => decide (key y = k))).length + (if key x = k then 1 else 0) := by
      intro k
      by_cases h : key x = k <;> simp [List.filter_cons, h]
    simp only [hstep]
    rw [List.sum_map_add, ih hxs, sum_map_ite_of_nodup keys hnd (key x) hx, List.length_cons]

theorem sum_heroGames (ms : List Match) :
    ((firstOccurrences (heroIds ms)).map (fun k => heroGames ms k)).sum = ms.length := by
  unfold heroGames
  exact sum_filter_of_nodup _ (nodup_firstOccurrences _) (fun m : Match => m.heroId) ms
    (fun x hx => (mem_firstOccurrences _ _).mpr ((mem_heroIds ms _).mpr ⟨x, hx, rfl⟩))

theorem sum_heroWins (ms : List Match) :
    ((firstOccurrences (heroIds ms)).map (fun k => heroWins ms k)).sum =
      (ms.filter (fun m => decide (m.result = MatchResult.win))).length := by
  have h := sum_filter_of_nodup _ (nodup_firstOccurrences (heroIds ms))
    (fun m : Match => m.heroId) (ms.filter (fun m => decide (m.result = MatchResult.win)))
    (fun x hx => (mem_firstOccurrences _ _).mpr
      ((mem_heroIds ms _).mpr ⟨x, (List.mem_filter.mp hx).1, rfl⟩))
  simp only [List.filter_filter] at h
  exact h

theorem length_firstOccurrences {α : Type} [DecidableEq α] (l : List α) :
    (firstOccurrences l).length = l.dedup.length := by
  unfold firstOccurrences
  rw [List.length_reverse]
  exact ((List.reverse_perm l).dedup).length_eq

/-- C29: for every collection and every limit `n`, `getMostPlayedHeroes` returns a list in
which every entry has `1 <= games`, `wins <= games` and `0 <= winRate <= 100`; when `n` is
at least the number of distinct hero ids, the `games` fields sum to the number of matches
and the `wins` fields sum to the `wins` of `calculateWinRate`. -/
theorem getMostPlayedHeroes_totals (ms : List Match) (n : Nat) :
    ∃ r w, getMostPlayedHeroes ms n = Except.ok r ∧ calculateWinRate ms = Except.ok w ∧
      (uniqueHeroCount ms ≤ n →
        (r.map (fun e => e.games)).sum = ms.length ∧
        (r.map (fun e => e.wins)).sum = w.wins) ∧
      ∀ e ∈ r, 1 ≤ e.games ∧ 0 ≤ e.wins ∧ e.wins ≤ e.games ∧ 0 ≤ e.winRate ∧
        e.winRate ≤ 100 := by
  have hperm : List.Perm (jsSort (fun a b => (b.games : ℤ) - (a.games : ℤ)) (heroEntries ms))
      (heroEntries ms) := List.perm_insertionSort _ _
  have hentry : ∀ e ∈ heroEntries ms, e.games = heroGames ms e.heroId ∧
      e.wins = heroWins ms e.heroId ∧
      e.winRate = mathRound ((heroWins ms e.heroId : ℚ) / (heroGames ms e.heroId : ℚ) * 100) ∧
      e.heroId ∈ heroIds ms := by
    intro e he
    obtain ⟨hk, hee⟩ := mem_heroEntries ms e he
    obtain ⟨_, h2, h3, h4⟩ := heroEntryOf_heroStatOf ms e.heroId hk
    rw [← hee] at h2 h3 h4
    exact ⟨h2, h3, h4, hk⟩
  refine ⟨_, _, getMostPlayedHeroes_closed ms n, calculateWinRate_ok ms, ?_, ?_⟩
  · intro hn
    have hlen : (jsSort (fun a b => (b.games : ℤ) - (a.games : ℤ)) (heroEntries ms)).length
        ≤ n := by
      rw [hperm.length_eq]
      have h1 : (heroEntries ms).length = (firstOccurrences (heroIds ms)).length := by
        simp [heroEntries]
      rw [h1, length_firstOccurrences]
      exact hn
    rw [List.take_of_length_le hlen]
    constructor
    · rw [(hperm.map _).sum_eq, ← sum_heroGames ms]
      unfold heroEntries
      rw [List.map_map]
      congr 1
      apply List.map_congr_left
      intro k hk
      exact (heroEntryOf_heroStatOf ms k ((mem_firstOccurrences _ _).mp hk)).2.1
    · rw [(hperm.map _).sum_eq]
      have := sum_heroWins ms
      simp only [decide_eq_true_eq] at this ⊢
      rw [← this]
      unfold heroEntries
      rw [List.map_map]
      congr 1
      apply List.map_congr_left
      intro k hk
      exact (heroEntryOf_heroStatOf ms k ((mem_firstOccurrences _ _).mp hk)).2.2.1
  · intro e he
    have he2 : e ∈ heroEntries ms := hperm.mem_iff.mp (List.mem_of_mem_take he)
    obtain ⟨hg, hw, hr, hk⟩ := hentry e he2
    have hpos := heroGames_pos_of_mem ms e.heroId hk
    have hle := heroWins_le_heroGames ms e.heroId
    have hb := mathRound_percent_bounds _ _ hle
    rw [← hr] at hb
    exact ⟨by omega, Nat.zero_le _, by omega, hb.1, hb.2⟩

/-! ## Properties: dependence on the clock -/

/-- C25 (failing input): the one-match collection `[completeMatch]` gives different weekly
statistics at the clock readings 1700000000000 and 1700691200000, eight days apart, and a
different performance list at the readings 1700000000000 and 1702678400000, 31 days apart;
the same raw record with the same hero directory, normalized at the readings 1700000000000
and 1700100000000, gives two different matches, "10 horas atrás" and "Ontem". The source
functions take no clock parameter: `calculateWeeklyStats` and `getPerformanceOverTime` read
`Date.now()` and `getRelativeTime` reads `new Date()`, although the header of
`analytics.js` calls its functions pure. -/
theorem results_depend_on_clock_reading :
    normalizeMatch utcHost 1700000000000 completeRawMatch [] ≠
      normalizeMatch utcHost 1700100000000 completeRawMatch [] ∧
    (normalizeMatch utcHost 1700000000000 completeRawMatch []).relativeTime =
      "10 horas atrás" ∧
    (normalizeMatch utcHost 1700100000000 completeRawMatch []).relativeTime = "Ontem" ∧
    calculateWeeklyStats 1700000000000 [completeMatch] = Except.ok
      { thisWeek := { matchCount := 1, winRate := 100 }
        lastWeek := { matchCount := 0, winRate := 0 }
        trend := { matchCount := 1, winRate := 100 } } ∧
    calculateWeeklyStats 1700691200000 [completeMatch] = Except.ok
      { thisWeek := { matchCount := 0, winRate := 0 }
        lastWeek := { matchCount := 1, winRate := 100 }
        trend := { matchCount := -1, winRate := -100 } } ∧
    getPerformanceOverTime 1700000000000 [completeMatch] 30 = Except.ok
      [{ date := "2023-11-14", wins := 1, losses := 0, games := 1, winRate := 100 }] ∧
    getPerformanceOverTime 1702678400000 [completeMatch] 30 = Except.ok [] := by
  have h1 : (normalizeMatch utcHost 1700000000000 completeRawMatch []).relativeTime =
      "10 horas atrás" := by decide
  have h2 : (normalizeMatch utcHost 1700100000000 completeRawMatch []).relativeTime =
      "Ontem" := by decide
  have hw1 : thisWeekMatches 1700000000000 [completeMatch] = [completeMatch] := rfl
  have hw2 : lastWeekMatches 1700000000000 [completeMatch] = [] := rfl
  have hw3 : thisWeekMatches 1700691200000 [completeMatch] = [] := rfl
  have hw4 : lastWeekMatches 1700691200000 [completeMatch] = [completeMatch] := rfl
  have hwin : ([completeMatch].filter (fun m => m.result = MatchResult.win)).length = 1 := by
    decide
  have hrate : calculateWinRate [completeMatch] = Except.ok
      { rate := 100, wins := 1, losses := 0, total := 1 } := by
    rw [calculateWinRate_ok]
    have hloss : ([completeMatch].filter (fun m => m.result = MatchResult.loss)).length = 0 := by
      decide
    simp only [hwin, hloss, List.length_singleton]
    norm_num [mathRound]
  have hrate0 : calculateWinRate [] = Except.ok
      { rate := 0, wins := 0, losses := 0, total := 0 } := rfl
  refine ⟨?_, h1, h2, ?_, ?_, ?_, ?_⟩
  · intro h
    rw [h, h2] at h1
    exact absurd h1 (by decide)
  · simp only [calculateWeeklyStats, hw1, hw2, hrate, hrate0, bind, Except.bind, pure,
      Except.pure]
    norm_num
  · simp only [calculateWeeklyStats, hw3, hw4, hrate, hrate0, bind, Except.bind, pure,
      Except.pure]
    norm_num
  · have hfilter : [completeMatch].filter
        (fun m => timestampGe m.timestamp (1700000000000 - 30 * 24 * 60 * 60 * 1000)) =
        [completeMatch] := rfl
    have hfold : [completeMatch].foldlM byDateStep [] = Except.ok
        [("2023-11-14", ({ wins := 1, losses := 0, games := 1 } : DayStat))] := rfl
    have hmap := jsMapM_ok dayWithWinRate dayEntryOf
      [("2023-11-14", ({ wins := 1, losses := 0, games := 1 } : DayStat))]
      (by
        intro p hp
        apply dayWithWinRate_ok
        simp only [List.mem_singleton] at hp
        subst hp
        decide)
    simp only [getPerformanceOverTime, hfilter, hfold, hmap, bind, Except.bind, pure,
      Except.pure]
    simp only [List.map_cons, List.map_nil, dayEntryOf, jsSort, List.insertionSort,
      List.orderedInsert]
    norm_num [mathRound]
  · have hfilter : [completeMatch].filter
        (fun m => timestampGe m.timestamp (1702678400000 - 30 * 24 * 60 * 60 * 1000)) =
        [] := rfl
    simp only [getPerformanceOverTime, hfilter, bind, Except.bind, pure, Except.pure]
    rfl

/-! ## Properties: rule order and truncation -/

theorem checkFarmingIssues_length (ms : List Match) (r : List Insight)
    (h : checkFarmingIssues ms = Except.ok r) : r.length ≤ 1 := by
  cases ms with
  | nil => rw [checkFarmingIssues_nil] at h; cases h
  | cons m rest =>
    rw [checkFarmingIssues_closed (m :: rest) (by simp)] at h
    cases h
    split <;> simp

theorem checkSynergies_length (ms : List Match) (r : List Insight)
    (h : checkSynergies ms = Except.ok r) : r.length ≤ 1 := by
  rw [checkSynergies_closed] at h
  cases h
  split <;> simp

theorem checkStreaks_length (ms : List Match) (r : List Insight)
    (h : checkStreaks ms = Except.ok r) : r.length ≤ 1 := by
  unfold checkStreaks at h
  split at h
  · cases h; simp
  · split at h
    · cases h
    · simp only at h
      split at h
      · split at h
        · cases h; simp
        · split at h <;> cases h <;> simp
      · cases h; simp

theorem checkHeroPerformance_length (ms : List Match) (r : List Insight)
    (h : checkHeroPerformance ms = Except.ok r) : r.length ≤ 2 := by
  rw [checkHeroPerformance_closed] at h
  cases h
  rw [List.length_append, List.length_map, List.length_map]
  have h1 : ∀ o : Option HeroEntry, o.toList.length ≤ 1 := by
    intro o
    cases o <;> simp
  have := h1 (((jsSort (fun a b => (b.games : ℤ) - (a.games : ℤ)) (heroEntries ms)).take 10).find?
    (fun h => decide (h.games ≥ 5) && decide (h.winRate < 40)))
  have := h1 (((jsSort (fun a b => (b.games : ℤ) - (a.games : ℤ)) (heroEntries ms)).take 10).find?
    (fun h => decide (h.games ≥ 3) && decide (h.winRate ≥ 60)))
  omega

theorem checkPlayPatterns_length (ms : List Match) (hne : ms ≠ [])
    (hdur : ∀ m ∈ ms, m.duration.seconds ≠ none) (r : List Insight)
    (h : checkPlayPatterns ms = Except.ok r) : r.length ≤ 2 := by
  rw [checkPlayPatterns_closed ms hne hdur] at h
  cases h
  rw [List.length_append]
  split <;> split <;> simp

theorem checkFarmingIssues_sevenSample :
    checkFarmingIssues sevenSample = Except.ok [farmingInsight 5 9] := by
  have hd : recentDeaths sevenSample = 45 := by decide
  have hl : (sevenSample.take 5).length = 5 := by decide
  rw [checkFarmingIssues_closed sevenSample (by decide), hd, hl]
  norm_num

theorem checkSynergies_sevenSample :
    checkSynergies sevenSample = Except.ok
      [synergyInsight { wins := 6, games := 6, name := "Anti-Mage", winRate := 100 }] := by
  have hf : firstOccurrences (heroIds sevenSample) = [some 1, some 2] := by decide
  have h1 : synergyStatOf sevenSample (some 1) =
      { wins := 6, games := 6, name := "Anti-Mage" } := by decide
  have h2 : synergyStatOf sevenSample (some 2) =
      { wins := 0, games := 5, name := "Axe" } := by decide
  have he : synergyEntries sevenSample =
      [{ wins := 6, games := 6, name := "Anti-Mage", winRate := 100 },
       { wins := 0, games := 5, name := "Axe", winRate := 0 }] := by
    simp only [synergyEntries, hf, List.map_cons, List.map_nil, h1, h2, synergyEntryOf]
    norm_num [mathRound]
  rw [checkSynergies_closed, he]
  rfl

theorem checkStreaks_sevenSample :
    checkStreaks sevenSample = Except.ok [winStreakInsight 6] := rfl

theorem heroEntries_sevenSample :
    heroEntries sevenSample =
      [{ heroId := some 1, heroName := "Anti-Mage", heroImage := none, games := 6, wins := 6,
         winRate := 100 },
       { heroId := some 2, heroName := "Axe", heroImage := none, games := 5, wins := 0,
         winRate := 0 }] := by
  have hf : firstOccurrences (heroIds sevenSample) = [some 1, some 2] := by decide
  have h1 : heroStatOf sevenSample (some 1) =
      { heroId := some 1, heroName := "Anti-Mage", heroImage := none, games := 6,
        wins := 6 } := by decide
  have h2 : heroStatOf sevenSample (some 2) =
      { heroId := some 2, heroName := "Axe", heroImage := none, games := 5, wins := 0 } := by
    decide
  simp only [heroEntries, hf, List.map_cons, List.map_nil, h1, h2, heroEntryOf]
  norm_num [mathRound]

theorem checkHeroPerformance_sevenSample :
    checkHeroPerformance sevenSample = Except.ok
      [heroWarningInsight
        { heroId := some 2, heroName := "Axe", heroImage := none, games := 5, wins := 0,
          winRate := 0 },
       heroStrongInsight
        { heroId := some 1, heroName := "Anti-Mage", heroImage := none, games := 6, wins := 6,
          winRate := 100 }] := by
  rw [checkHeroPerformance_closed, heroEntries_sevenSample]
  rfl

theorem checkPlayPatterns_sevenSample :
    checkPlayPatterns sevenSample = Except.ok [lateGameInsight 55, rankedShareInsight 0] := by
  have hd : totalDuration sevenSample = 33000 := by decide
  have hl : sevenSample.length = 11 := by decide
  have ht : lateGameTotal sevenSample = 11 := by decide
  have hw : lateGameWins sevenSample = 6 := by decide
  have hr : (countMatchesByType sevenSample).ranked = 0 := by decide
  rw [checkPlayPatterns_closed sevenSample (by decide) (by decide), hd, hl, ht, hw, hr]
  norm_num [mathRound]

/-- C27: the eleven matches of `sevenSample` make the five rules produce 7 insights, one
each from the death-rate, synergy and streak rules and two each from the hero-performance
and play-pattern rules, and `generateInsights` returns the first five, losing the two
play-pattern insights. For every collection of at least five matches with durations
present the rules produce at most 1, 1, 1, 2 and 2 insights, so at most 7, and
`generateInsights` returns all insights of the first four rules followed by the first
`5 - k` play-pattern insights, `k` being the number of insights of the first four rules:
only play-pattern insights are ever dropped, the last one first. -/
theorem generateInsights_truncation :
    5 ≤ sevenSample.length ∧
    checkFarmingIssues sevenSample = Except.ok [farmingInsight 5 9] ∧
    checkSynergies sevenSample = Except.ok
      [synergyInsight { wins := 6, games := 6, name := "Anti-Mage", winRate := 100 }] ∧
    checkStreaks sevenSample = Except.ok [winStreakInsight 6] ∧
    checkHeroPerformance sevenSample = Except.ok
      [heroWarningInsight
        { heroId := some 2, heroName := "Axe", heroImage := none, games := 5, wins := 0,
          winRate := 0 },
       heroStrongInsight
        { heroId := some 1, heroName := "Anti-Mage", heroImage := none, games := 6, wins := 6,
          winRate := 100 }] ∧
    checkPlayPatterns sevenSample = Except.ok [lateGameInsight 55, rankedShareInsight 0] ∧
    generateInsights sevenSample = Except.ok
      [farmingInsight 5 9,
       synergyInsight { wins := 6, games := 6, name := "Anti-Mage", winRate := 100 },
       winStreakInsight 6,
       heroWarningInsight
        { heroId := some 2, heroName := "Axe", heroImage := none, games := 5, wins := 0,
          winRate := 0 },
       heroStrongInsight
        { heroId := some 1, heroName := "Anti-Mage", heroImage := none, games := 6, wins := 6,
          winRate := 100 }] ∧
    ∀ ms : List Match, 5 ≤ ms.length → (∀ m ∈ ms, m.duration.seconds ≠ none) →
      ∃ a b c d e, checkFarmingIssues ms = Except.ok a ∧ checkSynergies ms = Except.ok b ∧
        checkStreaks ms = Except.ok c ∧ checkHeroPerformance ms = Except.ok d ∧
        checkPlayPatterns ms = Except.ok e ∧
        a.length ≤ 1 ∧ b.length ≤ 1 ∧ c.length ≤ 1 ∧ d.length ≤ 2 ∧ e.length ≤ 2 ∧
        (a ++ b ++ c ++ d ++ e).length ≤ 7 ∧
        generateInsights ms = Except.ok
          (a ++ b ++ c ++ d ++ e.take (5 - (a ++ b ++ c ++ d).length)) ∧
        (5 < (a ++ b ++ c ++ d ++ e).length →
          e.take (5 - (a ++ b ++ c ++ d).length) ≠ e) := by
  have hgen : ∀ ms : List Match, 5 ≤ ms.length → (∀ m ∈ ms, m.duration.seconds ≠ none) →
      ∃ a b c d e, checkFarmingIssues ms = Except.ok a ∧ checkSynergies ms = Except.ok b ∧
        checkStreaks ms = Except.ok c ∧ checkHeroPerformance ms = Except.ok d ∧
        checkPlayPatterns ms = Except.ok e ∧
        a.length ≤ 1 ∧ b.length ≤ 1 ∧ c.length ≤ 1 ∧ d.length ≤ 2 ∧ e.length ≤ 2 ∧
        (a ++ b ++ c ++ d ++ e).length ≤ 7 ∧
        generateInsights ms = Except.ok
          (a ++ b ++ c ++ d ++ e.take (5 - (a ++ b ++ c ++ d).length)) ∧
        (5 < (a ++ b ++ c ++ d ++ e).length →
          e.take (5 - (a ++ b ++ c ++ d).length) ≠ e) := by
    intro ms h5 hdur
    have hne : ms ≠ [] := by
      rintro rfl
      simp at h5
    obtain ⟨a, ha⟩ := checkFarmingIssues_ok ms hne
    obtain ⟨b, hb⟩ := checkSynergies_ok ms
    obtain ⟨c, hc⟩ := checkStreaks_ok ms
    obtain ⟨d, hd⟩ := checkHeroPerformance_ok ms
    obtain ⟨e, he⟩ := checkPlayPatterns_ok ms hne hdur
    have la := checkFarmingIssues_length ms a ha
    have lb := checkSynergies_length ms b hb
    have lc := checkStreaks_length ms c hc
    have ld := checkHeroPerformance_length ms d hd
    have le := checkPlayPatterns_length ms hne hdur e he
    have hlen4 : (a ++ b ++ c ++ d).length ≤ 5 := by
      simp only [List.length_append]
      omega
    refine ⟨a, b, c, d, e, ha, hb, hc, hd, he, la, lb, lc, ld, le, ?_, ?_, ?_⟩
    · simp only [List.length_append]
      omega
    · have hlt : ¬ ms.length < 5 := by omega
      simp only [generateInsights, hlt, if_false, ha, hb, hc, hd, he, bind, Except.bind, pure,
        Except.pure]
      rw [List.take_append_eq_append_take, List.take_of_length_le hlen4]
    · intro htot hc2
      have hl := congrArg List.length hc2
      rw [List.length_take] at hl
      simp only [List.length_append] at htot hlen4 hl
      omega
  refine ⟨by decide, checkFarmingIssues_sevenSample, checkSynergies_sevenSample,
    checkStreaks_sevenSample, checkHeroPerformance_sevenSample, checkPlayPatterns_sevenSample,
    ?_, hgen⟩
  have hlt : ¬ sevenSample.length < 5 := by decide
  simp only [generateInsights, hlt, if_false, checkFarmingIssues_sevenSample,
    checkSynergies_sevenSample, checkStreaks_sevenSample, checkHeroPerformance_sevenSample,
    checkPlayPatterns_sevenSample, bind, Except.bind, pure, Except.pure]
  rfl

/-- C27 (witness): the general part of the statement at `sevenSample`, whose eleven matches
all have a duration. -/
theorem generateInsights_truncation_witness :
    5 ≤ sevenSample.length ∧ (∀ m ∈ sevenSample, m.duration.seconds ≠ none) ∧
    ∃ a b c d e, checkFarmingIssues sevenSample = Except.ok a ∧
      checkSynergies sevenSample = Except.ok b ∧
      checkStreaks sevenSample = Except.ok c ∧ checkHeroPerformance sevenSample = Except.ok d ∧
      checkPlayPatterns sevenSample = Except.ok e ∧
      a.length ≤ 1 ∧ b.length ≤ 1 ∧ c.length ≤ 1 ∧ d.length ≤ 2 ∧ e.length ≤ 2 ∧
      (a ++ b ++ c ++ d ++ e).length ≤ 7 ∧
      generateInsights sevenSample = Except.ok
        (a ++ b ++ c ++ d ++ e.take (5 - (a ++ b ++ c ++ d).length)) ∧
      (5 < (a ++ b ++ c ++ d ++ e).length →
        e.take (5 - (a ++ b ++ c ++ d).length) ≠ e) :=
  ⟨by decide, by decide,
    generateInsights_truncation.2.2.2.2.2.2.2 sevenSample (by decide) (by decide)⟩

end WorkdayDota
